import Mathlib

/-! # Pairwise ranking bins: histogram construction and split

A shallow embedding of `src/io/pairwise_lambdarank_bin.cpp` (LightGBM) and the
properties proved about it.

Conventions of the embedding.

* Arrays reached through a pointer (`data_indices`, `ordered_gradients`, `out`,
  `lte_indices`, ...) are functions from the position to the value stored there;
  a store `p[k] = v` is `store p k v`.
* `data_size_t` positions and `uint32_t` bin values are natural numbers; `uint32_t`
  and `VAL_T` arithmetic that can wrap is written with an explicit `% 2 ^ bits`.
* Packed histogram cells (`int16_t`, `int32_t`, `int64_t`) are integers, and every
  conversion to such a type is the two's complement wrap `static_cast_int`.
* The members declared in `pairwise_lambdarank_bin.hpp`, which is not part of the
  sources (`get_unpaired_index`, `unpaired_bin_->data`), are parameters.
* A counting loop `for (; i < e; ++i)` whose body changes neither `i` nor `e` is
  `forLoop body (e - i) i`: the body runs at `i`, `i + 1`, ..., `e - 1`.
-/

namespace LightGBM

/-! ## Memory and loops -/

/-- The array `p` after the store `p[k] = v`. -/
def store {α : Type} (p : Nat → α) (k : Nat) (v : α) : Nat → α :=
  fun j => if j = k then v else p j

/-- The first `n` cells of the array `p`, in order. -/
def firstN {α : Type} (p : Nat → α) (n : Nat) : List α :=
  (List.range n).map p

/-- A counting loop: `n` iterations of `body`, at the positions `i`, `i + 1`, ...,
`i + n - 1`, threading the state `s`. -/
def forLoop {σ : Type} (body : Nat → σ → σ) : Nat → Nat → σ → σ
  | 0, _, s => s
  | n + 1, i, s => forLoop body n (i + 1) (body i s)

/-- Conversion `static_cast<T>(x)` to an unsigned type `T` of `bits` bits. -/
def static_cast (bits x : Nat) : Nat :=
  x % 2 ^ bits

/-- The decrement `--x` of an unsigned value of `bits` bits (wraps at zero). -/
def decrement (bits x : Nat) : Nat :=
  (x + (2 ^ bits - 1)) % 2 ^ bits

/-- Conversion to a signed two's complement type of `bits` bits. -/
def static_cast_int (bits : Nat) (x : Int) : Int :=
  (x + 2 ^ (bits - 1)) % 2 ^ bits - 2 ^ (bits - 1)

/-! ## Split -/

/-- The missing value policy of a feature (`enum MissingType` of `bin.h`). -/
inductive MissingType where
  | None
  | Zero
  | NaN
  deriving DecidableEq

/-- The output array a pointer such as `default_indices` designates, together with
its counter: `lte_indices` with `lte_count`, or `gt_indices` with `gt_count`. -/
inductive Side where
  | lte
  | gt
  deriving DecidableEq

/-- The two output arrays of `Split` and the two counters of `SplitInner`. The value
`SplitInner` returns is the field `lte_count`. -/
structure SplitOut where
  lte_indices : Nat → Nat
  gt_indices : Nat → Nat
  lte_count : Nat
  gt_count : Nat

/-- The statement `indices[(*count)++] = v` through a pointer pair designating `side`. -/
def SplitOut.write (s : SplitOut) (side : Side) (v : Nat) : SplitOut :=
  match side with
  | Side.lte =>
    { s with lte_indices := store s.lte_indices s.lte_count v, lte_count := s.lte_count + 1 }
  | Side.gt =>
    { s with gt_indices := store s.gt_indices s.gt_count v, gt_count := s.gt_count + 1 }

/-- The entries written to `lte_indices`: its first `lte_count` cells. -/
def SplitOut.lte (s : SplitOut) : List Nat :=
  firstN s.lte_indices s.lte_count

/-- The entries written to `gt_indices`: its first `gt_count` cells. -/
def SplitOut.gt (s : SplitOut) : List Nat :=
  firstN s.gt_indices s.gt_count

/-- The threshold `th` of `SplitInner`: `static_cast<VAL_T>(threshold + min_bin)`,
decremented when `most_freq_bin == 0`. -/
def SplitInner_th (VAL_BITS min_bin most_freq_bin threshold : Nat) : Nat :=
  let th := static_cast VAL_BITS ((threshold + min_bin) % 2 ^ 32)
  if most_freq_bin = 0 then decrement VAL_BITS th else th

/-- The bin `t_zero_bin` of `SplitInner`: `static_cast<VAL_T>(min_bin + default_bin)`,
decremented when `most_freq_bin == 0`. -/
def SplitInner_t_zero_bin (VAL_BITS min_bin default_bin most_freq_bin : Nat) : Nat :=
  let t_zero_bin := static_cast VAL_BITS ((min_bin + default_bin) % 2 ^ 32)
  if most_freq_bin = 0 then decrement VAL_BITS t_zero_bin else t_zero_bin

/-- The side `default_indices` designates: `lte` when `most_freq_bin <= threshold`. -/
def SplitInner_default_side (most_freq_bin threshold : Nat) : Side :=
  if most_freq_bin ≤ threshold then Side.lte else Side.gt

/-- The side `missing_default_indices` designates: `lte` when one of `MISS_IS_ZERO`,
`MISS_IS_NA` holds and `default_left` is set. -/
def SplitInner_missing_default_side (MISS_IS_ZERO MISS_IS_NA default_left : Bool) : Side :=
  if (MISS_IS_ZERO || MISS_IS_NA) && default_left then Side.lte else Side.gt

/-- The body of the loop of `SplitInner` taken when `min_bin < max_bin`. -/
def SplitInner_body (get_unpaired_index data : Nat → Nat)
    (MISS_IS_ZERO MISS_IS_NA MFB_IS_ZERO MFB_IS_NA USE_MIN_BIN : Bool)
    (th t_zero_bin minb maxb : Nat) (default_side missing_default_side : Side)
    (data_indices : Nat → Nat) (i : Nat) (s : SplitOut) : SplitOut :=
  let paired_idx := data_indices i
  let idx := get_unpaired_index paired_idx
  let bin := data idx
  if (MISS_IS_ZERO && !MFB_IS_ZERO && bin == t_zero_bin) ||
      (MISS_IS_NA && !MFB_IS_NA && bin == maxb) then
    s.write missing_default_side paired_idx
  else if (USE_MIN_BIN && (decide (bin < minb) || decide (bin > maxb))) ||
      (!USE_MIN_BIN && bin == 0) then
    if (MISS_IS_NA && MFB_IS_NA) || (MISS_IS_ZERO && MFB_IS_ZERO) then
      s.write missing_default_side paired_idx
    else
      s.write default_side paired_idx
  else if bin > th then
    s.write Side.gt paired_idx
  else
    s.write Side.lte paired_idx

/-- The body of the loop of `SplitInner` taken when `min_bin < max_bin` fails. -/
def SplitInner_body_degenerate (get_unpaired_index data : Nat → Nat)
    (MISS_IS_ZERO MISS_IS_NA MFB_IS_ZERO MFB_IS_NA : Bool)
    (t_zero_bin maxb : Nat) (default_side missing_default_side max_bin_side : Side)
    (data_indices : Nat → Nat) (i : Nat) (s : SplitOut) : SplitOut :=
  let paired_idx := data_indices i
  let idx := get_unpaired_index paired_idx
  let bin := data idx
  if MISS_IS_ZERO && !MFB_IS_ZERO && bin == t_zero_bin then
    s.write missing_default_side paired_idx
  else if bin != maxb then
    if (MISS_IS_NA && MFB_IS_NA) || (MISS_IS_ZERO && MFB_IS_ZERO) then
      s.write missing_default_side paired_idx
    else
      s.write default_side paired_idx
  else
    if MISS_IS_NA && !MFB_IS_NA then
      s.write missing_default_side paired_idx
    else
      s.write max_bin_side paired_idx

/-- The function `DensePairwiseRankingBin::SplitInner`. `VAL_BITS` is the width of
`VAL_T`; the five booleans are the template arguments. -/
def SplitInner (VAL_BITS : Nat) (get_unpaired_index data : Nat → Nat)
    (MISS_IS_ZERO MISS_IS_NA MFB_IS_ZERO MFB_IS_NA USE_MIN_BIN : Bool)
    (min_bin max_bin default_bin most_freq_bin : Nat) (default_left : Bool)
    (threshold : Nat) (data_indices : Nat → Nat) (cnt : Nat)
    (lte_indices gt_indices : Nat → Nat) : SplitOut :=
  let th := SplitInner_th VAL_BITS min_bin most_freq_bin threshold
  let t_zero_bin := SplitInner_t_zero_bin VAL_BITS min_bin default_bin most_freq_bin
  let minb := static_cast VAL_BITS min_bin
  let maxb := static_cast VAL_BITS max_bin
  let s0 : SplitOut :=
    { lte_indices := lte_indices, gt_indices := gt_indices, lte_count := 0, gt_count := 0 }
  let default_side := SplitInner_default_side most_freq_bin threshold
  let missing_default_side :=
    SplitInner_missing_default_side MISS_IS_ZERO MISS_IS_NA default_left
  if min_bin < max_bin then
    forLoop (SplitInner_body get_unpaired_index data MISS_IS_ZERO MISS_IS_NA MFB_IS_ZERO
      MFB_IS_NA USE_MIN_BIN th t_zero_bin minb maxb default_side missing_default_side
      data_indices) cnt 0 s0
  else
    let max_bin_side := if maxb ≤ th then Side.lte else Side.gt
    forLoop (SplitInner_body_degenerate get_unpaired_index data MISS_IS_ZERO MISS_IS_NA
      MFB_IS_ZERO MFB_IS_NA t_zero_bin maxb default_side missing_default_side max_bin_side
      data_indices) cnt 0 s0

/-- The two overloads of `DensePairwiseRankingBin::Split`: `min_bin = some m` is the
overload with a `min_bin` argument, `min_bin = none` the one without, which passes `1`
and clears `USE_MIN_BIN`. -/
def Split (VAL_BITS : Nat) (get_unpaired_index data : Nat → Nat)
    (min_bin : Option Nat) (max_bin default_bin most_freq_bin : Nat)
    (missing_type : MissingType) (default_left : Bool) (threshold : Nat)
    (data_indices : Nat → Nat) (cnt : Nat) (lte_indices gt_indices : Nat → Nat) : SplitOut :=
  match min_bin with
  | some min_bin =>
    if missing_type = MissingType.None then
      SplitInner VAL_BITS get_unpaired_index data false false false false true
        min_bin max_bin default_bin most_freq_bin default_left threshold
        data_indices cnt lte_indices gt_indices
    else if missing_type = MissingType.Zero then
      if default_bin = most_freq_bin then
        SplitInner VAL_BITS get_unpaired_index data true false true false true
          min_bin max_bin default_bin most_freq_bin default_left threshold
          data_indices cnt lte_indices gt_indices
      else
        SplitInner VAL_BITS get_unpaired_index data true false false false true
          min_bin max_bin default_bin most_freq_bin default_left threshold
          data_indices cnt lte_indices gt_indices
    else
      if max_bin = (most_freq_bin + min_bin) % 2 ^ 32 ∧ most_freq_bin > 0 then
        SplitInner VAL_BITS get_unpaired_index data false true false true true
          min_bin max_bin default_bin most_freq_bin default_left threshold
          data_indices cnt lte_indices gt_indices
      else
        SplitInner VAL_BITS get_unpaired_index data false true false false true
          min_bin max_bin default_bin most_freq_bin default_left threshold
          data_indices cnt lte_indices gt_indices
  | none =>
    if missing_type = MissingType.None then
      SplitInner VAL_BITS get_unpaired_index data false false false false false
        1 max_bin default_bin most_freq_bin default_left threshold
        data_indices cnt lte_indices gt_indices
    else if missing_type = MissingType.Zero then
      if default_bin = most_freq_bin then
        SplitInner VAL_BITS get_unpaired_index data true false true false false
          1 max_bin default_bin most_freq_bin default_left threshold
          data_indices cnt lte_indices gt_indices
      else
        SplitInner VAL_BITS get_unpaired_index data true false false false false
          1 max_bin default_bin most_freq_bin default_left threshold
          data_indices cnt lte_indices gt_indices
    else
      if max_bin = (most_freq_bin + 1) % 2 ^ 32 ∧ most_freq_bin > 0 then
        SplitInner VAL_BITS get_unpaired_index data false true false true false
          1 max_bin default_bin most_freq_bin default_left threshold
          data_indices cnt lte_indices gt_indices
      else
        SplitInner VAL_BITS get_unpaired_index data false true false false false
          1 max_bin default_bin most_freq_bin default_left threshold
          data_indices cnt lte_indices gt_indices

/-! ## The side a bin is routed to

The decision taken by the loop bodies of `SplitInner`, as a function of the bin code of
the pair; the properties of `Split` are stated and proved through it. -/

/-- The side on which one iteration of the main loop of `SplitInner` writes a pair whose
resolved bin code is `bin` (the branch structure of `SplitInner_body`). -/
def SplitInner_side (MISS_IS_ZERO MISS_IS_NA MFB_IS_ZERO MFB_IS_NA USE_MIN_BIN : Bool)
    (th t_zero_bin minb maxb : Nat) (default_side missing_default_side : Side)
    (bin : Nat) : Side :=
  if (MISS_IS_ZERO && !MFB_IS_ZERO && bin == t_zero_bin) ||
      (MISS_IS_NA && !MFB_IS_NA && bin == maxb) then
    missing_default_side
  else if (USE_MIN_BIN && (decide (bin < minb) || decide (bin > maxb))) ||
      (!USE_MIN_BIN && bin == 0) then
    if (MISS_IS_NA && MFB_IS_NA) || (MISS_IS_ZERO && MFB_IS_ZERO) then
      missing_default_side
    else
      default_side
  else if bin > th then
    Side.gt
  else
    Side.lte

/-- The side on which one iteration of the degenerate loop of `SplitInner` writes a pair
whose resolved bin code is `bin` (the branch structure of `SplitInner_body_degenerate`). -/
def SplitInner_side_degenerate (MISS_IS_ZERO MISS_IS_NA MFB_IS_ZERO MFB_IS_NA : Bool)
    (t_zero_bin maxb : Nat) (default_side missing_default_side max_bin_side : Side)
    (bin : Nat) : Side :=
  if MISS_IS_ZERO && !MFB_IS_ZERO && bin == t_zero_bin then
    missing_default_side
  else if bin != maxb then
    if (MISS_IS_NA && MFB_IS_NA) || (MISS_IS_ZERO && MFB_IS_ZERO) then
      missing_default_side
    else
      default_side
  else
    if MISS_IS_NA && !MFB_IS_NA then
      missing_default_side
    else
      max_bin_side

/-- The side on which `SplitInner` writes a pair whose resolved bin code is `bin`. -/
def SplitInner_route (VAL_BITS : Nat)
    (MISS_IS_ZERO MISS_IS_NA MFB_IS_ZERO MFB_IS_NA USE_MIN_BIN : Bool)
    (min_bin max_bin default_bin most_freq_bin : Nat) (default_left : Bool)
    (threshold : Nat) (bin : Nat) : Side :=
  let th := SplitInner_th VAL_BITS min_bin most_freq_bin threshold
  let t_zero_bin := SplitInner_t_zero_bin VAL_BITS min_bin default_bin most_freq_bin
  let minb := static_cast VAL_BITS min_bin
  let maxb := static_cast VAL_BITS max_bin
  let default_side := SplitInner_default_side most_freq_bin threshold
  let missing_default_side :=
    SplitInner_missing_default_side MISS_IS_ZERO MISS_IS_NA default_left
  if min_bin < max_bin then
    SplitInner_side MISS_IS_ZERO MISS_IS_NA MFB_IS_ZERO MFB_IS_NA USE_MIN_BIN
      th t_zero_bin minb maxb default_side missing_default_side bin
  else
    SplitInner_side_degenerate MISS_IS_ZERO MISS_IS_NA MFB_IS_ZERO MFB_IS_NA
      t_zero_bin maxb default_side missing_default_side
      (if maxb ≤ th then Side.lte else Side.gt) bin

/-- The side on which `Split` writes a pair whose resolved bin code is `bin`: the
template arguments are chosen as in the two overloads of `Split`. -/
def Split_route (VAL_BITS : Nat) (min_bin : Option Nat)
    (max_bin default_bin most_freq_bin : Nat) (missing_type : MissingType)
    (default_left : Bool) (threshold : Nat) (bin : Nat) : Side :=
  match min_bin with
  | some min_bin =>
    if missing_type = MissingType.None then
      SplitInner_route VAL_BITS false false false false true
        min_bin max_bin default_bin most_freq_bin default_left threshold bin
    else if missing_type = MissingType.Zero then
      if default_bin = most_freq_bin then
        SplitInner_route VAL_BITS true false true false true
          min_bin max_bin default_bin most_freq_bin default_left threshold bin
      else
        SplitInner_route VAL_BITS true false false false true
          min_bin max_bin default_bin most_freq_bin default_left threshold bin
    else
      if max_bin = (most_freq_bin + min_bin) % 2 ^ 32 ∧ most_freq_bin > 0 then
        SplitInner_route VAL_BITS false true false true true
          min_bin max_bin default_bin most_freq_bin default_left threshold bin
      else
        SplitInner_route VAL_BITS false true false false true
          min_bin max_bin default_bin most_freq_bin default_left threshold bin
  | none =>
    if missing_type = MissingType.None then
      SplitInner_route VAL_BITS false false false false false
        1 max_bin default_bin most_freq_bin default_left threshold bin
    else if missing_type = MissingType.Zero then
      if default_bin = most_freq_bin then
        SplitInner_route VAL_BITS true false true false false
          1 max_bin default_bin most_freq_bin default_left threshold bin
      else
        SplitInner_route VAL_BITS true false false false false
          1 max_bin default_bin most_freq_bin default_left threshold bin
    else
      if max_bin = (most_freq_bin + 1) % 2 ^ 32 ∧ most_freq_bin > 0 then
        SplitInner_route VAL_BITS false true false true false
          1 max_bin default_bin most_freq_bin default_left threshold bin
      else
        SplitInner_route VAL_BITS false true false false false
          1 max_bin default_bin most_freq_bin default_left threshold bin

/-- The default bucket of `Split`: a bin outside `[min_bin, max_bin]` in the overload
with a `min_bin` argument, the bin `0` in the overload without. -/
def default_bucket (min_bin : Option Nat) (max_bin bin : Nat) : Prop :=
  match min_bin with
  | some min_bin => bin < min_bin ∨ max_bin < bin
  | none => bin = 0

/-! ## Histogram construction in floating precision

The cells of `out` have an arbitrary type `H` and the gradients a type `S`; the
operation `hist_t += score_t` is the parameter `add`, and the increment `++cnt[ti]` of a
cell read through the `hist_cnt_t` overlay is the parameter `incr`. No property of
floating point addition is assumed. A pointer argument that an overload passes as
`nullptr` is `none`. -/

/-- The pair index of position `i`: `USE_INDICES ? data_indices[i] : i`. Reading through
a null `data_indices` does not occur in any entry point; the model yields `i`. -/
def paired_index (USE_INDICES : Bool) (data_indices : Option (Nat → Nat)) (i : Nat) : Nat :=
  if USE_INDICES then
    match data_indices with
    | some data_indices => data_indices i
    | none => i
  else i

/-- The bin code of the pair at position `i`:
`unpaired_bin_->data(get_unpaired_index(paired_idx))`. -/
def resolved_bin (get_unpaired_index data : Nat → Nat) (USE_INDICES : Bool)
    (data_indices : Option (Nat → Nat)) (i : Nat) : Nat :=
  data (get_unpaired_index (paired_index USE_INDICES data_indices i))

/-- The body of both loops of `ConstructHistogramInner` (`PREFETCH_T0` is a cache hint
and changes no value). Here `grad[ti]` is `out[ti]`, and `hess[ti]` and `cnt[ti]` are
`out[ti + 1]`. A null `ordered_hessians` is never read by an entry point; the model
skips the store. -/
def ConstructHistogramInner_body {H S : Type} (add : H → S → H) (incr : H → H)
    (get_unpaired_index data : Nat → Nat) (USE_INDICES USE_HESSIAN : Bool)
    (data_indices : Option (Nat → Nat)) (ordered_gradients : Nat → S)
    (ordered_hessians : Option (Nat → S)) (i : Nat) (out : Nat → H) : Nat → H :=
  let paired_idx := paired_index USE_INDICES data_indices i
  let idx := get_unpaired_index paired_idx
  let ti := (static_cast 32 (data idx) * 2) % 2 ^ 32
  if USE_HESSIAN then
    let out := store out ti (add (out ti) (ordered_gradients i))
    match ordered_hessians with
    | some ordered_hessians => store out (ti + 1) (add (out (ti + 1)) (ordered_hessians i))
    | none => out
  else
    let out := store out ti (add (out ti) (ordered_gradients i))
    store out (ti + 1) (incr (out (ti + 1)))

/-- The number of iterations of the prefetch loop `for (; i < pf_end; ++i)` entered at
`i = start`, where `pf_offset = 64 / sizeof(VAL_T)` and `pf_end = end - pf_offset` is a
signed `data_size_t`; none without `USE_PREFETCH`. -/
def prefetch_iterations (SIZEOF_VAL_T : Nat) (USE_PREFETCH : Bool) (start end_ : Nat) : Nat :=
  if USE_PREFETCH then
    let pf_offset : Nat := 64 / SIZEOF_VAL_T
    let pf_end : Int := (end_ : Int) - (pf_offset : Int)
    (pf_end - (start : Int)).toNat
  else 0

/-- The function `DensePairwiseRankingBin::ConstructHistogramInner`: the prefetch loop,
then the loop over the remaining positions up to `end`. -/
def ConstructHistogramInner {H S : Type} (add : H → S → H) (incr : H → H)
    (SIZEOF_VAL_T : Nat) (get_unpaired_index data : Nat → Nat)
    (USE_INDICES USE_PREFETCH USE_HESSIAN : Bool)
    (data_indices : Option (Nat → Nat)) (start end_ : Nat) (ordered_gradients : Nat → S)
    (ordered_hessians : Option (Nat → S)) (out : Nat → H) : Nat → H :=
  let body := ConstructHistogramInner_body add incr get_unpaired_index data USE_INDICES
    USE_HESSIAN data_indices ordered_gradients ordered_hessians
  let n := prefetch_iterations SIZEOF_VAL_T USE_PREFETCH start end_
  let out := forLoop body n start out
  let i := start + n
  forLoop body (end_ - i) i out

/-- The four overloads of `DensePairwiseRankingBin::ConstructHistogram`: `data_indices`
is `some` in the two overloads with explicit indices, `ordered_hessians` is `some` in the
two overloads that accumulate hessians. -/
def ConstructHistogram {H S : Type} (add : H → S → H) (incr : H → H)
    (SIZEOF_VAL_T : Nat) (get_unpaired_index data : Nat → Nat)
    (data_indices : Option (Nat → Nat)) (start end_ : Nat) (ordered_gradients : Nat → S)
    (ordered_hessians : Option (Nat → S)) (out : Nat → H) : Nat → H :=
  match data_indices, ordered_hessians with
  | some data_indices, some ordered_hessians =>
    ConstructHistogramInner add incr SIZEOF_VAL_T get_unpaired_index data true true true
      (some data_indices) start end_ ordered_gradients (some ordered_hessians) out
  | none, some ordered_hessians =>
    ConstructHistogramInner add incr SIZEOF_VAL_T get_unpaired_index data false false true
      none start end_ ordered_gradients (some ordered_hessians) out
  | some data_indices, none =>
    ConstructHistogramInner add incr SIZEOF_VAL_T get_unpaired_index data true true false
      (some data_indices) start end_ ordered_gradients none out
  | none, none =>
    ConstructHistogramInner add incr SIZEOF_VAL_T get_unpaired_index data false false false
      none start end_ ordered_gradients none out

/-- The increment `++cnt[ti]` of a cell read as an integer of `CNT_BITS` bits (the type
`hist_cnt_t`, which overlays a `hist_t` cell). -/
def hist_cnt_incr (CNT_BITS : Nat) (c : Nat) : Nat :=
  (c + 1) % 2 ^ CNT_BITS

/-- The positions of `[start, end)` whose pair resolves to the bin code `b`, in
increasing order. -/
def positions_of_bin (get_unpaired_index data : Nat → Nat) (USE_INDICES : Bool)
    (data_indices : Option (Nat → Nat)) (start end_ : Nat) (b : Nat) : List Nat :=
  (List.range' start (end_ - start)).filter
    (fun i => decide (resolved_bin get_unpaired_index data USE_INDICES data_indices i = b))

/-- Modelled from the spec: the First-Item mapper of `pairwise_lambdarank_bin.hpp`, which
is not part of the sources. It returns the unpaired index of the first example of the
pair; `pairs` lists the pairs by pair index. -/
def first_item_get_unpaired_index (pairs : List (Nat × Nat)) (paired_idx : Nat) : Nat :=
  (pairs.getD paired_idx (0, 0)).1

/-! ## Histogram construction in packed integer precision

A cell of `out_ptr` is an integer of `PACKED_BITS` bits (`PACKED_HIST_T`), and
`ordered_gradients` stands for the array `gradients_ptr` of 16-bit integers that the
function reads in its place. -/

/-- The value `gradient_packed` added to a cell, from the 16-bit `gradient_16`. -/
def gradient_packed (USE_HESSIAN : Bool) (PACKED_BITS HIST_BITS : Nat) (gradient_16 : Int) :
    Int :=
  static_cast_int PACKED_BITS
    (if HIST_BITS = 8 then gradient_16
     else
       Int.lor
         ((static_cast_int PACKED_BITS (static_cast_int 8 (Int.shiftRight gradient_16 8)))
            <<< (HIST_BITS : Int))
         (if USE_HESSIAN then Int.land gradient_16 0xff else 1))

/-- The body of both loops of `ConstructHistogramIntInner`. -/
def ConstructHistogramIntInner_body (get_unpaired_index data : Nat → Nat)
    (USE_INDICES USE_HESSIAN : Bool) (PACKED_BITS HIST_BITS : Nat)
    (data_indices : Option (Nat → Nat)) (ordered_gradients : Nat → Int)
    (i : Nat) (out : Nat → Int) : Nat → Int :=
  let paired_idx := paired_index USE_INDICES data_indices i
  let idx := get_unpaired_index paired_idx
  let ti := static_cast 32 (data idx)
  let gradient_16 := static_cast_int 16 (ordered_gradients i)
  store out ti (static_cast_int PACKED_BITS
    (out ti + gradient_packed USE_HESSIAN PACKED_BITS HIST_BITS gradient_16))

/-- The function `DensePairwiseRankingBin::ConstructHistogramIntInner`. -/
def ConstructHistogramIntInner (SIZEOF_VAL_T : Nat) (get_unpaired_index data : Nat → Nat)
    (USE_INDICES USE_PREFETCH USE_HESSIAN : Bool) (PACKED_BITS HIST_BITS : Nat)
    (data_indices : Option (Nat → Nat)) (start end_ : Nat) (ordered_gradients : Nat → Int)
    (out : Nat → Int) : Nat → Int :=
  let body := ConstructHistogramIntInner_body get_unpaired_index data USE_INDICES
    USE_HESSIAN PACKED_BITS HIST_BITS data_indices ordered_gradients
  let n := prefetch_iterations SIZEOF_VAL_T USE_PREFETCH start end_
  let out := forLoop body n start out
  let i := start + n
  forLoop body (end_ - i) i out

/-- The four overloads of `ConstructHistogramInt8` (cells of type `int16_t`, lanes of 8 bits):
`data_indices` is `some` in the overloads with explicit indices, `ordered_hessians` is
`some` in the overloads with a hessian argument, which is never read. -/
def ConstructHistogramInt8 (SIZEOF_VAL_T : Nat) (get_unpaired_index data : Nat → Nat)
    (data_indices : Option (Nat → Nat)) (start end_ : Nat) (ordered_gradients : Nat → Int)
    (ordered_hessians : Option (Nat → Int)) (out : Nat → Int) : Nat → Int :=
  match data_indices, ordered_hessians with
  | some data_indices, some _ =>
    ConstructHistogramIntInner SIZEOF_VAL_T get_unpaired_index data true true true
      16 8 (some data_indices) start end_ ordered_gradients out
  | none, some _ =>
    ConstructHistogramIntInner SIZEOF_VAL_T get_unpaired_index data false false true
      16 8 none start end_ ordered_gradients out
  | some data_indices, none =>
    ConstructHistogramIntInner SIZEOF_VAL_T get_unpaired_index data true true false
      16 8 (some data_indices) start end_ ordered_gradients out
  | none, none =>
    ConstructHistogramIntInner SIZEOF_VAL_T get_unpaired_index data false false false
      16 8 none start end_ ordered_gradients out

/-- The four overloads of `ConstructHistogramInt16` (cells of type `int32_t`, lanes of 16 bits):
`data_indices` is `some` in the overloads with explicit indices, `ordered_hessians` is
`some` in the overloads with a hessian argument, which is never read. -/
def ConstructHistogramInt16 (SIZEOF_VAL_T : Nat) (get_unpaired_index data : Nat → Nat)
    (data_indices : Option (Nat → Nat)) (start end_ : Nat) (ordered_gradients : Nat → Int)
    (ordered_hessians : Option (Nat → Int)) (out : Nat → Int) : Nat → Int :=
  match data_indices, ordered_hessians with
  | some data_indices, some _ =>
    ConstructHistogramIntInner SIZEOF_VAL_T get_unpaired_index data true true true
      32 16 (some data_indices) start end_ ordered_gradients out
  | none, some _ =>
    ConstructHistogramIntInner SIZEOF_VAL_T get_unpaired_index data false false true
      32 16 none start end_ ordered_gradients out
  | some data_indices, none =>
    ConstructHistogramIntInner SIZEOF_VAL_T get_unpaired_index data true true false
      32 16 (some data_indices) start end_ ordered_gradients out
  | none, none =>
    ConstructHistogramIntInner SIZEOF_VAL_T get_unpaired_index data false false false
      32 16 none start end_ ordered_gradients out

/-- The four overloads of `ConstructHistogramInt32` (cells of type `int64_t`, lanes of 32 bits):
`data_indices` is `some` in the overloads with explicit indices, `ordered_hessians` is
`some` in the overloads with a hessian argument, which is never read. -/
def ConstructHistogramInt32 (SIZEOF_VAL_T : Nat) (get_unpaired_index data : Nat → Nat)
    (data_indices : Option (Nat → Nat)) (start end_ : Nat) (ordered_gradients : Nat → Int)
    (ordered_hessians : Option (Nat → Int)) (out : Nat → Int) : Nat → Int :=
  match data_indices, ordered_hessians with
  | some data_indices, some _ =>
    ConstructHistogramIntInner SIZEOF_VAL_T get_unpaired_index data true true true
      64 32 (some data_indices) start end_ ordered_gradients out
  | none, some _ =>
    ConstructHistogramIntInner SIZEOF_VAL_T get_unpaired_index data false false true
      64 32 none start end_ ordered_gradients out
  | some data_indices, none =>
    ConstructHistogramIntInner SIZEOF_VAL_T get_unpaired_index data true true false
      64 32 (some data_indices) start end_ ordered_gradients out
  | none, none =>
    ConstructHistogramIntInner SIZEOF_VAL_T get_unpaired_index data false false false
      64 32 none start end_ ordered_gradients out

/-- The packed entry point whose lanes have `HIST_BITS` bits: `ConstructHistogramInt8`
for 8, `ConstructHistogramInt16` for 16, `ConstructHistogramInt32` otherwise. -/
def ConstructHistogramIntOfLane (HIST_BITS : Nat) (SIZEOF_VAL_T : Nat)
    (get_unpaired_index data : Nat → Nat)
    (data_indices : Option (Nat → Nat)) (start end_ : Nat) (ordered_gradients : Nat → Int)
    (ordered_hessians : Option (Nat → Int)) (out : Nat → Int) : Nat → Int :=
  if HIST_BITS = 8 then
    ConstructHistogramInt8 SIZEOF_VAL_T get_unpaired_index data data_indices start end_
      ordered_gradients ordered_hessians out
  else if HIST_BITS = 16 then
    ConstructHistogramInt16 SIZEOF_VAL_T get_unpaired_index data data_indices start end_
      ordered_gradients ordered_hessians out
  else
    ConstructHistogramInt32 SIZEOF_VAL_T get_unpaired_index data data_indices start end_
      ordered_gradients ordered_hessians out

/-- The sum, over the positions `l`, of the sign-extended high bytes of the 16-bit packed
gradients: the 16-bit value at `i` is `static_cast_int 16 (ordered_gradients i)` and its
sign-extended high byte is its quotient by 256, rounded down. -/
def high_byte_sum (ordered_gradients : Nat → Int) (l : List Nat) : Int :=
  (l.map (fun i => static_cast_int 16 (ordered_gradients i) / 256)).sum

/-- The sum, over the positions `l`, of the low bytes, read as `0..255`, of the 16-bit
packed gradients: the remainders modulo 256. -/
def low_byte_sum (ordered_gradients : Nat → Int) (l : List Nat) : Int :=
  (l.map (fun i => static_cast_int 16 (ordered_gradients i) % 256)).sum

/-! ## The reads of `data_indices`

The loops of `ConstructHistogramInner` and `ConstructHistogramIntInner`, instrumented:
next to the buffer, a trace records the positions at which `data_indices` is read, in
the order of the source, and the position of every iteration of each of the two loops.
The pair index an iteration works with is the value the recorded read returns. -/

/-- The positions accumulated by the prefetch loop, those accumulated by the loop that
follows it, and the positions at which `data_indices` was read. -/
structure LoopTrace where
  prefetch_positions : List Nat
  cleanup_positions : List Nat
  data_indices_reads : List Nat

/-- The expression `USE_INDICES ? data_indices[pos] : pos`: its value, and the trace with
`pos` appended to the reads of `data_indices` when the array is read. -/
def read_paired_index (USE_INDICES : Bool) (data_indices : Option (Nat → Nat)) (pos : Nat)
    (t : LoopTrace) : Nat × LoopTrace :=
  (paired_index USE_INDICES data_indices pos,
   if USE_INDICES then
     { prefetch_positions := t.prefetch_positions,
       cleanup_positions := t.cleanup_positions,
       data_indices_reads := t.data_indices_reads ++ [pos] }
   else t)

/-- One iteration of the prefetch loop of `ConstructHistogramInner` at position `i`: the
read of the pair of `i`, the read of the pair `pf_offset` positions ahead (its unpaired
index is only the address of `PREFETCH_T0`, a cache hint), then the accumulation of
position `i`, recorded in `prefetch_positions`. -/
def ConstructHistogramInner_prefetch_traced {H S : Type} (add : H → S → H) (incr : H → H)
    (get_unpaired_index data : Nat → Nat) (USE_INDICES USE_HESSIAN : Bool) (pf_offset : Nat)
    (data_indices : Option (Nat → Nat)) (ordered_gradients : Nat → S)
    (ordered_hessians : Option (Nat → S)) (i : Nat) (s : (Nat → H) × LoopTrace) :
    (Nat → H) × LoopTrace :=
  let out := s.1
  let paired := read_paired_index USE_INDICES data_indices i s.2
  let idx := get_unpaired_index paired.1
  let paired_pf := read_paired_index USE_INDICES data_indices (i + pf_offset) paired.2
  let ti := (static_cast 32 (data idx) * 2) % 2 ^ 32
  let t : LoopTrace :=
    { prefetch_positions := paired_pf.2.prefetch_positions ++ [i],
      cleanup_positions := paired_pf.2.cleanup_positions,
      data_indices_reads := paired_pf.2.data_indices_reads }
  if USE_HESSIAN then
    let out := store out ti (add (out ti) (ordered_gradients i))
    match ordered_hessians with
    | some ordered_hessians =>
      (store out (ti + 1) (add (out (ti + 1)) (ordered_hessians i)), t)
    | none => (out, t)
  else
    let out := store out ti (add (out ti) (ordered_gradients i))
    (store out (ti + 1) (incr (out (ti + 1))), t)

/-- One iteration of the loop of `ConstructHistogramInner` after the prefetch loop, at
position `i`: the read of the pair of `i`, then the accumulation of position `i`,
recorded in `cleanup_positions`. -/
def ConstructHistogramInner_cleanup_traced {H S : Type} (add : H → S → H) (incr : H → H)
    (get_unpaired_index data : Nat → Nat) (USE_INDICES USE_HESSIAN : Bool)
    (data_indices : Option (Nat → Nat)) (ordered_gradients : Nat → S)
    (ordered_hessians : Option (Nat → S)) (i : Nat) (s : (Nat → H) × LoopTrace) :
    (Nat → H) × LoopTrace :=
  let out := s.1
  let paired := read_paired_index USE_INDICES data_indices i s.2
  let idx := get_unpaired_index paired.1
  let ti := (static_cast 32 (data idx) * 2) % 2 ^ 32
  let t : LoopTrace :=
    { prefetch_positions := paired.2.prefetch_positions,
      cleanup_positions := paired.2.cleanup_positions ++ [i],
      data_indices_reads := paired.2.data_indices_reads }
  if USE_HESSIAN then
    let out := store out ti (add (out ti) (ordered_gradients i))
    match ordered_hessians with
    | some ordered_hessians =>
      (store out (ti + 1) (add (out (ti + 1)) (ordered_hessians i)), t)
    | none => (out, t)
  else
    let out := store out ti (add (out ti) (ordered_gradients i))
    (store out (ti + 1) (incr (out (ti + 1))), t)

/-- The function `ConstructHistogramInner` with the trace of its two loops, which starts
empty. -/
def ConstructHistogramInner_traced {H S : Type} (add : H → S → H) (incr : H → H)
    (SIZEOF_VAL_T : Nat) (get_unpaired_index data : Nat → Nat)
    (USE_INDICES USE_PREFETCH USE_HESSIAN : Bool)
    (data_indices : Option (Nat → Nat)) (start end_ : Nat) (ordered_gradients : Nat → S)
    (ordered_hessians : Option (Nat → S)) (out : Nat → H) : (Nat → H) × LoopTrace :=
  let pf_offset := 64 / SIZEOF_VAL_T
  let n := prefetch_iterations SIZEOF_VAL_T USE_PREFETCH start end_
  let s := forLoop
    (ConstructHistogramInner_prefetch_traced add incr get_unpaired_index data USE_INDICES
      USE_HESSIAN pf_offset data_indices ordered_gradients ordered_hessians) n start
    (out, { prefetch_positions := [], cleanup_positions := [], data_indices_reads := [] })
  let i := start + n
  forLoop
    (ConstructHistogramInner_cleanup_traced add incr get_unpaired_index data USE_INDICES
      USE_HESSIAN data_indices ordered_gradients ordered_hessians) (end_ - i) i s

/-- The four overloads of `DensePairwiseRankingBin::ConstructHistogram` with the trace of
the loops they run. -/
def ConstructHistogram_traced {H S : Type} (add : H → S → H) (incr : H → H)
    (SIZEOF_VAL_T : Nat) (get_unpaired_index data : Nat → Nat)
    (data_indices : Option (Nat → Nat)) (start end_ : Nat) (ordered_gradients : Nat → S)
    (ordered_hessians : Option (Nat → S)) (out : Nat → H) : (Nat → H) × LoopTrace :=
  match data_indices, ordered_hessians with
  | some data_indices, some ordered_hessians =>
    ConstructHistogramInner_traced add incr SIZEOF_VAL_T get_unpaired_index data true true
      true (some data_indices) start end_ ordered_gradients (some ordered_hessians) out
  | none, some ordered_hessians =>
    ConstructHistogramInner_traced add incr SIZEOF_VAL_T get_unpaired_index data false false
      true none start end_ ordered_gradients (some ordered_hessians) out
  | some data_indices, none =>
    ConstructHistogramInner_traced add incr SIZEOF_VAL_T get_unpaired_index data true true
      false (some data_indices) start end_ ordered_gradients none out
  | none, none =>
    ConstructHistogramInner_traced add incr SIZEOF_VAL_T get_unpaired_index data false false
      false none start end_ ordered_gradients none out

/-- One iteration of the prefetch loop of `ConstructHistogramIntInner` at position `i`:
the read of the pair of `i`, the read of the pair `pf_offset` positions ahead (its
unpaired index is only the address of `PREFETCH_T0`, a cache hint), then the
accumulation of position `i`, recorded in `prefetch_positions`. -/
def ConstructHistogramIntInner_prefetch_traced (get_unpaired_index data : Nat → Nat)
    (USE_INDICES USE_HESSIAN : Bool) (PACKED_BITS HIST_BITS : Nat) (pf_offset : Nat)
    (data_indices : Option (Nat → Nat)) (ordered_gradients : Nat → Int)
    (i : Nat) (s : (Nat → Int) × LoopTrace) : (Nat → Int) × LoopTrace :=
  let out := s.1
  let paired := read_paired_index USE_INDICES data_indices i s.2
  let paired_pf := read_paired_index USE_INDICES data_indices (i + pf_offset) paired.2
  let idx := get_unpaired_index paired.1
  let ti := static_cast 32 (data idx)
  let gradient_16 := static_cast_int 16 (ordered_gradients i)
  (store out ti (static_cast_int PACKED_BITS
     (out ti + gradient_packed USE_HESSIAN PACKED_BITS HIST_BITS gradient_16)),
   { prefetch_positions := paired_pf.2.prefetch_positions ++ [i],
     cleanup_positions := paired_pf.2.cleanup_positions,
     data_indices_reads := paired_pf.2.data_indices_reads })

/-- One iteration of the loop of `ConstructHistogramIntInner` after the prefetch loop, at
position `i`: the read of the pair of `i`, then the accumulation of position `i`,
recorded in `cleanup_positions`. -/
def ConstructHistogramIntInner_cleanup_traced (get_unpaired_index data : Nat → Nat)
    (USE_INDICES USE_HESSIAN : Bool) (PACKED_BITS HIST_BITS : Nat)
    (data_indices : Option (Nat → Nat)) (ordered_gradients : Nat → Int)
    (i : Nat) (s : (Nat → Int) × LoopTrace) : (Nat → Int) × LoopTrace :=
  let out := s.1
  let paired := read_paired_index USE_INDICES data_indices i s.2
  let idx := get_unpaired_index paired.1
  let ti := static_cast 32 (data idx)
  let gradient_16 := static_cast_int 16 (ordered_gradients i)
  (store out ti (static_cast_int PACKED_BITS
     (out ti + gradient_packed USE_HESSIAN PACKED_BITS HIST_BITS gradient_16)),
   { prefetch_positions := paired.2.prefetch_positions,
     cleanup_positions := paired.2.cleanup_positions ++ [i],
     data_indices_reads := paired.2.data_indices_reads })

/-- The function `ConstructHistogramIntInner` with the trace of its two loops, which
starts empty. -/
def ConstructHistogramIntInner_traced (SIZEOF_VAL_T : Nat)
    (get_unpaired_index data : Nat → Nat)
    (USE_INDICES USE_PREFETCH USE_HESSIAN : Bool) (PACKED_BITS HIST_BITS : Nat)
    (data_indices : Option (Nat → Nat)) (start end_ : Nat) (ordered_gradients : Nat → Int)
    (out : Nat → Int) : (Nat → Int) × LoopTrace :=
  let pf_offset := 64 / SIZEOF_VAL_T
  let n := prefetch_iterations SIZEOF_VAL_T USE_PREFETCH start end_
  let s := forLoop
    (ConstructHistogramIntInner_prefetch_traced get_unpaired_index data USE_INDICES
      USE_HESSIAN PACKED_BITS HIST_BITS pf_offset data_indices ordered_gradients) n start
    (out, { prefetch_positions := [], cleanup_positions := [], data_indices_reads := [] })
  let i := start + n
  forLoop
    (ConstructHistogramIntInner_cleanup_traced get_unpaired_index data USE_INDICES
      USE_HESSIAN PACKED_BITS HIST_BITS data_indices ordered_gradients) (end_ - i) i s

/-- The four overloads of `ConstructHistogramInt8` with the trace of the loops they run. -/
def ConstructHistogramInt8_traced (SIZEOF_VAL_T : Nat) (get_unpaired_index data : Nat → Nat)
    (data_indices : Option (Nat → Nat)) (start end_ : Nat) (ordered_gradients : Nat → Int)
    (ordered_hessians : Option (Nat → Int)) (out : Nat → Int) : (Nat → Int) × LoopTrace :=
  match data_indices, ordered_hessians with
  | some data_indices, some _ =>
    ConstructHistogramIntInner_traced SIZEOF_VAL_T get_unpaired_index data true true true
      16 8 (some data_indices) start end_ ordered_gradients out
  | none, some _ =>
    ConstructHistogramIntInner_traced SIZEOF_VAL_T get_unpaired_index data false false true
      16 8 none start end_ ordered_gradients out
  | some data_indices, none =>
    ConstructHistogramIntInner_traced SIZEOF_VAL_T get_unpaired_index data true true false
      16 8 (some data_indices) start end_ ordered_gradients out
  | none, none =>
    ConstructHistogramIntInner_traced SIZEOF_VAL_T get_unpaired_index data false false false
      16 8 none start end_ ordered_gradients out

/-- The four overloads of `ConstructHistogramInt16` with the trace of the loops they run. -/
def ConstructHistogramInt16_traced (SIZEOF_VAL_T : Nat) (get_unpaired_index data : Nat → Nat)
    (data_indices : Option (Nat → Nat)) (start end_ : Nat) (ordered_gradients : Nat → Int)
    (ordered_hessians : Option (Nat → Int)) (out : Nat → Int) : (Nat → Int) × LoopTrace :=
  match data_indices, ordered_hessians with
  | some data_indices, some _ =>
    ConstructHistogramIntInner_traced SIZEOF_VAL_T get_unpaired_index data true true true
      32 16 (some data_indices) start end_ ordered_gradients out
  | none, some _ =>
    ConstructHistogramIntInner_traced SIZEOF_VAL_T get_unpaired_index data false false true
      32 16 none start end_ ordered_gradients out
  | some data_indices, none =>
    ConstructHistogramIntInner_traced SIZEOF_VAL_T get_unpaired_index data true true false
      32 16 (some data_indices) start end_ ordered_gradients out
  | none, none =>
    ConstructHistogramIntInner_traced SIZEOF_VAL_T get_unpaired_index data false false false
      32 16 none start end_ ordered_gradients out

/-- The four overloads of `ConstructHistogramInt32` with the trace of the loops they run. -/
def ConstructHistogramInt32_traced (SIZEOF_VAL_T : Nat) (get_unpaired_index data : Nat → Nat)
    (data_indices : Option (Nat → Nat)) (start end_ : Nat) (ordered_gradients : Nat → Int)
    (ordered_hessians : Option (Nat → Int)) (out : Nat → Int) : (Nat → Int) × LoopTrace :=
  match data_indices, ordered_hessians with
  | some data_indices, some _ =>
    ConstructHistogramIntInner_traced SIZEOF_VAL_T get_unpaired_index data true true true
      64 32 (some data_indices) start end_ ordered_gradients out
  | none, some _ =>
    ConstructHistogramIntInner_traced SIZEOF_VAL_T get_unpaired_index data false false true
      64 32 none start end_ ordered_gradients out
  | some data_indices, none =>
    ConstructHistogramIntInner_traced SIZEOF_VAL_T get_unpaired_index data true true false
      64 32 (some data_indices) start end_ ordered_gradients out
  | none, none =>
    ConstructHistogramIntInner_traced SIZEOF_VAL_T get_unpaired_index data false false false
      64 32 none start end_ ordered_gradients out

/-- The trace of the two loops with `USE_INDICES` and `USE_PREFETCH`, in closed form: the
prefetch loop runs `end - pf_offset - start` times from `start` (not at all when that is
not positive) and the loop after it runs up to `end`. -/
def explicit_indices_trace (SIZEOF_VAL_T start end_ : Nat) : LoopTrace :=
  { prefetch_positions := List.range' start (end_ - 64 / SIZEOF_VAL_T - start),
    cleanup_positions := List.range' (start + (end_ - 64 / SIZEOF_VAL_T - start))
      (end_ - (start + (end_ - 64 / SIZEOF_VAL_T - start))),
    data_indices_reads :=
      (List.range' start (end_ - 64 / SIZEOF_VAL_T - start)).flatMap
          (fun j => [j, j + 64 / SIZEOF_VAL_T]) ++
        (List.range' (start + (end_ - 64 / SIZEOF_VAL_T - start))
          (end_ - (start + (end_ - 64 / SIZEOF_VAL_T - start)))).flatMap (fun j => [j]) }

/-! ## The pairwise bin adapter

`PairwiseRankingBin<BIN_TYPE, ITERATOR_TYPE>` wraps the storage `unpaired_bin_` and is
bound to a mapper. The wrapped storage is not part of the sources: its operations are
parameters, each taking the state of the storage and the arguments to a failure or to
its result. -/

/-- The operations of the wrapped storage `BIN_TYPE` that `PairwiseRankingBin` calls.
`B` is the state of the storage, `FullBin` the type of the argument `full_bin`, `Writer`
the state of a `BinaryWriter`, `Memory` what `const void* memory` points to, `ε` the
failures the storage reports. -/
structure BinOperations (B FullBin Writer Memory ε : Type) where
  InitStreaming : B → Nat → Int → Except ε B
  Push : B → Int → Int → Nat → Except ε B
  CopySubrow : B → FullBin → (Nat → Int) → Int → Except ε B
  SaveBinaryToFile : B → Writer → Except ε Writer
  LoadFromMemory : B → Memory → List Int → Except ε B
  SizesInByte : B → Except ε Nat
  num_data : B → Except ε Int
  ReSize : B → Int → Except ε B

/-- The adapter `PairwiseRankingBin`: the wrapped storage and the mapper it is bound
to. -/
structure PairwiseRankingBin (B : Type) where
  unpaired_bin_ : B
  get_unpaired_index : Nat → Nat

/-- The adapter after its wrapped storage took the state `b`, or the failure of the
storage. -/
def PairwiseRankingBin.with_storage {B ε : Type} (self : PairwiseRankingBin B)
    (r : Except ε B) : Except ε (PairwiseRankingBin B) :=
  match r with
  | Except.ok b => Except.ok { self with unpaired_bin_ := b }
  | Except.error e => Except.error e

/-- The method `PairwiseRankingBin::InitStreaming`. -/
def PairwiseRankingBin.InitStreaming {B FullBin Writer Memory ε : Type}
    (ops : BinOperations B FullBin Writer Memory ε) (self : PairwiseRankingBin B)
    (num_thread : Nat) (omp_max_threads : Int) : Except ε (PairwiseRankingBin B) :=
  self.with_storage (ops.InitStreaming self.unpaired_bin_ num_thread omp_max_threads)

/-- The method `PairwiseRankingBin::Push`. -/
def PairwiseRankingBin.Push {B FullBin Writer Memory ε : Type}
    (ops : BinOperations B FullBin Writer Memory ε) (self : PairwiseRankingBin B)
    (tid : Int) (idx : Int) (value : Nat) : Except ε (PairwiseRankingBin B) :=
  self.with_storage (ops.Push self.unpaired_bin_ tid idx value)

/-- The method `PairwiseRankingBin::CopySubrow`. -/
def PairwiseRankingBin.CopySubrow {B FullBin Writer Memory ε : Type}
    (ops : BinOperations B FullBin Writer Memory ε) (self : PairwiseRankingBin B)
    (full_bin : FullBin) (used_indices : Nat → Int) (num_used_indices : Int) :
    Except ε (PairwiseRankingBin B) :=
  self.with_storage (ops.CopySubrow self.unpaired_bin_ full_bin used_indices num_used_indices)

/-- The method `PairwiseRankingBin::SaveBinaryToFile` (a `const` method: the adapter is
unchanged, the result is the state of the writer). -/
def PairwiseRankingBin.SaveBinaryToFile {B FullBin Writer Memory ε : Type}
    (ops : BinOperations B FullBin Writer Memory ε) (self : PairwiseRankingBin B)
    (writer : Writer) : Except ε Writer :=
  ops.SaveBinaryToFile self.unpaired_bin_ writer

/-- The method `PairwiseRankingBin::LoadFromMemory`. -/
def PairwiseRankingBin.LoadFromMemory {B FullBin Writer Memory ε : Type}
    (ops : BinOperations B FullBin Writer Memory ε) (self : PairwiseRankingBin B)
    (memory : Memory) (local_used_indices : List Int) : Except ε (PairwiseRankingBin B) :=
  self.with_storage (ops.LoadFromMemory self.unpaired_bin_ memory local_used_indices)

/-- The method `PairwiseRankingBin::SizesInByte` (a `const` method). -/
def PairwiseRankingBin.SizesInByte {B FullBin Writer Memory ε : Type}
    (ops : BinOperations B FullBin Writer Memory ε) (self : PairwiseRankingBin B) :
    Except ε Nat :=
  ops.SizesInByte self.unpaired_bin_

/-- The method `PairwiseRankingBin::num_data` (a `const` method). -/
def PairwiseRankingBin.num_data {B FullBin Writer Memory ε : Type}
    (ops : BinOperations B FullBin Writer Memory ε) (self : PairwiseRankingBin B) :
    Except ε Int :=
  ops.num_data self.unpaired_bin_

/-- The method `PairwiseRankingBin::ReSize`. -/
def PairwiseRankingBin.ReSize {B FullBin Writer Memory ε : Type}
    (ops : BinOperations B FullBin Writer Memory ε) (self : PairwiseRankingBin B)
    (num_data : Int) : Except ε (PairwiseRankingBin B) :=
  self.with_storage (ops.ReSize self.unpaired_bin_ num_data)

/-! ## Lemmas on memory and loops -/

theorem firstN_length {α : Type} (p : Nat → α) (n : Nat) : (firstN p n).length = n := by
  simp [firstN]

theorem firstN_succ {α : Type} (p : Nat → α) (n : Nat) :
    firstN p (n + 1) = firstN p n ++ [p n] := by
  simp [firstN, List.range_succ]

theorem firstN_store_ge {α : Type} (p : Nat → α) (k n : Nat) (v : α) (h : n ≤ k) :
    firstN (store p k v) n = firstN p n := by
  unfold firstN
  apply List.map_congr_left
  intro j hj
  have hjn : j < n := List.mem_range.mp hj
  have hjk : j ≠ k := by omega
  simp [store, hjk]

theorem firstN_store_succ {α : Type} (p : Nat → α) (n : Nat) (v : α) :
    firstN (store p n v) (n + 1) = firstN p n ++ [v] := by
  rw [firstN_succ, firstN_store_ge p n n v (Nat.le_refl n)]
  simp [store]

theorem forLoop_add {σ : Type} (body : Nat → σ → σ) (a b i : Nat) (s : σ) :
    forLoop body (a + b) i s = forLoop body b (i + a) (forLoop body a i s) := by
  induction a generalizing i s with
  | zero => simp [forLoop]
  | succ a ih =>
    have h : a + 1 + b = (a + b) + 1 := by omega
    rw [h]
    simp only [forLoop]
    rw [ih]
    have h2 : i + 1 + a = i + (a + 1) := by omega
    rw [h2]

/-! ## Lemmas on Split -/

theorem write_lte_lte (s : SplitOut) (v : Nat) : (s.write Side.lte v).lte = s.lte ++ [v] := by
  simp [SplitOut.write, SplitOut.lte, firstN_store_succ]

theorem write_lte_gt (s : SplitOut) (v : Nat) : (s.write Side.lte v).gt = s.gt := by
  simp [SplitOut.write, SplitOut.gt]

theorem write_gt_gt (s : SplitOut) (v : Nat) : (s.write Side.gt v).gt = s.gt ++ [v] := by
  simp [SplitOut.write, SplitOut.gt, firstN_store_succ]

theorem write_gt_lte (s : SplitOut) (v : Nat) : (s.write Side.gt v).lte = s.lte := by
  simp [SplitOut.write, SplitOut.lte]

theorem lte_length (s : SplitOut) : s.lte.length = s.lte_count := by
  simp [SplitOut.lte, firstN_length]

theorem gt_length (s : SplitOut) : s.gt.length = s.gt_count := by
  simp [SplitOut.gt, firstN_length]

/-- A loop that writes the pair of every position to the side `side` chooses for it
appends to each output array the pairs of that side, in the order of the positions. -/
theorem forLoop_write (side : Nat → Side) (di : Nat → Nat) (n i : Nat) (s : SplitOut) :
    (forLoop (fun j t => t.write (side j) (di j)) n i s).lte =
        s.lte ++ ((List.range' i n).filter (fun j => decide (side j = Side.lte))).map di ∧
    (forLoop (fun j t => t.write (side j) (di j)) n i s).gt =
        s.gt ++ ((List.range' i n).filter (fun j => decide (side j = Side.gt))).map di := by
  induction n generalizing i s with
  | zero => simp [forLoop]
  | succ n ih =>
    simp only [forLoop, List.range']
    obtain ⟨h1, h2⟩ := ih (i + 1) (s.write (side i) (di i))
    rw [h1, h2]
    cases hs : side i
    · simp [write_lte_lte, write_lte_gt, List.filter_cons, hs]
    · simp [write_gt_gt, write_gt_lte, List.filter_cons, hs]

theorem SplitInner_body_eq (get_unpaired_index data : Nat → Nat)
    (MISS_IS_ZERO MISS_IS_NA MFB_IS_ZERO MFB_IS_NA USE_MIN_BIN : Bool)
    (th t_zero_bin minb maxb : Nat) (default_side missing_default_side : Side)
    (data_indices : Nat → Nat) :
    SplitInner_body get_unpaired_index data MISS_IS_ZERO MISS_IS_NA MFB_IS_ZERO MFB_IS_NA
      USE_MIN_BIN th t_zero_bin minb maxb default_side missing_default_side data_indices =
    fun j t => t.write (SplitInner_side MISS_IS_ZERO MISS_IS_NA MFB_IS_ZERO MFB_IS_NA
      USE_MIN_BIN th t_zero_bin minb maxb default_side missing_default_side
      (data (get_unpaired_index (data_indices j)))) (data_indices j) := by
  funext j t
  simp only [SplitInner_body, SplitInner_side]
  split_ifs <;> rfl

theorem SplitInner_body_degenerate_eq (get_unpaired_index data : Nat → Nat)
    (MISS_IS_ZERO MISS_IS_NA MFB_IS_ZERO MFB_IS_NA : Bool)
    (t_zero_bin maxb : Nat) (default_side missing_default_side max_bin_side : Side)
    (data_indices : Nat → Nat) :
    SplitInner_body_degenerate get_unpaired_index data MISS_IS_ZERO MISS_IS_NA MFB_IS_ZERO
      MFB_IS_NA t_zero_bin maxb default_side missing_default_side max_bin_side data_indices =
    fun j t => t.write (SplitInner_side_degenerate MISS_IS_ZERO MISS_IS_NA MFB_IS_ZERO
      MFB_IS_NA t_zero_bin maxb default_side missing_default_side max_bin_side
      (data (get_unpaired_index (data_indices j)))) (data_indices j) := by
  funext j t
  simp only [SplitInner_body_degenerate, SplitInner_side_degenerate]
  split_ifs <;> rfl

/-- The arrays `SplitInner` writes: `lte` receives, in input order, the pairs whose bin
is routed to `lte`, and `gt` the pairs whose bin is routed to `gt`. -/
theorem SplitInner_eq_filter (VAL_BITS : Nat) (get_unpaired_index data : Nat → Nat)
    (MISS_IS_ZERO MISS_IS_NA MFB_IS_ZERO MFB_IS_NA USE_MIN_BIN : Bool)
    (min_bin max_bin default_bin most_freq_bin : Nat) (default_left : Bool)
    (threshold : Nat) (data_indices : Nat → Nat) (cnt : Nat)
    (lte_indices gt_indices : Nat → Nat) :
    (SplitInner VAL_BITS get_unpaired_index data MISS_IS_ZERO MISS_IS_NA MFB_IS_ZERO
        MFB_IS_NA USE_MIN_BIN min_bin max_bin default_bin most_freq_bin default_left
        threshold data_indices cnt lte_indices gt_indices).lte =
      (firstN data_indices cnt).filter (fun p => decide (SplitInner_route VAL_BITS
        MISS_IS_ZERO MISS_IS_NA MFB_IS_ZERO MFB_IS_NA USE_MIN_BIN min_bin max_bin
        default_bin most_freq_bin default_left threshold
        (data (get_unpaired_index p)) = Side.lte)) ∧
    (SplitInner VAL_BITS get_unpaired_index data MISS_IS_ZERO MISS_IS_NA MFB_IS_ZERO
        MFB_IS_NA USE_MIN_BIN min_bin max_bin default_bin most_freq_bin default_left
        threshold data_indices cnt lte_indices gt_indices).gt =
      (firstN data_indices cnt).filter (fun p => decide (SplitInner_route VAL_BITS
        MISS_IS_ZERO MISS_IS_NA MFB_IS_ZERO MFB_IS_NA USE_MIN_BIN min_bin max_bin
        default_bin most_freq_bin default_left threshold
        (data (get_unpaired_index p)) = Side.gt)) := by
  unfold SplitInner SplitInner_route
  simp only [firstN, List.filter_map, List.range_eq_range']
  by_cases hmm : min_bin < max_bin
  · simp only [hmm, if_true, SplitInner_body_eq]
    constructor
    · rw [(forLoop_write _ data_indices cnt 0 _).1]
      simp [SplitOut.lte, firstN, Function.comp_def]
    · rw [(forLoop_write _ data_indices cnt 0 _).2]
      simp [SplitOut.gt, firstN, Function.comp_def]
  · simp only [hmm, if_false, SplitInner_body_degenerate_eq]
    constructor
    · rw [(forLoop_write _ data_indices cnt 0 _).1]
      simp [SplitOut.lte, firstN, Function.comp_def]
    · rw [(forLoop_write _ data_indices cnt 0 _).2]
      simp [SplitOut.gt, firstN, Function.comp_def]

theorem side_gt_iff (s : Side) : decide (s = Side.gt) = !decide (s = Side.lte) := by
  cases s <;> rfl

/-- The two arrays `SplitInner` writes hold together exactly the input pairs. -/
theorem SplitInner_partition (VAL_BITS : Nat) (get_unpaired_index data : Nat → Nat)
    (MISS_IS_ZERO MISS_IS_NA MFB_IS_ZERO MFB_IS_NA USE_MIN_BIN : Bool)
    (min_bin max_bin default_bin most_freq_bin : Nat) (default_left : Bool)
    (threshold : Nat) (data_indices : Nat → Nat) (cnt : Nat)
    (lte_indices gt_indices : Nat → Nat) :
    (SplitInner VAL_BITS get_unpaired_index data MISS_IS_ZERO MISS_IS_NA MFB_IS_ZERO
        MFB_IS_NA USE_MIN_BIN min_bin max_bin default_bin most_freq_bin default_left
        threshold data_indices cnt lte_indices gt_indices).lte_count +
      (SplitInner VAL_BITS get_unpaired_index data MISS_IS_ZERO MISS_IS_NA MFB_IS_ZERO
        MFB_IS_NA USE_MIN_BIN min_bin max_bin default_bin most_freq_bin default_left
        threshold data_indices cnt lte_indices gt_indices).gt_count = cnt ∧
    List.Perm
      ((SplitInner VAL_BITS get_unpaired_index data MISS_IS_ZERO MISS_IS_NA MFB_IS_ZERO
        MFB_IS_NA USE_MIN_BIN min_bin max_bin default_bin most_freq_bin default_left
        threshold data_indices cnt lte_indices gt_indices).lte ++
       (SplitInner VAL_BITS get_unpaired_index data MISS_IS_ZERO MISS_IS_NA MFB_IS_ZERO
        MFB_IS_NA USE_MIN_BIN min_bin max_bin default_bin most_freq_bin default_left
        threshold data_indices cnt lte_indices gt_indices).gt)
      (firstN data_indices cnt) := by
  obtain ⟨h1, h2⟩ := SplitInner_eq_filter VAL_BITS get_unpaired_index data MISS_IS_ZERO
    MISS_IS_NA MFB_IS_ZERO MFB_IS_NA USE_MIN_BIN min_bin max_bin default_bin most_freq_bin
    default_left threshold data_indices cnt lte_indices gt_indices
  have hperm : List.Perm
      ((SplitInner VAL_BITS get_unpaired_index data MISS_IS_ZERO MISS_IS_NA MFB_IS_ZERO
        MFB_IS_NA USE_MIN_BIN min_bin max_bin default_bin most_freq_bin default_left
        threshold data_indices cnt lte_indices gt_indices).lte ++
       (SplitInner VAL_BITS get_unpaired_index data MISS_IS_ZERO MISS_IS_NA MFB_IS_ZERO
        MFB_IS_NA USE_MIN_BIN min_bin max_bin default_bin most_freq_bin default_left
        threshold data_indices cnt lte_indices gt_indices).gt)
      (firstN data_indices cnt) := by
    rw [h1, h2]
    simp only [side_gt_iff]
    exact List.filter_append_perm _ _
  refine ⟨?_, hperm⟩
  have hlen := hperm.length_eq
  rw [List.length_append, lte_length, gt_length, firstN_length] at hlen
  exact hlen

theorem mem_firstN {α : Type} (p : Nat → α) (n i : Nat) (h : i < n) : p i ∈ firstN p n := by
  unfold firstN
  exact List.mem_map.mpr ⟨i, List.mem_range.mpr h, rfl⟩

/-- The arrays `Split` writes: `lte` receives, in input order, the pairs whose bin is
routed to `lte`, and `gt` the pairs whose bin is routed to `gt`. -/
theorem Split_eq_filter (VAL_BITS : Nat) (get_unpaired_index data : Nat → Nat)
    (min_bin : Option Nat) (max_bin default_bin most_freq_bin : Nat)
    (missing_type : MissingType) (default_left : Bool) (threshold : Nat)
    (data_indices : Nat → Nat) (cnt : Nat) (lte_indices gt_indices : Nat → Nat) :
    (Split VAL_BITS get_unpaired_index data min_bin max_bin default_bin most_freq_bin
        missing_type default_left threshold data_indices cnt lte_indices gt_indices).lte =
      (firstN data_indices cnt).filter (fun p => decide (Split_route VAL_BITS min_bin
        max_bin default_bin most_freq_bin missing_type default_left threshold
        (data (get_unpaired_index p)) = Side.lte)) ∧
    (Split VAL_BITS get_unpaired_index data min_bin max_bin default_bin most_freq_bin
        missing_type default_left threshold data_indices cnt lte_indices gt_indices).gt =
      (firstN data_indices cnt).filter (fun p => decide (Split_route VAL_BITS min_bin
        max_bin default_bin most_freq_bin missing_type default_left threshold
        (data (get_unpaired_index p)) = Side.gt)) := by
  unfold Split Split_route
  split <;> split_ifs <;> exact SplitInner_eq_filter _ _ _ _ _ _ _ _ _ _ _ _ _ _ _ _ _ _

/-- A pair of the input is among the entries written to `lte` exactly when its bin is
routed to `lte`, and among those written to `gt` exactly when it is routed to `gt`. -/
theorem Split_mem_iff (VAL_BITS : Nat) (get_unpaired_index data : Nat → Nat)
    (min_bin : Option Nat) (max_bin default_bin most_freq_bin : Nat)
    (missing_type : MissingType) (default_left : Bool) (threshold : Nat)
    (data_indices : Nat → Nat) (cnt : Nat) (lte_indices gt_indices : Nat → Nat)
    (i : Nat) (hi : i < cnt) :
    (data_indices i ∈ (Split VAL_BITS get_unpaired_index data min_bin max_bin default_bin
        most_freq_bin missing_type default_left threshold data_indices cnt lte_indices
        gt_indices).lte ↔
      Split_route VAL_BITS min_bin max_bin default_bin most_freq_bin missing_type
        default_left threshold (data (get_unpaired_index (data_indices i))) = Side.lte) ∧
    (data_indices i ∈ (Split VAL_BITS get_unpaired_index data min_bin max_bin default_bin
        most_freq_bin missing_type default_left threshold data_indices cnt lte_indices
        gt_indices).gt ↔
      Split_route VAL_BITS min_bin max_bin default_bin most_freq_bin missing_type
        default_left threshold (data (get_unpaired_index (data_indices i))) = Side.gt) := by
  obtain ⟨h1, h2⟩ := Split_eq_filter VAL_BITS get_unpaired_index data min_bin max_bin
    default_bin most_freq_bin missing_type default_left threshold data_indices cnt
    lte_indices gt_indices
  rw [h1, h2]
  simp [List.mem_filter, mem_firstN data_indices cnt i hi]

/-- C1. Every call of `Split` (either overload, every missing policy, `default_left`,
threshold and bin range) places every input pair exactly once: the returned `lte_count`
and the number `gt_count` of entries written to `gt_indices` add up to `cnt`, and the
first `lte_count` cells of `lte_indices` followed by the first `gt_count` cells of
`gt_indices` are a permutation of the `cnt` input pair indices. -/
theorem Split_places_every_pair_once (VAL_BITS : Nat) (get_unpaired_index data : Nat → Nat)
    (min_bin : Option Nat) (max_bin default_bin most_freq_bin : Nat)
    (missing_type : MissingType) (default_left : Bool) (threshold : Nat)
    (data_indices : Nat → Nat) (cnt : Nat) (lte_indices gt_indices : Nat → Nat) :
    (Split VAL_BITS get_unpaired_index data min_bin max_bin default_bin most_freq_bin
        missing_type default_left threshold data_indices cnt lte_indices gt_indices).lte_count +
      (Split VAL_BITS get_unpaired_index data min_bin max_bin default_bin most_freq_bin
        missing_type default_left threshold data_indices cnt lte_indices gt_indices).gt_count
      = cnt ∧
    List.Perm
      (firstN (Split VAL_BITS get_unpaired_index data min_bin max_bin default_bin
          most_freq_bin missing_type default_left threshold data_indices cnt lte_indices
          gt_indices).lte_indices
        (Split VAL_BITS get_unpaired_index data min_bin max_bin default_bin
          most_freq_bin missing_type default_left threshold data_indices cnt lte_indices
          gt_indices).lte_count ++
       firstN (Split VAL_BITS get_unpaired_index data min_bin max_bin default_bin
          most_freq_bin missing_type default_left threshold data_indices cnt lte_indices
          gt_indices).gt_indices
        (Split VAL_BITS get_unpaired_index data min_bin max_bin default_bin
          most_freq_bin missing_type default_left threshold data_indices cnt lte_indices
          gt_indices).gt_count)
      (firstN data_indices cnt) := by
  unfold Split
  split <;> split_ifs <;> exact SplitInner_partition _ _ _ _ _ _ _ _ _ _ _ _ _ _ _ _ _ _

theorem SplitInner_th_eq (VAL_BITS min_bin most_freq_bin threshold : Nat)
    (hbits : VAL_BITS ≤ 32) (hfit : threshold + min_bin < 2 ^ VAL_BITS)
    (hpos : most_freq_bin = 0 → 0 < threshold + min_bin) :
    SplitInner_th VAL_BITS min_bin most_freq_bin threshold =
      threshold + min_bin - (if most_freq_bin = 0 then 1 else 0) := by
  have h32 : 2 ^ VAL_BITS ≤ 2 ^ 32 := Nat.pow_le_pow_right (by decide) hbits
  have h1 : (threshold + min_bin) % 2 ^ 32 = threshold + min_bin :=
    Nat.mod_eq_of_lt (by omega)
  unfold SplitInner_th static_cast decrement
  simp only [h1, Nat.mod_eq_of_lt hfit]
  by_cases hz : most_freq_bin = 0
  · have hp := hpos hz
    simp only [hz, if_true]
    have h2 : threshold + min_bin + (2 ^ VAL_BITS - 1) =
        (threshold + min_bin - 1) + 2 ^ VAL_BITS := by omega
    rw [h2, Nat.add_mod_right]
    exact Nat.mod_eq_of_lt (by omega)
  · simp [hz]

/-- C2 (amended). In a call of `Split` with an explicit `min_bin` and missing policy
`None`, every input pair whose resolved bin code lies in `[min_bin, max_bin]` is placed
in `lte` if and only if its bin code is at most `th`, and in `gt` otherwise, where `th`
is `threshold + min_bin`, lowered by one when `most_freq_bin == 0`, evaluated in
`VAL_T`; `th` is the plain number `threshold + min_bin` (minus one when
`most_freq_bin == 0`) whenever that sum fits `VAL_T` and is positive when lowered. -/
theorem Split_None_threshold_in_range (VAL_BITS : Nat) (get_unpaired_index data : Nat → Nat)
    (min_bin max_bin default_bin most_freq_bin : Nat) (default_left : Bool)
    (threshold : Nat) (data_indices : Nat → Nat) (cnt : Nat)
    (lte_indices gt_indices : Nat → Nat) (i : Nat) (hi : i < cnt)
    (hmax : max_bin < 2 ^ VAL_BITS)
    (hlo : min_bin ≤ data (get_unpaired_index (data_indices i)))
    (hhi : data (get_unpaired_index (data_indices i)) ≤ max_bin) :
    (data_indices i ∈ (Split VAL_BITS get_unpaired_index data (some min_bin) max_bin
        default_bin most_freq_bin MissingType.None default_left threshold data_indices cnt
        lte_indices gt_indices).lte ↔
      data (get_unpaired_index (data_indices i)) ≤
        SplitInner_th VAL_BITS min_bin most_freq_bin threshold) ∧
    (data_indices i ∈ (Split VAL_BITS get_unpaired_index data (some min_bin) max_bin
        default_bin most_freq_bin MissingType.None default_left threshold data_indices cnt
        lte_indices gt_indices).gt ↔
      ¬ data (get_unpaired_index (data_indices i)) ≤
        SplitInner_th VAL_BITS min_bin most_freq_bin threshold) ∧
    (VAL_BITS ≤ 32 → threshold + min_bin < 2 ^ VAL_BITS →
      (most_freq_bin = 0 → 0 < threshold + min_bin) →
      SplitInner_th VAL_BITS min_bin most_freq_bin threshold =
        threshold + min_bin - (if most_freq_bin = 0 then 1 else 0)) := by
  obtain ⟨h1, h2⟩ := Split_mem_iff VAL_BITS get_unpaired_index data (some min_bin) max_bin
    default_bin most_freq_bin MissingType.None default_left threshold data_indices cnt
    lte_indices gt_indices i hi
  rw [h1, h2]
  refine ⟨?_, ?_, SplitInner_th_eq VAL_BITS min_bin most_freq_bin threshold⟩
  all_goals
    generalize data (get_unpaired_index (data_indices i)) = bin at hlo hhi
    have hmin : min_bin < 2 ^ VAL_BITS := by omega
    simp only [Split_route, SplitInner_route, SplitInner_side, SplitInner_side_degenerate,
      static_cast, Nat.mod_eq_of_lt hmax, Nat.mod_eq_of_lt hmin]
    by_cases hmm : min_bin < max_bin
    · have hge : ¬ bin < min_bin := by omega
      have hle : ¬ bin > max_bin := by omega
      by_cases hth : bin > SplitInner_th VAL_BITS min_bin most_freq_bin threshold
      · simp [hmm, hge, hle, hth]
      · simp [hmm, hge, hle, hth] <;> omega
    · have hb : bin = max_bin := by omega
      subst hb
      by_cases hth : bin ≤ SplitInner_th VAL_BITS min_bin most_freq_bin threshold
      · simp [hmm, hth]
      · simp [hmm, hth]

/-- Witness of C2 (amended): with `VAL_T = uint8_t`, `min_bin = 1`, `max_bin = 4`,
`threshold = 2` and bins `1, 2, 3, 4`, the pair at position `0` has bin `1 <= 3` and is
written to `lte`. -/
theorem Split_None_threshold_in_range_witness :
    (0 < 4 ∧ 4 < 2 ^ 8 ∧ 1 ≤ (fun b => b + 1) (id (id 0)) ∧ (fun b => b + 1) (id (id 0)) ≤ 4) ∧
    id 0 ∈ (Split 8 id (fun b => b + 1) (some 1) 4 1 1 MissingType.None false 2 id 4
      (fun _ => 0) (fun _ => 0)).lte :=
  ⟨by decide,
   (Split_None_threshold_in_range 8 id (fun b => b + 1) 1 4 1 1 false 2 id 4
      (fun _ => 0) (fun _ => 0) 0 (by decide) (by decide) (by decide) (by decide)).1.mpr
      (by decide)⟩

/-- Counterexample to C2 as stated: with `VAL_T = uint8_t`, `min_bin = 1`, `max_bin = 4`,
`most_freq_bin = 3`, `threshold = 2` and policy `None`, the pair `0` has bin code
`0 <= threshold + min_bin`, yet it is written to `gt` and not to `lte`: its bin is
outside `[min_bin, max_bin]` and `most_freq_bin > threshold`. -/
theorem Split_None_threshold_counterexample :
    id (id (id 0)) ≤ 2 + 1 ∧
    id 0 ∉ (Split 8 id id (some 1) 4 1 3 MissingType.None false 2 id 1
      (fun _ => 0) (fun _ => 0)).lte ∧
    id 0 ∈ (Split 8 id id (some 1) 4 1 3 MissingType.None false 2 id 1
      (fun _ => 0) (fun _ => 0)).gt := by
  decide

/-- Counterexample to C3 as stated: in the scenario of the claim (`VAL_T = uint8_t`,
pair `i` resolving to bin `i + 1`) `Split` does not yield `lte = [0, 1]`, `gt = [2, 3]`
and `lte_count = 2`; it returns `3`. -/
theorem Split_scenario_counterexample :
    ¬ ((Split 8 id (fun b => b + 1) (some 1) 4 1 1 MissingType.None false 2 id 4
          (fun _ => 0) (fun _ => 0)).lte = [0, 1] ∧
       (Split 8 id (fun b => b + 1) (some 1) 4 1 1 MissingType.None false 2 id 4
          (fun _ => 0) (fun _ => 0)).gt = [2, 3] ∧
       (Split 8 id (fun b => b + 1) (some 1) 4 1 1 MissingType.None false 2 id 4
          (fun _ => 0) (fun _ => 0)).lte_count = 2) ∧
    (Split 8 id (fun b => b + 1) (some 1) 4 1 1 MissingType.None false 2 id 4
          (fun _ => 0) (fun _ => 0)).lte_count = 3 := by
  decide

/-- C3 (amended). `Split` with `min_bin = 1`, `max_bin = 4`, `default_bin = 1`,
`most_freq_bin = 1`, missing policy `None`, `threshold = 2`, on the pair index list
`[0, 1, 2, 3]` whose resolved bin codes are `[1, 2, 3, 4]`, yields `lte = [0, 1, 2]`
(the bins `<= th = threshold + min_bin = 3`), `gt = [3]` and returns `lte_count = 3`,
for every mapper, storage and element type of at least three bits. -/
theorem Split_scenario (VAL_BITS : Nat) (get_unpaired_index data : Nat → Nat)
    (default_left : Bool) (data_indices : Nat → Nat) (lte_indices gt_indices : Nat → Nat)
    (hbits : 3 ≤ VAL_BITS)
    (hidx : ∀ i, i < 4 → data_indices i = i)
    (hbin : ∀ i, i < 4 → data (get_unpaired_index i) = i + 1) :
    (Split VAL_BITS get_unpaired_index data (some 1) 4 1 1 MissingType.None default_left 2
        data_indices 4 lte_indices gt_indices).lte = [0, 1, 2] ∧
    (Split VAL_BITS get_unpaired_index data (some 1) 4 1 1 MissingType.None default_left 2
        data_indices 4 lte_indices gt_indices).gt = [3] ∧
    (Split VAL_BITS get_unpaired_index data (some 1) 4 1 1 MissingType.None default_left 2
        data_indices 4 lte_indices gt_indices).lte_count = 3 := by
  have hpow : 2 ^ 3 ≤ 2 ^ VAL_BITS := Nat.pow_le_pow_right (by decide) hbits
  have h8 : 8 ≤ 2 ^ VAL_BITS := by simpa using hpow
  obtain ⟨h1, h2⟩ := Split_eq_filter VAL_BITS get_unpaired_index data (some 1) 4 1 1
    MissingType.None default_left 2 data_indices 4 lte_indices gt_indices
  have hl : firstN data_indices 4 = [0, 1, 2, 3] := by
    simp [firstN, List.range_succ, hidx]
  have hth : SplitInner_th VAL_BITS 1 1 2 = 3 := by
    simp [SplitInner_th, static_cast]
    exact Nat.mod_eq_of_lt (by omega)
  have h4 : 4 % 2 ^ VAL_BITS = 4 := Nat.mod_eq_of_lt (by omega)
  have h1m : 1 % 2 ^ VAL_BITS = 1 := Nat.mod_eq_of_lt (by omega)
  have hr : ∀ b, Split_route VAL_BITS (some 1) 4 1 1 MissingType.None default_left 2 b =
      if (b < 1 ∨ 4 < b) then Side.lte else if 3 < b then Side.gt else Side.lte := by
    intro b
    simp [Split_route, SplitInner_route, SplitInner_side, SplitInner_default_side, hth,
      static_cast, h4, h1m]
  have hlte : (Split VAL_BITS get_unpaired_index data (some 1) 4 1 1 MissingType.None
      default_left 2 data_indices 4 lte_indices gt_indices).lte = [0, 1, 2] := by
    rw [h1, hl]
    simp [hr, hbin, List.filter_cons]
  refine ⟨hlte, ?_, ?_⟩
  · rw [h2, hl]
    simp [hr, hbin, List.filter_cons]
  · rw [← lte_length, hlte]
    rfl

/-- Witness of C3 (amended): the scenario with `VAL_T = uint8_t`, the identity mapper and
the storage holding bin `i + 1` for the example `i`. -/
theorem Split_scenario_witness :
    (3 ≤ 8 ∧ (∀ i, i < 4 → id i = i) ∧ (∀ i, i < 4 → (fun b => b + 1) (id i) = i + 1)) ∧
    (Split 8 id (fun b => b + 1) (some 1) 4 1 1 MissingType.None false 2 id 4
        (fun _ => 0) (fun _ => 0)).lte = [0, 1, 2] ∧
    (Split 8 id (fun b => b + 1) (some 1) 4 1 1 MissingType.None false 2 id 4
        (fun _ => 0) (fun _ => 0)).gt = [3] ∧
    (Split 8 id (fun b => b + 1) (some 1) 4 1 1 MissingType.None false 2 id 4
        (fun _ => 0) (fun _ => 0)).lte_count = 3 :=
  ⟨⟨by decide, fun _ _ => rfl, fun _ _ => rfl⟩,
   Split_scenario 8 id (fun b => b + 1) false id (fun _ => 0) (fun _ => 0) (by decide)
     (fun _ _ => rfl) (fun _ _ => rfl)⟩

/-- Counterexample to C10 as stated: policy `Zero` with `default_bin = most_freq_bin = 0`,
`min_bin = 1 < max_bin = 4`, `threshold = 0` and `default_left = false`. The pair `0`
has bin code `0`, outside `[min_bin, max_bin]`, and `most_freq_bin <= threshold`, yet it
is written to `gt`: the default bucket follows `default_left` here. -/
theorem Split_default_bucket_counterexample :
    default_bucket (some 1) 4 (id (id (id 0))) ∧ (0 : Nat) ≤ 0 ∧
    id 0 ∉ (Split 8 id id (some 1) 4 0 0 MissingType.Zero false 0 id 1
      (fun _ => 0) (fun _ => 0)).lte ∧
    id 0 ∈ (Split 8 id id (some 1) 4 0 0 MissingType.Zero false 0 id 1
      (fun _ => 0) (fun _ => 0)).gt := by
  refine ⟨Or.inl (by decide), by decide, by decide, by decide⟩

/-- C10 (amended). In a call of `Split` with `min_bin < max_bin` (`min_bin` being `1` in
the overload without a `min_bin` argument, `max_bin` a value of `VAL_T`), when the
most-frequent bin does not absorb the missing semantics (policy `None`; policy `Zero`
with `default_bin != most_freq_bin`; policy `NaN` unless `max_bin == most_freq_bin +
min_bin` and `most_freq_bin > 0`), a pair of the default bucket whose bin is not the
zero sentinel `t_zero_bin` of policy `Zero` is placed on the side fixed before the scan:
in `lte` if `most_freq_bin <= threshold`, otherwise in `gt`. -/
theorem Split_default_bucket (VAL_BITS : Nat) (get_unpaired_index data : Nat → Nat)
    (min_bin : Option Nat) (max_bin default_bin most_freq_bin : Nat)
    (missing_type : MissingType) (default_left : Bool) (threshold : Nat)
    (data_indices : Nat → Nat) (cnt : Nat) (lte_indices gt_indices : Nat → Nat)
    (i : Nat) (hi : i < cnt)
    (hmm : min_bin.getD 1 < max_bin) (hmax : max_bin < 2 ^ VAL_BITS)
    (hbucket : default_bucket min_bin max_bin (data (get_unpaired_index (data_indices i))))
    (hzero : missing_type = MissingType.Zero →
      default_bin ≠ most_freq_bin ∧
      data (get_unpaired_index (data_indices i)) ≠
        SplitInner_t_zero_bin VAL_BITS (min_bin.getD 1) default_bin most_freq_bin)
    (hnan : missing_type = MissingType.NaN →
      ¬ (max_bin = (most_freq_bin + min_bin.getD 1) % 2 ^ 32 ∧ most_freq_bin > 0)) :
    (data_indices i ∈ (Split VAL_BITS get_unpaired_index data min_bin max_bin default_bin
        most_freq_bin missing_type default_left threshold data_indices cnt lte_indices
        gt_indices).lte ↔ most_freq_bin ≤ threshold) ∧
    (data_indices i ∈ (Split VAL_BITS get_unpaired_index data min_bin max_bin default_bin
        most_freq_bin missing_type default_left threshold data_indices cnt lte_indices
        gt_indices).gt ↔ ¬ most_freq_bin ≤ threshold) := by
  obtain ⟨h1, h2⟩ := Split_mem_iff VAL_BITS get_unpaired_index data min_bin max_bin
    default_bin most_freq_bin missing_type default_left threshold data_indices cnt
    lte_indices gt_indices i hi
  rw [h1, h2]
  generalize data (get_unpaired_index (data_indices i)) = bin at hbucket hzero
  have hroute : Split_route VAL_BITS min_bin max_bin default_bin most_freq_bin missing_type
      default_left threshold bin = SplitInner_default_side most_freq_bin threshold := by
    cases min_bin with
    | none =>
      simp only [Option.getD_none] at hmm hzero hnan
      simp only [default_bucket] at hbucket
      have hmaxne : ¬ (0 = max_bin) := by omega
      cases missing_type with
      | None =>
        simp [Split_route, SplitInner_route, SplitInner_side, static_cast,
          Nat.mod_eq_of_lt hmax, hmm, hbucket]
      | Zero =>
        obtain ⟨hz1, hz2⟩ := hzero rfl
        rw [hbucket] at hz2
        simp [Split_route, SplitInner_route, SplitInner_side, static_cast,
          Nat.mod_eq_of_lt hmax, hmm, hbucket, hz1, hz2]
      | NaN =>
        have hn := hnan rfl
        simp [Split_route, SplitInner_route, SplitInner_side, static_cast,
          Nat.mod_eq_of_lt hmax, hmm, hbucket, hmaxne]
        intro ha hb
        exact absurd ⟨by norm_num; exact ha, hb⟩ hn
    | some m =>
      simp only [Option.getD_some] at hmm hzero hnan
      simp only [default_bucket] at hbucket
      have hmin : m < 2 ^ VAL_BITS := by omega
      have hne : ¬ (bin = max_bin) := by omega
      have hout : bin < m ∨ max_bin < bin := hbucket
      cases missing_type with
      | None =>
        simp [Split_route, SplitInner_route, SplitInner_side, static_cast,
          Nat.mod_eq_of_lt hmax, Nat.mod_eq_of_lt hmin, hmm, hout]
      | Zero =>
        obtain ⟨hz1, hz2⟩ := hzero rfl
        simp [Split_route, SplitInner_route, SplitInner_side, static_cast,
          Nat.mod_eq_of_lt hmax, Nat.mod_eq_of_lt hmin, hmm, hout, hz1, hz2]
      | NaN =>
        have hn := hnan rfl
        simp [Split_route, SplitInner_route, SplitInner_side, static_cast,
          Nat.mod_eq_of_lt hmax, Nat.mod_eq_of_lt hmin, hmm, hout, hne]
        intro ha hb
        exact absurd ⟨by norm_num; exact ha, hb⟩ hn
  rw [hroute]
  unfold SplitInner_default_side
  by_cases h : most_freq_bin ≤ threshold <;> simp [h]

/-- Witness of C10 (amended): policy `Zero` with `default_bin = 1`, `most_freq_bin = 3`,
`threshold = 2`; the pair `0` has bin `0 < min_bin` and goes to `gt`. -/
theorem Split_default_bucket_witness :
    ((0 : Nat) < 1 ∧ (some 1).getD 1 < 4 ∧ 4 < 2 ^ 8 ∧ default_bucket (some 1) 4 (id (id (id 0)))) ∧
    id 0 ∈ (Split 8 id id (some 1) 4 1 3 MissingType.Zero true 2 id 1
      (fun _ => 0) (fun _ => 0)).gt :=
  ⟨⟨by decide, by decide, by decide, Or.inl (by decide)⟩,
   (Split_default_bucket 8 id id (some 1) 4 1 3 MissingType.Zero true 2 id 1
      (fun _ => 0) (fun _ => 0) 0 (by decide) (by decide) (by decide) (Or.inl (by decide))
      (fun _ => by decide) (fun h => by cases h)).2.mpr (by decide)⟩

/-! ## Lemmas on histogram construction -/

theorem prefetch_iterations_le (SIZEOF_VAL_T : Nat) (USE_PREFETCH : Bool) (start end_ : Nat) :
    prefetch_iterations SIZEOF_VAL_T USE_PREFETCH start end_ ≤ end_ - start := by
  unfold prefetch_iterations
  split
  · show (((end_ : Int) - ((64 / SIZEOF_VAL_T : Nat) : Int)) - (start : Int)).toNat ≤ end_ - start
    generalize 64 / SIZEOF_VAL_T = pf_offset
    omega
  · exact Nat.zero_le _

/-- The two loops of `ConstructHistogramInner` together run the body once at every
position of `[start, end)`, in increasing order. -/
theorem ConstructHistogramInner_eq_forLoop {H S : Type} (add : H → S → H) (incr : H → H)
    (SIZEOF_VAL_T : Nat) (get_unpaired_index data : Nat → Nat)
    (USE_INDICES USE_PREFETCH USE_HESSIAN : Bool)
    (data_indices : Option (Nat → Nat)) (start end_ : Nat) (ordered_gradients : Nat → S)
    (ordered_hessians : Option (Nat → S)) (out : Nat → H) :
    ConstructHistogramInner add incr SIZEOF_VAL_T get_unpaired_index data USE_INDICES
      USE_PREFETCH USE_HESSIAN data_indices start end_ ordered_gradients ordered_hessians out =
    forLoop (ConstructHistogramInner_body add incr get_unpaired_index data USE_INDICES
      USE_HESSIAN data_indices ordered_gradients ordered_hessians) (end_ - start) start out := by
  have hle := prefetch_iterations_le SIZEOF_VAL_T USE_PREFETCH start end_
  unfold ConstructHistogramInner
  simp only
  rw [← forLoop_add]
  congr 1
  omega

/-- The two loops of `ConstructHistogramIntInner` together run the body once at every
position of `[start, end)`, in increasing order. -/
theorem ConstructHistogramIntInner_eq_forLoop (SIZEOF_VAL_T : Nat)
    (get_unpaired_index data : Nat → Nat)
    (USE_INDICES USE_PREFETCH USE_HESSIAN : Bool) (PACKED_BITS HIST_BITS : Nat)
    (data_indices : Option (Nat → Nat)) (start end_ : Nat) (ordered_gradients : Nat → Int)
    (out : Nat → Int) :
    ConstructHistogramIntInner SIZEOF_VAL_T get_unpaired_index data USE_INDICES USE_PREFETCH
      USE_HESSIAN PACKED_BITS HIST_BITS data_indices start end_ ordered_gradients out =
    forLoop (ConstructHistogramIntInner_body get_unpaired_index data USE_INDICES USE_HESSIAN
      PACKED_BITS HIST_BITS data_indices ordered_gradients) (end_ - start) start out := by
  have hle := prefetch_iterations_le SIZEOF_VAL_T USE_PREFETCH start end_
  unfold ConstructHistogramIntInner
  simp only
  rw [← forLoop_add]
  congr 1
  omega

/-- Running a loop over `[0, k)` and then over `[k, n)` is running it over `[0, n)`. -/
theorem forLoop_split {σ : Type} (body : Nat → σ → σ) (k n : Nat) (h : k ≤ n) (s : σ) :
    forLoop body (n - k) k (forLoop body (k - 0) 0 s) = forLoop body (n - 0) 0 s := by
  have h1 : n - 0 = k + (n - k) := by omega
  rw [h1, forLoop_add]
  simp

/-- A loop whose body changes the cell `k` only at the positions selected by `hit`, by
applying `upd`, leaves in `k` the fold of `upd` over the selected positions, in
increasing order. -/
theorem forLoop_slot {H : Type} (body : Nat → (Nat → H) → (Nat → H)) (k : Nat)
    (hit : Nat → Bool) (upd : Nat → H → H) (n : Nat) :
    ∀ (s : Nat) (out : Nat → H),
    (∀ i, s ≤ i → i < s + n → ∀ o : Nat → H,
      body i o k = if hit i then upd i (o k) else o k) →
    forLoop body n s out k =
      ((List.range' s n).filter hit).foldl (fun acc i => upd i acc) (out k) := by
  induction n with
  | zero => intro s out _; simp [forLoop]
  | succ n ih =>
    intro s out hbody
    simp only [forLoop, List.range']
    rw [ih (s + 1) (body s out) (fun i h1 h2 o => hbody i (by omega) (by omega) o)]
    rw [hbody s (Nat.le_refl s) (by omega) out]
    cases hs : hit s <;> simp [List.filter_cons, hs]

theorem histogram_index_eq (bin : Nat) (h : bin < 2 ^ 31) :
    (static_cast 32 bin * 2) % 2 ^ 32 = 2 * bin := by
  unfold static_cast
  have h1 : bin % 2 ^ 32 = bin := Nat.mod_eq_of_lt (by omega)
  rw [h1]
  exact (Nat.mod_eq_of_lt (by omega)).trans (Nat.mul_comm _ _)

/-- One iteration changes the gradient cell `2 * b` exactly when the pair of the
position resolves to the bin `b`, by adding the gradient of the position. -/
theorem ConstructHistogramInner_body_grad {H S : Type} (add : H → S → H) (incr : H → H)
    (get_unpaired_index data : Nat → Nat) (USE_INDICES USE_HESSIAN : Bool)
    (data_indices : Option (Nat → Nat)) (ordered_gradients : Nat → S)
    (ordered_hessians : Option (Nat → S)) (i : Nat) (out : Nat → H) (b : Nat)
    (hb : resolved_bin get_unpaired_index data USE_INDICES data_indices i < 2 ^ 31) :
    ConstructHistogramInner_body add incr get_unpaired_index data USE_INDICES USE_HESSIAN
      data_indices ordered_gradients ordered_hessians i out (2 * b) =
    if decide (resolved_bin get_unpaired_index data USE_INDICES data_indices i = b) = true
    then add (out (2 * b)) (ordered_gradients i) else out (2 * b) := by
  unfold ConstructHistogramInner_body
  unfold resolved_bin at hb ⊢
  simp only [histogram_index_eq _ hb]
  generalize data (get_unpaired_index (paired_index USE_INDICES data_indices i)) = bin
  have h1 : 2 * b ≠ 2 * bin + 1 := by omega
  by_cases hbb : bin = b
  · subst hbb
    cases USE_HESSIAN <;> cases ordered_hessians <;> simp [store]
  · have h2 : 2 * b ≠ 2 * bin := by omega
    cases USE_HESSIAN <;> cases ordered_hessians <;> simp [store, h1, h2, hbb]

/-- In hessian mode one iteration changes the hessian cell `2 * b + 1` exactly when the
pair of the position resolves to the bin `b`, by adding the hessian of the position. -/
theorem ConstructHistogramInner_body_hess {H S : Type} (add : H → S → H) (incr : H → H)
    (get_unpaired_index data : Nat → Nat) (USE_INDICES : Bool)
    (data_indices : Option (Nat → Nat)) (ordered_gradients ordered_hessians : Nat → S)
    (i : Nat) (out : Nat → H) (b : Nat)
    (hb : resolved_bin get_unpaired_index data USE_INDICES data_indices i < 2 ^ 31) :
    ConstructHistogramInner_body add incr get_unpaired_index data USE_INDICES true
      data_indices ordered_gradients (some ordered_hessians) i out (2 * b + 1) =
    if decide (resolved_bin get_unpaired_index data USE_INDICES data_indices i = b) = true
    then add (out (2 * b + 1)) (ordered_hessians i) else out (2 * b + 1) := by
  unfold ConstructHistogramInner_body
  unfold resolved_bin at hb ⊢
  simp only [histogram_index_eq _ hb]
  generalize data (get_unpaired_index (paired_index USE_INDICES data_indices i)) = bin
  have h1 : 2 * b + 1 ≠ 2 * bin := by omega
  by_cases hbb : bin = b
  · subst hbb
    simp [store]
  · have h2 : ¬ b = bin := fun h => hbb h.symm
    simp [store, h1, h2, hbb]

/-- In count mode one iteration changes the counter cell `2 * b + 1` exactly when the
pair of the position resolves to the bin `b`, by incrementing it. -/
theorem ConstructHistogramInner_body_cnt {H S : Type} (add : H → S → H) (incr : H → H)
    (get_unpaired_index data : Nat → Nat) (USE_INDICES : Bool)
    (data_indices : Option (Nat → Nat)) (ordered_gradients : Nat → S)
    (ordered_hessians : Option (Nat → S))
    (i : Nat) (out : Nat → H) (b : Nat)
    (hb : resolved_bin get_unpaired_index data USE_INDICES data_indices i < 2 ^ 31) :
    ConstructHistogramInner_body add incr get_unpaired_index data USE_INDICES false
      data_indices ordered_gradients ordered_hessians i out (2 * b + 1) =
    if decide (resolved_bin get_unpaired_index data USE_INDICES data_indices i = b) = true
    then incr (out (2 * b + 1)) else out (2 * b + 1) := by
  unfold ConstructHistogramInner_body
  unfold resolved_bin at hb ⊢
  simp only [histogram_index_eq _ hb]
  generalize data (get_unpaired_index (paired_index USE_INDICES data_indices i)) = bin
  have h1 : 2 * b + 1 ≠ 2 * bin := by omega
  by_cases hbb : bin = b
  · subst hbb
    simp [store]
  · have h2 : ¬ b = bin := fun h => hbb h.symm
    simp [store, h1, h2, hbb]

/-- The gradient cell of the bin `b` after `ConstructHistogramInner`: the fold of `add`
over the gradients of the positions resolving to `b`, from the initial value. -/
theorem ConstructHistogramInner_grad {H S : Type} (add : H → S → H) (incr : H → H)
    (SIZEOF_VAL_T : Nat) (get_unpaired_index data : Nat → Nat)
    (USE_INDICES USE_PREFETCH USE_HESSIAN : Bool)
    (data_indices : Option (Nat → Nat)) (start end_ : Nat) (ordered_gradients : Nat → S)
    (ordered_hessians : Option (Nat → S)) (out : Nat → H) (b : Nat)
    (hbin : ∀ i, start ≤ i → i < end_ →
      resolved_bin get_unpaired_index data USE_INDICES data_indices i < 2 ^ 31) :
    ConstructHistogramInner add incr SIZEOF_VAL_T get_unpaired_index data USE_INDICES
      USE_PREFETCH USE_HESSIAN data_indices start end_ ordered_gradients ordered_hessians out
      (2 * b) =
    ((positions_of_bin get_unpaired_index data USE_INDICES data_indices start end_ b).map
      ordered_gradients).foldl add (out (2 * b)) := by
  rw [ConstructHistogramInner_eq_forLoop, List.foldl_map]
  exact forLoop_slot _ (2 * b) _ (fun i acc => add acc (ordered_gradients i)) _ start out
    (fun i h1 h2 o => ConstructHistogramInner_body_grad add incr get_unpaired_index data
      USE_INDICES USE_HESSIAN data_indices ordered_gradients ordered_hessians i o b
      (hbin i h1 (by omega)))

/-- The hessian cell of the bin `b` after `ConstructHistogramInner` in hessian mode. -/
theorem ConstructHistogramInner_hess {H S : Type} (add : H → S → H) (incr : H → H)
    (SIZEOF_VAL_T : Nat) (get_unpaired_index data : Nat → Nat)
    (USE_INDICES USE_PREFETCH : Bool)
    (data_indices : Option (Nat → Nat)) (start end_ : Nat)
    (ordered_gradients ordered_hessians : Nat → S) (out : Nat → H) (b : Nat)
    (hbin : ∀ i, start ≤ i → i < end_ →
      resolved_bin get_unpaired_index data USE_INDICES data_indices i < 2 ^ 31) :
    ConstructHistogramInner add incr SIZEOF_VAL_T get_unpaired_index data USE_INDICES
      USE_PREFETCH true data_indices start end_ ordered_gradients (some ordered_hessians) out
      (2 * b + 1) =
    ((positions_of_bin get_unpaired_index data USE_INDICES data_indices start end_ b).map
      ordered_hessians).foldl add (out (2 * b + 1)) := by
  rw [ConstructHistogramInner_eq_forLoop, List.foldl_map]
  exact forLoop_slot _ (2 * b + 1) _ (fun i acc => add acc (ordered_hessians i)) _ start out
    (fun i h1 h2 o => ConstructHistogramInner_body_hess add incr get_unpaired_index data
      USE_INDICES data_indices ordered_gradients ordered_hessians i o b
      (hbin i h1 (by omega)))

/-- The counter cell of the bin `b` after `ConstructHistogramInner` in count mode: the
initial value incremented once for every position resolving to `b`. -/
theorem ConstructHistogramInner_cnt {H S : Type} (add : H → S → H) (incr : H → H)
    (SIZEOF_VAL_T : Nat) (get_unpaired_index data : Nat → Nat)
    (USE_INDICES USE_PREFETCH : Bool)
    (data_indices : Option (Nat → Nat)) (start end_ : Nat)
    (ordered_gradients : Nat → S) (ordered_hessians : Option (Nat → S))
    (out : Nat → H) (b : Nat)
    (hbin : ∀ i, start ≤ i → i < end_ →
      resolved_bin get_unpaired_index data USE_INDICES data_indices i < 2 ^ 31) :
    ConstructHistogramInner add incr SIZEOF_VAL_T get_unpaired_index data USE_INDICES
      USE_PREFETCH false data_indices start end_ ordered_gradients ordered_hessians out
      (2 * b + 1) =
    (positions_of_bin get_unpaired_index data USE_INDICES data_indices start end_ b).foldl
      (fun acc _ => incr acc) (out (2 * b + 1)) := by
  rw [ConstructHistogramInner_eq_forLoop]
  exact forLoop_slot _ (2 * b + 1) _ (fun _ acc => incr acc) _ start out
    (fun i h1 h2 o => ConstructHistogramInner_body_cnt add incr get_unpaired_index data
      USE_INDICES data_indices ordered_gradients ordered_hessians i o b
      (hbin i h1 (by omega)))

theorem foldl_add_eq_add_sum {R : Type} [AddMonoid R] (l : List R) (a : R) :
    l.foldl (fun x y => x + y) a = a + l.sum := by
  induction l generalizing a with
  | nil => simp
  | cons x l ih => simp [ih, add_assoc]

/-- C4. The gradient-and-hessian `ConstructHistogram` (explicit indices or contiguous
range, every mapper, every initial buffer) leaves in the cell `2 * b` the initial value
to which the gradients `ordered_gradients[i]` were added, and in the cell `2 * b + 1`
the initial value to which the hessians `ordered_hessians[i]` were added, over exactly
the positions `i` of `[start, end)` whose pair resolves to the bin code `b`, taken in
increasing order of `i`; over exact arithmetic (an additive monoid) these are the
initial value plus the plain sums. Bin codes are below `2 ^ 31`, so that `2 * b` is
the `uint32_t` the function computes. -/
theorem ConstructHistogram_gradient_hessian_sums {H S : Type} (add : H → S → H)
    (incr : H → H) (SIZEOF_VAL_T : Nat) (get_unpaired_index data : Nat → Nat)
    (data_indices : Option (Nat → Nat)) (start end_ : Nat)
    (ordered_gradients ordered_hessians : Nat → S) (out : Nat → H) (b : Nat)
    (hbin : ∀ i, start ≤ i → i < end_ →
      resolved_bin get_unpaired_index data data_indices.isSome data_indices i < 2 ^ 31) :
    ConstructHistogram add incr SIZEOF_VAL_T get_unpaired_index data data_indices start end_
        ordered_gradients (some ordered_hessians) out (2 * b) =
      ((positions_of_bin get_unpaired_index data data_indices.isSome data_indices
        start end_ b).map ordered_gradients).foldl add (out (2 * b)) ∧
    ConstructHistogram add incr SIZEOF_VAL_T get_unpaired_index data data_indices start end_
        ordered_gradients (some ordered_hessians) out (2 * b + 1) =
      ((positions_of_bin get_unpaired_index data data_indices.isSome data_indices
        start end_ b).map ordered_hessians).foldl add (out (2 * b + 1)) ∧
    (∀ (R : Type) [AddMonoid R] (incr_R : R → R) (gradients hessians : Nat → R)
        (out_R : Nat → R),
      ConstructHistogram (fun x y => x + y) incr_R SIZEOF_VAL_T get_unpaired_index data
          data_indices start end_ gradients (some hessians) out_R (2 * b) =
        out_R (2 * b) + ((positions_of_bin get_unpaired_index data data_indices.isSome
          data_indices start end_ b).map gradients).sum ∧
      ConstructHistogram (fun x y => x + y) incr_R SIZEOF_VAL_T get_unpaired_index data
          data_indices start end_ gradients (some hessians) out_R (2 * b + 1) =
        out_R (2 * b + 1) + ((positions_of_bin get_unpaired_index data data_indices.isSome
          data_indices start end_ b).map hessians).sum) := by
  have key : ∀ (H' S' : Type) (add' : H' → S' → H') (incr' : H' → H')
      (g h : Nat → S') (o : Nat → H'),
      ConstructHistogram add' incr' SIZEOF_VAL_T get_unpaired_index data data_indices
          start end_ g (some h) o (2 * b) =
        ((positions_of_bin get_unpaired_index data data_indices.isSome data_indices
          start end_ b).map g).foldl add' (o (2 * b)) ∧
      ConstructHistogram add' incr' SIZEOF_VAL_T get_unpaired_index data data_indices
          start end_ g (some h) o (2 * b + 1) =
        ((positions_of_bin get_unpaired_index data data_indices.isSome data_indices
          start end_ b).map h).foldl add' (o (2 * b + 1)) := by
    intro H' S' add' incr' g h o
    cases data_indices with
    | none =>
      exact ⟨ConstructHistogramInner_grad add' incr' SIZEOF_VAL_T get_unpaired_index data
          false false true none start end_ g (some h) o b hbin,
        ConstructHistogramInner_hess add' incr' SIZEOF_VAL_T get_unpaired_index data
          false false none start end_ g h o b hbin⟩
    | some d =>
      exact ⟨ConstructHistogramInner_grad add' incr' SIZEOF_VAL_T get_unpaired_index data
          true true true (some d) start end_ g (some h) o b hbin,
        ConstructHistogramInner_hess add' incr' SIZEOF_VAL_T get_unpaired_index data
          true true (some d) start end_ g h o b hbin⟩
  refine ⟨(key H S add incr ordered_gradients ordered_hessians out).1,
    (key H S add incr ordered_gradients ordered_hessians out).2, ?_⟩
  intro R _ incr_R gradients hessians out_R
  obtain ⟨h1, h2⟩ := key R R (fun x y => x + y) incr_R gradients hessians out_R
  rw [h1, h2, foldl_add_eq_add_sum, foldl_add_eq_add_sum]
  exact ⟨rfl, rfl⟩

/-- Witness of C4: three pairs over four examples with bins `0, 1, 2, 3`, the identity
mapper, explicit indices `0, 1, 2`, natural-number arithmetic. -/
theorem ConstructHistogram_gradient_hessian_sums_witness :
    (∀ i, 0 ≤ i → i < 3 →
      resolved_bin id (fun idx => idx % 4) (some (fun i : Nat => i)).isSome
        (some (fun i : Nat => i)) i < 2 ^ 31) ∧
    ConstructHistogram (fun (x y : Nat) => x + y) id 1 id (fun idx => idx % 4)
        (some (fun i => i)) 0 3 (fun _ => 5) (some (fun _ => 7)) (fun _ => 0) (2 * 1) =
      ((positions_of_bin id (fun idx => idx % 4) (some (fun i : Nat => i)).isSome
        (some (fun i => i)) 0 3 1).map (fun _ => 5)).foldl (fun (x y : Nat) => x + y) 0 :=
  ⟨fun i _ _ => by
      have h : i % 4 < 4 := Nat.mod_lt _ (by decide)
      show i % 4 < 2 ^ 31
      omega,
   (ConstructHistogram_gradient_hessian_sums (fun (x y : Nat) => x + y) id 1 id
      (fun idx => idx % 4) (some (fun i => i)) 0 3 (fun _ => 5) (fun _ => 7) (fun _ => 0) 1
      (fun i _ _ => by
        have h : i % 4 < 4 := Nat.mod_lt _ (by decide)
        show i % 4 < 2 ^ 31
        omega)).1⟩

/-- C5. Four examples with bin codes `[0, 1, 2, 3]`, the First-Item mapper over the pairs
`[(0, 1), (2, 3), (0, 3)]`, every gradient equal to `g` and every hessian equal to `h`:
`ConstructHistogram` over the pairs `[0, 3)` (contiguous range, or explicit indices
`0, 1, 2`) from a buffer holding `z` everywhere leaves `(z + g) + g` and `(z + h) + h`
in the two cells of bin `0`, `z + g` and `z + h` in the two cells of bin `2`, and `z` in
every cell of every other bin, whatever the addition is. In exact arithmetic with
`z = 0` and `g = h = 1` the sums are `2` for bin `0` and `1` for bin `2`. -/
theorem ConstructHistogram_first_item_scenario :
    (∀ (H S : Type) (add : H → S → H) (incr : H → H) (z : H) (g h : S)
        (SIZEOF_VAL_T : Nat) (explicit_indices : Bool),
      ConstructHistogram add incr SIZEOF_VAL_T
          (first_item_get_unpaired_index [(0, 1), (2, 3), (0, 3)])
          (fun idx => [0, 1, 2, 3].getD idx 0)
          (if explicit_indices then some (fun i => i) else none) 0 3
          (fun _ => g) (some (fun _ => h)) (fun _ => z) =
        fun k =>
          if k = 0 then add (add z g) g
          else if k = 1 then add (add z h) h
          else if k = 4 then add z g
          else if k = 5 then add z h
          else z) ∧
    (∀ (SIZEOF_VAL_T : Nat) (explicit_indices : Bool),
      ConstructHistogram (fun (x y : ℚ) => x + y) id SIZEOF_VAL_T
          (first_item_get_unpaired_index [(0, 1), (2, 3), (0, 3)])
          (fun idx => [0, 1, 2, 3].getD idx 0)
          (if explicit_indices then some (fun i => i) else none) 0 3
          (fun _ => 1) (some (fun _ => 1)) (fun _ => 0) =
        fun k => if k = 0 ∨ k = 1 then 2 else if k = 4 ∨ k = 5 then 1 else 0) := by
  have key : ∀ (H S : Type) (add : H → S → H) (incr : H → H) (z : H) (g h : S)
        (SIZEOF_VAL_T : Nat) (explicit_indices : Bool),
      ConstructHistogram add incr SIZEOF_VAL_T
          (first_item_get_unpaired_index [(0, 1), (2, 3), (0, 3)])
          (fun idx => [0, 1, 2, 3].getD idx 0)
          (if explicit_indices then some (fun i => i) else none) 0 3
          (fun _ => g) (some (fun _ => h)) (fun _ => z) =
        fun k =>
          if k = 0 then add (add z g) g
          else if k = 1 then add (add z h) h
          else if k = 4 then add z g
          else if k = 5 then add z h
          else z := by
    intro H S add incr z g h SIZEOF_VAL_T explicit_indices
    funext k
    cases explicit_indices <;>
      simp only [ConstructHistogram, ConstructHistogramInner_eq_forLoop, if_true, if_false,
        Bool.false_eq_true] <;>
      simp [forLoop, ConstructHistogramInner_body, paired_index,
        first_item_get_unpaired_index, static_cast, store] <;>
      split_ifs <;> first | rfl | omega
  refine ⟨key, ?_⟩
  intro SIZEOF_VAL_T explicit_indices
  rw [key ℚ ℚ (fun x y => x + y) id 0 1 1 SIZEOF_VAL_T explicit_indices]
  funext k
  by_cases h0 : k = 0
  · simp [h0]; norm_num
  · by_cases h1 : k = 1
    · simp [h1]; norm_num
    · by_cases h4 : k = 4
      · simp [h4]
      · by_cases h5 : k = 5
        · simp [h5]
        · simp [h0, h1, h4, h5]

/-- C6. For every histogram entry point (`ConstructHistogram`, `ConstructHistogramInt8`,
`ConstructHistogramInt16`, `ConstructHistogramInt32`; hessian or count; explicit indices
or contiguous range), accumulating the range `[0, k)` and then the range `[k, n)` into the
same buffer yields exactly the buffer obtained by accumulating `[0, n)` in one call, for
every `k <= n` and every initial buffer (a zeroed one in particular). -/
theorem ConstructHistogram_additive {H S : Type} (add : H → S → H) (incr : H → H)
    (SIZEOF_VAL_T : Nat) (get_unpaired_index data : Nat → Nat)
    (data_indices : Option (Nat → Nat)) (k n : Nat) (hk : k ≤ n)
    (ordered_gradients : Nat → S) (ordered_hessians : Option (Nat → S)) (out : Nat → H)
    (packed_gradients : Nat → Int) (packed_hessians : Option (Nat → Int))
    (packed_out : Nat → Int) :
    ConstructHistogram add incr SIZEOF_VAL_T get_unpaired_index data data_indices k n
        ordered_gradients ordered_hessians
        (ConstructHistogram add incr SIZEOF_VAL_T get_unpaired_index data data_indices 0 k
          ordered_gradients ordered_hessians out) =
      ConstructHistogram add incr SIZEOF_VAL_T get_unpaired_index data data_indices 0 n
        ordered_gradients ordered_hessians out ∧
    ConstructHistogramInt8 SIZEOF_VAL_T get_unpaired_index data data_indices k n
        packed_gradients packed_hessians
        (ConstructHistogramInt8 SIZEOF_VAL_T get_unpaired_index data data_indices 0 k
          packed_gradients packed_hessians packed_out) =
      ConstructHistogramInt8 SIZEOF_VAL_T get_unpaired_index data data_indices 0 n
        packed_gradients packed_hessians packed_out ∧
    ConstructHistogramInt16 SIZEOF_VAL_T get_unpaired_index data data_indices k n
        packed_gradients packed_hessians
        (ConstructHistogramInt16 SIZEOF_VAL_T get_unpaired_index data data_indices 0 k
          packed_gradients packed_hessians packed_out) =
      ConstructHistogramInt16 SIZEOF_VAL_T get_unpaired_index data data_indices 0 n
        packed_gradients packed_hessians packed_out ∧
    ConstructHistogramInt32 SIZEOF_VAL_T get_unpaired_index data data_indices k n
        packed_gradients packed_hessians
        (ConstructHistogramInt32 SIZEOF_VAL_T get_unpaired_index data data_indices 0 k
          packed_gradients packed_hessians packed_out) =
      ConstructHistogramInt32 SIZEOF_VAL_T get_unpaired_index data data_indices 0 n
        packed_gradients packed_hessians packed_out := by
  refine ⟨?_, ?_, ?_, ?_⟩
  · cases data_indices <;> cases ordered_hessians <;>
      simp only [ConstructHistogram, ConstructHistogramInner_eq_forLoop] <;>
      exact forLoop_split _ k n hk out
  · cases data_indices <;> cases packed_hessians <;>
      simp only [ConstructHistogramInt8, ConstructHistogramIntInner_eq_forLoop] <;>
      exact forLoop_split _ k n hk packed_out
  · cases data_indices <;> cases packed_hessians <;>
      simp only [ConstructHistogramInt16, ConstructHistogramIntInner_eq_forLoop] <;>
      exact forLoop_split _ k n hk packed_out
  · cases data_indices <;> cases packed_hessians <;>
      simp only [ConstructHistogramInt32, ConstructHistogramIntInner_eq_forLoop] <;>
      exact forLoop_split _ k n hk packed_out

/-- Witness of C6: the float entry point with explicit indices and hessians, `k = 1`,
`n = 2`, natural-number arithmetic. -/
theorem ConstructHistogram_additive_witness :
    1 ≤ 2 ∧
    ConstructHistogram (fun (x y : Nat) => x + y) id 1 id id (some id) 1 2
        (fun _ => 5) (some (fun _ => 7))
        (ConstructHistogram (fun (x y : Nat) => x + y) id 1 id id (some id) 0 1
          (fun _ => 5) (some (fun _ => 7)) (fun _ => 0)) =
      ConstructHistogram (fun (x y : Nat) => x + y) id 1 id id (some id) 0 2
        (fun _ => 5) (some (fun _ => 7)) (fun _ => 0) :=
  ⟨by decide,
   (ConstructHistogram_additive (fun (x y : Nat) => x + y) id 1 id id (some id) 1 2
      (by decide) (fun _ => 5) (some (fun _ => 7)) (fun _ => 0) (fun _ => 0) none
      (fun _ => 0)).1⟩

theorem foldl_hist_cnt_incr (CNT_BITS : Nat) (l : List Nat) :
    ∀ a : Nat, a + l.length < 2 ^ CNT_BITS →
      l.foldl (fun acc _ => hist_cnt_incr CNT_BITS acc) a = a + l.length := by
  induction l with
  | nil => intro a _; simp
  | cons x l ih =>
    intro a h
    simp only [List.length_cons] at h
    have h1 : hist_cnt_incr CNT_BITS a = a + 1 := by
      unfold hist_cnt_incr
      exact Nat.mod_eq_of_lt (by omega)
    simp only [List.foldl_cons, List.length_cons, h1]
    rw [ih (a + 1) (by omega)]
    omega

theorem positions_of_bin_length_le (get_unpaired_index data : Nat → Nat) (USE_INDICES : Bool)
    (data_indices : Option (Nat → Nat)) (start end_ : Nat) (b : Nat) :
    (positions_of_bin get_unpaired_index data USE_INDICES data_indices start end_ b).length
      ≤ end_ - start := by
  unfold positions_of_bin
  have h := List.length_filter_le
    (fun i => decide (resolved_bin get_unpaired_index data USE_INDICES data_indices i = b))
    (List.range' start (end_ - start))
  simpa using h

/-- The positions of a range are distributed over the bins: when every bin code is below
`num_bin`, the numbers of positions per bin add up to the length of the range. -/
theorem sum_filter_length (f : Nat → Nat) (num_bin : Nat) (l : List Nat)
    (h : ∀ x ∈ l, f x < num_bin) :
    Finset.sum (Finset.range num_bin) (fun b => (l.filter (fun i => decide (f i = b))).length)
      = l.length := by
  induction l with
  | nil => simp
  | cons x l ih =>
    have hx : f x < num_bin := h x (List.mem_cons_self x l)
    have hl : ∀ y ∈ l, f y < num_bin := fun y hy => h y (List.mem_cons_of_mem x hy)
    have step : ∀ b, ((x :: l).filter (fun i => decide (f i = b))).length =
        (l.filter (fun i => decide (f i = b))).length + (if f x = b then 1 else 0) := by
      intro b
      by_cases hb : f x = b <;> simp [List.filter_cons, hb]
    simp only [step, Finset.sum_add_distrib, ih hl, List.length_cons]
    rw [Finset.sum_ite_eq (Finset.range num_bin) (f x) (fun _ => 1)]
    simp [hx]

/-- C9. The count-accumulating `ConstructHistogram` (the two overloads without a hessian
argument), started on a zeroed buffer over a range `[start, end)`: the integer counter
overlaid on the cell `2 * b + 1` equals the number of positions of the range whose pair
resolves to the bin code `b`, the counters of all bins add up to `end - start`, and the
cell `2 * b` holds the gradients of those same positions added, in increasing order, to
zero. A cell is the word it stores; the counter has `CNT_BITS` bits, more than needed to
count the range, and bin codes are below `2 ^ 31`. -/
theorem ConstructHistogram_count {S : Type} (add : Nat → S → Nat) (CNT_BITS : Nat)
    (SIZEOF_VAL_T : Nat) (get_unpaired_index data : Nat → Nat)
    (data_indices : Option (Nat → Nat)) (start end_ : Nat) (ordered_gradients : Nat → S)
    (hbin : ∀ i, start ≤ i → i < end_ →
      resolved_bin get_unpaired_index data data_indices.isSome data_indices i < 2 ^ 31)
    (hfit : end_ - start < 2 ^ CNT_BITS) :
    (∀ b, ConstructHistogram add (hist_cnt_incr CNT_BITS) SIZEOF_VAL_T get_unpaired_index
        data data_indices start end_ ordered_gradients none (fun _ => 0) (2 * b + 1) =
      (positions_of_bin get_unpaired_index data data_indices.isSome data_indices
        start end_ b).length) ∧
    (∀ num_bin, (∀ i, start ≤ i → i < end_ →
        resolved_bin get_unpaired_index data data_indices.isSome data_indices i < num_bin) →
      Finset.sum (Finset.range num_bin) (fun b =>
        ConstructHistogram add (hist_cnt_incr CNT_BITS) SIZEOF_VAL_T get_unpaired_index
          data data_indices start end_ ordered_gradients none (fun _ => 0) (2 * b + 1)) =
      end_ - start) ∧
    (∀ b, ConstructHistogram add (hist_cnt_incr CNT_BITS) SIZEOF_VAL_T get_unpaired_index
        data data_indices start end_ ordered_gradients none (fun _ => 0) (2 * b) =
      ((positions_of_bin get_unpaired_index data data_indices.isSome data_indices
        start end_ b).map ordered_gradients).foldl add 0) := by
  have hcnt : ∀ b, ConstructHistogram add (hist_cnt_incr CNT_BITS) SIZEOF_VAL_T
      get_unpaired_index data data_indices start end_ ordered_gradients none (fun _ => 0)
      (2 * b + 1) =
      (positions_of_bin get_unpaired_index data data_indices.isSome data_indices
        start end_ b).length := by
    intro b
    have hlen := positions_of_bin_length_le get_unpaired_index data data_indices.isSome
      data_indices start end_ b
    have hfold := foldl_hist_cnt_incr CNT_BITS
      (positions_of_bin get_unpaired_index data data_indices.isSome data_indices
        start end_ b) 0 (by omega)
    rw [Nat.zero_add] at hfold
    rw [← hfold]
    cases data_indices with
    | none =>
      exact ConstructHistogramInner_cnt add (hist_cnt_incr CNT_BITS) SIZEOF_VAL_T
        get_unpaired_index data false false none start end_ ordered_gradients none
        (fun _ => 0) b hbin
    | some d =>
      exact ConstructHistogramInner_cnt add (hist_cnt_incr CNT_BITS) SIZEOF_VAL_T
        get_unpaired_index data true true (some d) start end_ ordered_gradients none
        (fun _ => 0) b hbin
  refine ⟨hcnt, ?_, ?_⟩
  · intro num_bin hnum
    simp only [hcnt]
    unfold positions_of_bin
    rw [sum_filter_length _ num_bin]
    · simp
    · intro x hx
      rw [List.mem_range'_1] at hx
      exact hnum x hx.1 (by omega)
  · intro b
    cases data_indices with
    | none =>
      exact ConstructHistogramInner_grad add (hist_cnt_incr CNT_BITS) SIZEOF_VAL_T
        get_unpaired_index data false false false none start end_ ordered_gradients none
        (fun _ => 0) b hbin
    | some d =>
      exact ConstructHistogramInner_grad add (hist_cnt_incr CNT_BITS) SIZEOF_VAL_T
        get_unpaired_index data true true false (some d) start end_ ordered_gradients none
        (fun _ => 0) b hbin

/-- Witness of C9: three positions over examples with bins `0, 1, 2, 3`, a 64-bit
counter; the counters of the four bins add up to `3`. -/
theorem ConstructHistogram_count_witness :
    ((∀ i, 0 ≤ i → i < 3 →
        resolved_bin id (fun idx => idx % 4) (none : Option (Nat → Nat)).isSome none i
          < 2 ^ 31) ∧
      3 - 0 < 2 ^ 64) ∧
    Finset.sum (Finset.range 4) (fun b =>
      ConstructHistogram (fun (x y : Nat) => x + y) (hist_cnt_incr 64) 1 id
        (fun idx => idx % 4) none 0 3 (fun _ => 5) none (fun _ => 0) (2 * b + 1)) = 3 - 0 :=
  ⟨⟨fun i _ _ => by
      have h : i % 4 < 4 := Nat.mod_lt _ (by decide)
      show i % 4 < 2 ^ 31
      omega, by decide⟩,
   (ConstructHistogram_count (fun (x y : Nat) => x + y) 64 1 id (fun idx => idx % 4) none
      0 3 (fun _ => 5)
      (fun i _ _ => by
        have h : i % 4 < 4 := Nat.mod_lt _ (by decide)
        show i % 4 < 2 ^ 31
        omega) (by decide)).2.1 4
      (fun i _ _ => Nat.mod_lt _ (by decide))⟩

/-! ## Lemmas on packed integers -/

theorem nat_ldiff_zero (m : Nat) : Nat.ldiff m 0 = m := by
  apply Nat.eq_of_testBit_eq
  intro i
  simp [Nat.testBit_ldiff]

theorem int_lor_zero (a : Int) : Int.lor a 0 = a := by
  cases a with
  | ofNat m => simp [Int.lor]
  | negSucc m =>
    show Int.negSucc (Nat.ldiff m 0) = Int.negSucc m
    rw [nat_ldiff_zero]

theorem int_lor_shift (H : Nat) : ∀ (a b : Int), 0 ≤ b → b < 2 ^ H →
    Int.lor (a * 2 ^ H) b = a * 2 ^ H + b := by
  induction H with
  | zero =>
    intro a b h0 h1
    have hb : b = 0 := by
      simp at h1
      omega
    subst hb
    simp [int_lor_zero]
  | succ H ih =>
    intro a b h0 h1
    have hb := Int.bodd_add_div2 b
    have ha : a * 2 ^ (H + 1) = Int.bit false (a * 2 ^ H) := by
      rw [Int.bit_val]
      simp [pow_succ]
      ring
    have hb2 : b = Int.bit (Int.bodd b) (Int.div2 b) := (Int.bit_decomp b).symm
    have hd : Int.div2 b = b / 2 := Int.div2_val b
    have hpow : (2 : Int) ^ (H + 1) = 2 * 2 ^ H := by ring
    have hlo : 0 ≤ b / 2 := by omega
    have hhi : b / 2 < 2 ^ H := by omega
    rw [ha]
    conv_lhs => rw [hb2]
    rw [Int.lor_bit, hd, ih a (b / 2) hlo hhi]
    simp only [Bool.false_or, Int.bit_val]
    rw [hd] at hb
    cases hbo : Int.bodd b <;> simp [hbo] at hb ⊢ <;> omega

theorem nat_ldiff_mask (k n : Nat) : Nat.ldiff (2 ^ k - 1) n = 2 ^ k - 1 - n % 2 ^ k := by
  apply Nat.eq_of_testBit_eq
  intro i
  have hlt : n % 2 ^ k < 2 ^ k := Nat.mod_lt _ (by positivity)
  have h1 : 2 ^ k - 1 - n % 2 ^ k = 2 ^ k - (n % 2 ^ k + 1) := by omega
  have h2 : 2 ^ k - 1 = 2 ^ k - (0 + 1) := by omega
  rw [Nat.testBit_ldiff, h1, Nat.testBit_two_pow_sub_succ hlt, Nat.testBit_mod_two_pow, h2,
    Nat.testBit_two_pow_sub_succ (by positivity)]
  cases decide (i < k) <;> simp

theorem int_land_mask (k : Nat) (g : Int) : Int.land g (2 ^ k - 1) = g % 2 ^ k := by
  have hk : ((2 : Int) ^ k - 1) = ((2 ^ k - 1 : Nat) : Int) := by
    have : 1 ≤ 2 ^ k := Nat.one_le_two_pow
    push_cast [this]
    rfl
  rw [hk]
  cases g with
  | ofNat m =>
    show ((m &&& (2 ^ k - 1) : Nat) : Int) = _
    rw [Nat.and_pow_two_sub_one_eq_mod]
    simp
  | negSucc m =>
    show ((Nat.ldiff (2 ^ k - 1) m : Nat) : Int) = _
    rw [nat_ldiff_mask, Int.negSucc_emod m (by positivity)]
    have hlt : m % 2 ^ k < 2 ^ k := Nat.mod_lt _ (by positivity)
    have hp : (2 : Int) ^ k = ((2 ^ k : Nat) : Int) := by push_cast; rfl
    rw [hp]
    generalize 2 ^ k = p at hlt
    omega

theorem static_cast_int_eq_self (bits : Nat) (x : Int) (hb : 1 ≤ bits)
    (h1 : -(2 : Int) ^ (bits - 1) ≤ x) (h2 : x < (2 : Int) ^ (bits - 1)) :
    static_cast_int bits x = x := by
  unfold static_cast_int
  have hpow : (2 : Int) ^ bits = 2 * 2 ^ (bits - 1) := by
    have : bits = (bits - 1) + 1 := by omega
    conv_lhs => rw [this]
    ring
  rw [hpow]
  generalize (2 : Int) ^ (bits - 1) = h at h1 h2
  have : (x + h) % (2 * h) = x + h := Int.emod_eq_of_lt (by omega) (by omega)
  omega

theorem static_cast_int_add (bits : Nat) (x y : Int) :
    static_cast_int bits (static_cast_int bits x + y) = static_cast_int bits (x + y) := by
  unfold static_cast_int
  have h : (x + 2 ^ (bits - 1)) % 2 ^ bits - 2 ^ (bits - 1) + y + 2 ^ (bits - 1) =
      (x + 2 ^ (bits - 1)) % 2 ^ bits + y := by ring
  rw [h, Int.emod_add_emod]
  have h2 : x + 2 ^ (bits - 1) + y = x + y + 2 ^ (bits - 1) := by ring
  rw [h2]

theorem static_cast_int_add_right (bits : Nat) (x y : Int) :
    static_cast_int bits (x + static_cast_int bits y) = static_cast_int bits (x + y) := by
  rw [add_comm, static_cast_int_add, add_comm]

theorem static_cast_int_idem (bits : Nat) (x : Int) :
    static_cast_int bits (static_cast_int bits x) = static_cast_int bits x := by
  have h := static_cast_int_add bits x 0
  simpa using h

theorem static_cast_int_16_range (x : Int) :
    -(2 : Int) ^ 15 ≤ static_cast_int 16 x ∧ static_cast_int 16 x < (2 : Int) ^ 15 := by
  unfold static_cast_int
  norm_num
  omega

/-- The value added to a cell, in arithmetic: the sign-extended high byte of the 16-bit
gradient in the high lane and, in the low lane, its low byte (hessian mode, or lanes of
8 bits in both modes) or the literal `1` (count mode with wider lanes). -/
theorem gradient_packed_eq (USE_HESSIAN : Bool) (PACKED_BITS HIST_BITS : Nat) (g : Int)
    (hg1 : -(2 : Int) ^ 15 ≤ g) (hg2 : g < (2 : Int) ^ 15)
    (hw : (PACKED_BITS = 16 ∧ HIST_BITS = 8) ∨ (PACKED_BITS = 32 ∧ HIST_BITS = 16) ∨
      (PACKED_BITS = 64 ∧ HIST_BITS = 32)) :
    gradient_packed USE_HESSIAN PACKED_BITS HIST_BITS g =
      (g / 256) * 2 ^ HIST_BITS +
        (if USE_HESSIAN = true ∨ HIST_BITS = 8 then g % 256 else 1) := by
  have hshift : Int.shiftRight g 8 = g / 256 := by
    have h := Int.shiftRight_eq_div_pow g 8
    simpa using h
  have hhi1 : -128 ≤ g / 256 := by omega
  have hhi2 : g / 256 < 128 := by omega
  have h8 : static_cast_int 8 (g / 256) = g / 256 :=
    static_cast_int_eq_self 8 _ (by decide) (by norm_num; omega) (by norm_num; omega)
  have hland : Int.land g 0xff = g % 256 := by
    have h := int_land_mask 8 g
    norm_num at h
    exact h
  have hlo1 : 0 ≤ g % 256 := by omega
  have hlo2 : g % 256 < 256 := by omega
  unfold gradient_packed
  rcases hw with ⟨hP, hH⟩ | ⟨hP, hH⟩ | ⟨hP, hH⟩
  · subst hP hH
    simp only [if_true, or_true]
    rw [static_cast_int_eq_self 16 g (by decide) (by norm_num; omega) (by norm_num; omega)]
    omega
  · subst hP hH
    have hne : ¬ (16 = 8) := by decide
    simp only [hne, if_false, or_false, hshift, h8]
    rw [static_cast_int_eq_self 32 (g / 256) (by decide) (by norm_num; omega)
      (by norm_num; omega)]
    have hsl : (g / 256) <<< ((16 : Nat) : Int) = g / 256 * 2 ^ 16 := by
      rw [Int.shiftLeft_eq_mul_pow]
      norm_num
    rw [hsl]
    cases USE_HESSIAN
    · simp only [Bool.false_eq_true, if_false]
      rw [int_lor_shift 16 _ 1 (by decide) (by norm_num)]
      exact static_cast_int_eq_self 32 _ (by decide) (by norm_num; omega) (by norm_num; omega)
    · simp only [if_true, hland]
      rw [int_lor_shift 16 _ _ hlo1 (by norm_num; omega)]
      exact static_cast_int_eq_self 32 _ (by decide) (by norm_num; omega) (by norm_num; omega)
  · subst hP hH
    have hne : ¬ (32 = 8) := by decide
    simp only [hne, if_false, or_false, hshift, h8]
    rw [static_cast_int_eq_self 64 (g / 256) (by decide) (by norm_num; omega)
      (by norm_num; omega)]
    have hsl : (g / 256) <<< ((32 : Nat) : Int) = g / 256 * 2 ^ 32 := by
      rw [Int.shiftLeft_eq_mul_pow]
      norm_num
    rw [hsl]
    cases USE_HESSIAN
    · simp only [Bool.false_eq_true, if_false]
      rw [int_lor_shift 32 _ 1 (by decide) (by norm_num)]
      exact static_cast_int_eq_self 64 _ (by decide) (by norm_num; omega) (by norm_num; omega)
    · simp only [if_true, hland]
      rw [int_lor_shift 32 _ _ hlo1 (by norm_num; omega)]
      exact static_cast_int_eq_self 64 _ (by decide) (by norm_num; omega) (by norm_num; omega)

/-- One iteration of the packed loops changes the cell `k` exactly when the pair of the
position resolves to the bin `k`, by adding `gradient_packed` in the cell type. -/
theorem ConstructHistogramIntInner_body_slot (get_unpaired_index data : Nat → Nat)
    (USE_INDICES USE_HESSIAN : Bool) (PACKED_BITS HIST_BITS : Nat)
    (data_indices : Option (Nat → Nat)) (ordered_gradients : Nat → Int)
    (i : Nat) (out : Nat → Int) (k : Nat)
    (hb : resolved_bin get_unpaired_index data USE_INDICES data_indices i < 2 ^ 32) :
    ConstructHistogramIntInner_body get_unpaired_index data USE_INDICES USE_HESSIAN
      PACKED_BITS HIST_BITS data_indices ordered_gradients i out k =
    if decide (resolved_bin get_unpaired_index data USE_INDICES data_indices i = k) = true
    then static_cast_int PACKED_BITS (out k + gradient_packed USE_HESSIAN PACKED_BITS
      HIST_BITS (static_cast_int 16 (ordered_gradients i)))
    else out k := by
  unfold ConstructHistogramIntInner_body
  unfold resolved_bin at hb ⊢
  have hti : static_cast 32 (data (get_unpaired_index
      (paired_index USE_INDICES data_indices i))) =
      data (get_unpaired_index (paired_index USE_INDICES data_indices i)) :=
    Nat.mod_eq_of_lt hb
  simp only [hti]
  generalize data (get_unpaired_index (paired_index USE_INDICES data_indices i)) = bin
  by_cases hbb : bin = k
  · subst hbb
    simp [store]
  · have h2 : ¬ k = bin := fun h => hbb h.symm
    simp [store, h2, hbb]

theorem foldl_static_cast_int_add (bits : Nat) (f : Nat → Int) (l : List Nat) :
    ∀ a : Int, static_cast_int bits a = a →
      l.foldl (fun acc i => static_cast_int bits (acc + f i)) a =
        static_cast_int bits (a + (l.map f).sum) := by
  induction l with
  | nil => intro a ha; simp [ha]
  | cons x l ih =>
    intro a _
    simp only [List.foldl_cons, List.map_cons, List.sum_cons]
    rw [ih _ (static_cast_int_idem bits _), static_cast_int_add, add_assoc]

theorem sum_map_lanes (f g : Nat → Int) (c : Int) (l : List Nat) :
    (l.map (fun i => f i * c + g i)).sum = (l.map f).sum * c + (l.map g).sum := by
  induction l with
  | nil => simp
  | cons x l ih =>
    simp only [List.map_cons, List.sum_cons, ih]
    ring

/-- The cell of the bin `b` after `ConstructHistogramIntInner`, for the three containers:
the initial value plus the high-byte sum in the high lane plus the low-lane sum, wrapped
to the cell type. -/
theorem ConstructHistogramIntInner_slot (SIZEOF_VAL_T : Nat)
    (get_unpaired_index data : Nat → Nat)
    (USE_INDICES USE_PREFETCH USE_HESSIAN : Bool) (PACKED_BITS HIST_BITS : Nat)
    (data_indices : Option (Nat → Nat)) (start end_ : Nat) (ordered_gradients : Nat → Int)
    (out : Nat → Int) (b : Nat)
    (hw : (PACKED_BITS = 16 ∧ HIST_BITS = 8) ∨ (PACKED_BITS = 32 ∧ HIST_BITS = 16) ∨
      (PACKED_BITS = 64 ∧ HIST_BITS = 32))
    (hbin : ∀ i, start ≤ i → i < end_ →
      resolved_bin get_unpaired_index data USE_INDICES data_indices i < 2 ^ 32)
    (hout : static_cast_int PACKED_BITS (out b) = out b) :
    ConstructHistogramIntInner SIZEOF_VAL_T get_unpaired_index data USE_INDICES USE_PREFETCH
      USE_HESSIAN PACKED_BITS HIST_BITS data_indices start end_ ordered_gradients out b =
    static_cast_int PACKED_BITS (out b +
      (high_byte_sum ordered_gradients
          (positions_of_bin get_unpaired_index data USE_INDICES data_indices start end_ b)
          * 2 ^ HIST_BITS +
        ((positions_of_bin get_unpaired_index data USE_INDICES data_indices start end_ b).map
          (fun i => if USE_HESSIAN = true ∨ HIST_BITS = 8
            then static_cast_int 16 (ordered_gradients i) % 256 else 1)).sum)) := by
  rw [ConstructHistogramIntInner_eq_forLoop]
  rw [forLoop_slot _ b
    (fun i => decide (resolved_bin get_unpaired_index data USE_INDICES data_indices i = b))
    (fun i acc => static_cast_int PACKED_BITS (acc + gradient_packed USE_HESSIAN PACKED_BITS
      HIST_BITS (static_cast_int 16 (ordered_gradients i)))) _ start out
    (fun i h1 h2 o => ConstructHistogramIntInner_body_slot get_unpaired_index data
      USE_INDICES USE_HESSIAN PACKED_BITS HIST_BITS data_indices ordered_gradients i o b
      (hbin i h1 (by omega)))]
  rw [foldl_static_cast_int_add PACKED_BITS _ _ (out b) hout]
  have hgp : (fun i => gradient_packed USE_HESSIAN PACKED_BITS HIST_BITS
      (static_cast_int 16 (ordered_gradients i))) =
      (fun i => static_cast_int 16 (ordered_gradients i) / 256 * 2 ^ HIST_BITS +
        (if USE_HESSIAN = true ∨ HIST_BITS = 8
          then static_cast_int 16 (ordered_gradients i) % 256 else 1)) := by
    funext i
    exact gradient_packed_eq USE_HESSIAN PACKED_BITS HIST_BITS _
      (static_cast_int_16_range _).1 (static_cast_int_16_range _).2 hw
  rw [hgp, sum_map_lanes]
  rfl

theorem low_byte_sum_nonneg (ordered_gradients : Nat → Int) (l : List Nat) :
    0 ≤ low_byte_sum ordered_gradients l := by
  unfold low_byte_sum
  apply List.sum_nonneg
  intro x hx
  obtain ⟨i, _, rfl⟩ := List.mem_map.mp hx
  exact Int.emod_nonneg _ (by decide)

/-- The cell of the bin `b` after a packed entry point in hessian mode, from a zeroed
buffer: the wrap of `G * 2 ^ HIST_BITS + S`. -/
theorem ConstructHistogramIntOfLane_slot (HIST_BITS : Nat) (SIZEOF_VAL_T : Nat)
    (get_unpaired_index data : Nat → Nat)
    (data_indices : Option (Nat → Nat)) (start end_ : Nat) (ordered_gradients : Nat → Int)
    (ordered_hessians : Nat → Int) (b : Nat)
    (hH : HIST_BITS = 8 ∨ HIST_BITS = 16 ∨ HIST_BITS = 32)
    (hbin : ∀ i, start ≤ i → i < end_ →
      resolved_bin get_unpaired_index data data_indices.isSome data_indices i < 2 ^ 32) :
    ConstructHistogramIntOfLane HIST_BITS SIZEOF_VAL_T get_unpaired_index data data_indices
        start end_ ordered_gradients (some ordered_hessians) (fun _ => 0) b =
      static_cast_int (2 * HIST_BITS)
        (high_byte_sum ordered_gradients (positions_of_bin get_unpaired_index data
            data_indices.isSome data_indices start end_ b) * 2 ^ HIST_BITS +
          low_byte_sum ordered_gradients (positions_of_bin get_unpaired_index data
            data_indices.isSome data_indices start end_ b)) := by
  rcases hH with hH | hH | hH <;> subst hH
  · cases data_indices with
    | none =>
      have h := ConstructHistogramIntInner_slot SIZEOF_VAL_T get_unpaired_index data
        false false true 16 8 none start end_ ordered_gradients (fun _ => 0) b
        (Or.inl ⟨rfl, rfl⟩) hbin (by show static_cast_int 16 0 = 0; decide)
      simp only [ConstructHistogramIntOfLane, ConstructHistogramInt8, if_true]
      rw [h]
      simp [low_byte_sum]
    | some d =>
      have h := ConstructHistogramIntInner_slot SIZEOF_VAL_T get_unpaired_index data
        true true true 16 8 (some d) start end_ ordered_gradients (fun _ => 0) b
        (Or.inl ⟨rfl, rfl⟩) hbin (by show static_cast_int 16 0 = 0; decide)
      simp only [ConstructHistogramIntOfLane, ConstructHistogramInt8, if_true]
      rw [h]
      simp [low_byte_sum]
  · cases data_indices with
    | none =>
      have h := ConstructHistogramIntInner_slot SIZEOF_VAL_T get_unpaired_index data
        false false true 32 16 none start end_ ordered_gradients (fun _ => 0) b
        (Or.inr (Or.inl ⟨rfl, rfl⟩)) hbin (by show static_cast_int 32 0 = 0; decide)
      simp only [ConstructHistogramIntOfLane, ConstructHistogramInt16, if_true, if_false,
        show ¬ (16 = 8) by decide]
      rw [h]
      simp [low_byte_sum]
    | some d =>
      have h := ConstructHistogramIntInner_slot SIZEOF_VAL_T get_unpaired_index data
        true true true 32 16 (some d) start end_ ordered_gradients (fun _ => 0) b
        (Or.inr (Or.inl ⟨rfl, rfl⟩)) hbin (by show static_cast_int 32 0 = 0; decide)
      simp only [ConstructHistogramIntOfLane, ConstructHistogramInt16, if_true, if_false,
        show ¬ (16 = 8) by decide]
      rw [h]
      simp [low_byte_sum]
  · cases data_indices with
    | none =>
      have h := ConstructHistogramIntInner_slot SIZEOF_VAL_T get_unpaired_index data
        false false true 64 32 none start end_ ordered_gradients (fun _ => 0) b
        (Or.inr (Or.inr ⟨rfl, rfl⟩)) hbin (by show static_cast_int 64 0 = 0; decide)
      simp only [ConstructHistogramIntOfLane, ConstructHistogramInt32, if_false,
        show ¬ (32 = 8) by decide, show ¬ (32 = 16) by decide]
      rw [h]
      simp [low_byte_sum]
    | some d =>
      have h := ConstructHistogramIntInner_slot SIZEOF_VAL_T get_unpaired_index data
        true true true 64 32 (some d) start end_ ordered_gradients (fun _ => 0) b
        (Or.inr (Or.inr ⟨rfl, rfl⟩)) hbin (by show static_cast_int 64 0 = 0; decide)
      simp only [ConstructHistogramIntOfLane, ConstructHistogramInt32, if_false,
        show ¬ (32 = 8) by decide, show ¬ (32 = 16) by decide]
      rw [h]
      simp [low_byte_sum]

/-- C7. For each packed container in hessian mode (`ConstructHistogramInt8` with cells of
16 bits and lanes of `HIST_BITS = 8`, `ConstructHistogramInt16` with 32 and 16,
`ConstructHistogramInt32` with 64 and 32), started on a zeroed buffer: the cell of the
bin `b` equals `G * 2 ^ HIST_BITS + S`, where `G` is the sum of the sign-extended high
bytes and `S` the sum of the low bytes (read as `0..255`) of the 16-bit packed gradients
of the positions of `[start, end)` resolving to `b`, provided `S < 2 ^ HIST_BITS` and
`G * 2 ^ HIST_BITS + S` fits the container; then the high lane (arithmetic shift right
by `HIST_BITS`) is exactly `G` and the low lane is exactly `S`. Bin codes are `uint32_t`
values. -/
theorem ConstructHistogramInt_lanes_exact (HIST_BITS : Nat) (SIZEOF_VAL_T : Nat)
    (get_unpaired_index data : Nat → Nat)
    (data_indices : Option (Nat → Nat)) (start end_ : Nat) (ordered_gradients : Nat → Int)
    (ordered_hessians : Nat → Int) (b : Nat)
    (hH : HIST_BITS = 8 ∨ HIST_BITS = 16 ∨ HIST_BITS = 32)
    (hbin : ∀ i, start ≤ i → i < end_ →
      resolved_bin get_unpaired_index data data_indices.isSome data_indices i < 2 ^ 32)
    (hS : low_byte_sum ordered_gradients (positions_of_bin get_unpaired_index data
      data_indices.isSome data_indices start end_ b) < 2 ^ HIST_BITS)
    (hlo : -(2 : Int) ^ (2 * HIST_BITS - 1) ≤
      high_byte_sum ordered_gradients (positions_of_bin get_unpaired_index data
          data_indices.isSome data_indices start end_ b) * 2 ^ HIST_BITS +
        low_byte_sum ordered_gradients (positions_of_bin get_unpaired_index data
          data_indices.isSome data_indices start end_ b))
    (hhi : high_byte_sum ordered_gradients (positions_of_bin get_unpaired_index data
          data_indices.isSome data_indices start end_ b) * 2 ^ HIST_BITS +
        low_byte_sum ordered_gradients (positions_of_bin get_unpaired_index data
          data_indices.isSome data_indices start end_ b) < (2 : Int) ^ (2 * HIST_BITS - 1)) :
    ConstructHistogramIntOfLane HIST_BITS SIZEOF_VAL_T get_unpaired_index data data_indices
        start end_ ordered_gradients (some ordered_hessians) (fun _ => 0) b =
      high_byte_sum ordered_gradients (positions_of_bin get_unpaired_index data
          data_indices.isSome data_indices start end_ b) * 2 ^ HIST_BITS +
        low_byte_sum ordered_gradients (positions_of_bin get_unpaired_index data
          data_indices.isSome data_indices start end_ b) ∧
    Int.shiftRight (ConstructHistogramIntOfLane HIST_BITS SIZEOF_VAL_T get_unpaired_index
        data data_indices start end_ ordered_gradients (some ordered_hessians)
        (fun _ => 0) b) HIST_BITS =
      high_byte_sum ordered_gradients (positions_of_bin get_unpaired_index data
          data_indices.isSome data_indices start end_ b) ∧
    ConstructHistogramIntOfLane HIST_BITS SIZEOF_VAL_T get_unpaired_index data data_indices
        start end_ ordered_gradients (some ordered_hessians) (fun _ => 0) b
        % 2 ^ HIST_BITS =
      low_byte_sum ordered_gradients (positions_of_bin get_unpaired_index data
          data_indices.isSome data_indices start end_ b) := by
  have hslot := ConstructHistogramIntOfLane_slot HIST_BITS SIZEOF_VAL_T get_unpaired_index
    data data_indices start end_ ordered_gradients ordered_hessians b hH hbin
  have hS0 := low_byte_sum_nonneg ordered_gradients (positions_of_bin get_unpaired_index data
    data_indices.isSome data_indices start end_ b)
  rw [hslot]
  generalize high_byte_sum ordered_gradients (positions_of_bin get_unpaired_index data
    data_indices.isSome data_indices start end_ b) = G at hlo hhi
  generalize low_byte_sum ordered_gradients (positions_of_bin get_unpaired_index data
    data_indices.isSome data_indices start end_ b) = S at hS hlo hhi hS0
  have hpos : 1 ≤ 2 * HIST_BITS := by omega
  rw [static_cast_int_eq_self (2 * HIST_BITS) _ hpos hlo hhi]
  have hshift : Int.shiftRight (G * 2 ^ HIST_BITS + S) HIST_BITS =
      (G * 2 ^ HIST_BITS + S) / 2 ^ HIST_BITS := by
    have h := Int.shiftRight_eq_div_pow (G * 2 ^ HIST_BITS + S) HIST_BITS
    simpa using h
  have hpow : (0 : Int) < 2 ^ HIST_BITS := by positivity
  refine ⟨rfl, ?_, ?_⟩
  · rw [hshift, add_comm, Int.add_mul_ediv_right _ _ (ne_of_gt hpow),
      Int.ediv_eq_zero_of_lt hS0 hS]
    simp
  · rw [add_comm, Int.add_mul_emod_self]
    exact Int.emod_eq_of_lt hS0 hS

/-- Witness of C7: lanes of 16 bits, two positions over examples with bins `0` and `1`,
every packed gradient equal to `0x0102` (high byte `1`, low byte `2`); the cell of bin
`0` is `1 * 2 ^ 16 + 2`. -/
theorem ConstructHistogramInt_lanes_exact_witness :
    ((16 = 8 ∨ 16 = 16 ∨ 16 = 32) ∧
      low_byte_sum (fun _ => 258) (positions_of_bin id (fun idx => idx % 4)
        (none : Option (Nat → Nat)).isSome none 0 2 0) < 2 ^ 16) ∧
    ConstructHistogramIntOfLane 16 1 id (fun idx => idx % 4) none 0 2 (fun _ => 258)
      (some (fun _ => 0)) (fun _ => 0) 0 = 1 * 2 ^ 16 + 2 :=
  ⟨⟨by decide, by decide⟩,
   (ConstructHistogramInt_lanes_exact 16 1 id (fun idx => idx % 4) none 0 2 (fun _ => 258)
      (fun _ => 0) 0 (by decide)
      (fun i _ _ => by
        have h : i % 4 < 4 := Nat.mod_lt _ (by decide)
        show i % 4 < 2 ^ 32
        omega)
      (by decide) (by decide) (by decide)).1⟩

/-- Counterexample to C8 as stated: in count mode with the 16-bit container
(`ConstructHistogramInt8` without a hessian argument), one pair with the packed gradient
`0x0005` adds `5` to the cell of its bin, not `(sign_extend(0) << 8) | 1 = 1`: the low
lane grows by the low byte of the supplied gradient. -/
theorem ConstructHistogramInt8_count_counterexample :
    ConstructHistogramInt8 1 id id none 0 1 (fun _ => 5) none (fun _ => 0) 0 = 0 + 5 ∧
    Int.lor ((static_cast_int 8 (Int.shiftRight 5 8)) <<< ((8 : Nat) : Int)) 1 = 1 ∧
    ConstructHistogramInt8 1 id id none 0 1 (fun _ => 5) none (fun _ => 0) 0 ≠
      0 + Int.lor ((static_cast_int 8 (Int.shiftRight 5 8)) <<< ((8 : Nat) : Int)) 1 := by
  decide

/-! ## Further properties of Split -/

theorem static_cast_uint32 (VAL_BITS x : Nat) (hbits : VAL_BITS ≤ 32) :
    static_cast VAL_BITS (x % 2 ^ 32) = x % 2 ^ VAL_BITS := by
  unfold static_cast
  exact Nat.mod_mod_of_dvd x (pow_dvd_pow 2 hbits)

/-- The bin `t_zero_bin` in plain arithmetic, when the sentinel is a value of `VAL_T`. -/
theorem SplitInner_t_zero_bin_eq (VAL_BITS min_bin default_bin most_freq_bin : Nat)
    (hbits : VAL_BITS ≤ 32) (hne : default_bin ≠ most_freq_bin)
    (hval : min_bin + default_bin - (if most_freq_bin = 0 then 1 else 0) < 2 ^ VAL_BITS) :
    SplitInner_t_zero_bin VAL_BITS min_bin default_bin most_freq_bin =
      min_bin + default_bin - (if most_freq_bin = 0 then 1 else 0) := by
  unfold SplitInner_t_zero_bin
  simp only [static_cast_uint32 _ _ hbits]
  have hpos : 0 < 2 ^ VAL_BITS := by positivity
  by_cases hz : most_freq_bin = 0
  · simp only [hz, if_true] at hval ⊢
    have hd : 1 ≤ default_bin := by omega
    unfold decrement
    by_cases hlt : min_bin + default_bin < 2 ^ VAL_BITS
    · rw [Nat.mod_eq_of_lt hlt]
      have h2 : min_bin + default_bin + (2 ^ VAL_BITS - 1) =
          (min_bin + default_bin - 1) + 2 ^ VAL_BITS := by omega
      rw [h2, Nat.add_mod_right]
      exact Nat.mod_eq_of_lt (by omega)
    · have heq : min_bin + default_bin = 2 ^ VAL_BITS := by omega
      rw [heq, Nat.mod_self, Nat.zero_add]
      exact Nat.mod_eq_of_lt (by omega)
  · simp only [hz, if_false, Nat.sub_zero] at hval ⊢
    exact Nat.mod_eq_of_lt hval

/-- The side `missing_default_indices` designates under policy `Zero` or `NaN`. -/
theorem missing_default_side_iff (MISS_IS_ZERO MISS_IS_NA default_left : Bool)
    (h : (MISS_IS_ZERO || MISS_IS_NA) = true) :
    (SplitInner_missing_default_side MISS_IS_ZERO MISS_IS_NA default_left = Side.lte ↔
      default_left = true) ∧
    (SplitInner_missing_default_side MISS_IS_ZERO MISS_IS_NA default_left = Side.gt ↔
      default_left = false) := by
  unfold SplitInner_missing_default_side
  rw [h]
  cases default_left <;> simp

/-- C11. In every call of `Split` (either overload, `min_bin < max_bin` or not) with
missing policy `Zero` and `default_bin != most_freq_bin`, every pair whose resolved bin
code equals the zero sentinel `min_bin + default_bin`, lowered by one when
`most_freq_bin == 0`, is placed in `lte` if `default_left` is true and in `gt` if it is
false, whatever the threshold is. The bin code is a value of `VAL_T`, a type of at most
32 bits; `min_bin` is `1` in the overload without a `min_bin` argument. -/
theorem Split_Zero_sentinel_default_left (VAL_BITS : Nat) (get_unpaired_index data : Nat → Nat)
    (min_bin : Option Nat) (max_bin default_bin most_freq_bin : Nat)
    (default_left : Bool) (threshold : Nat)
    (data_indices : Nat → Nat) (cnt : Nat) (lte_indices gt_indices : Nat → Nat)
    (i : Nat) (hi : i < cnt) (hbits : VAL_BITS ≤ 32)
    (hne : default_bin ≠ most_freq_bin)
    (hval : data (get_unpaired_index (data_indices i)) < 2 ^ VAL_BITS)
    (hbin : data (get_unpaired_index (data_indices i)) =
      min_bin.getD 1 + default_bin - (if most_freq_bin = 0 then 1 else 0)) :
    (data_indices i ∈ (Split VAL_BITS get_unpaired_index data min_bin max_bin default_bin
        most_freq_bin MissingType.Zero default_left threshold data_indices cnt lte_indices
        gt_indices).lte ↔ default_left = true) ∧
    (data_indices i ∈ (Split VAL_BITS get_unpaired_index data min_bin max_bin default_bin
        most_freq_bin MissingType.Zero default_left threshold data_indices cnt lte_indices
        gt_indices).gt ↔ default_left = false) := by
  obtain ⟨h1, h2⟩ := Split_mem_iff VAL_BITS get_unpaired_index data min_bin max_bin
    default_bin most_freq_bin MissingType.Zero default_left threshold data_indices cnt
    lte_indices gt_indices i hi
  rw [h1, h2]
  have ht := SplitInner_t_zero_bin_eq VAL_BITS (min_bin.getD 1) default_bin most_freq_bin
    hbits hne (by rw [← hbin]; exact hval)
  rw [← hbin] at ht
  generalize data (get_unpaired_index (data_indices i)) = bin at ht
  have hroute : Split_route VAL_BITS min_bin max_bin default_bin most_freq_bin
      MissingType.Zero default_left threshold bin =
      SplitInner_missing_default_side true false default_left := by
    cases min_bin with
    | none =>
      simp only [Option.getD_none] at ht
      by_cases hmm : 1 < max_bin <;>
        simp [Split_route, SplitInner_route, SplitInner_side, SplitInner_side_degenerate,
          hne, ht, hmm]
    | some m =>
      simp only [Option.getD_some] at ht
      by_cases hmm : m < max_bin <;>
        simp [Split_route, SplitInner_route, SplitInner_side, SplitInner_side_degenerate,
          hne, ht, hmm]
  rw [hroute]
  exact missing_default_side_iff true false default_left rfl

/-- Witness of C11: `VAL_T = uint8_t`, `min_bin = 1`, `default_bin = 2`,
`most_freq_bin = 3`, so the sentinel is bin `3`; with `default_left` set and
`threshold = 0` the pair of bin `3` goes to `lte`. -/
theorem Split_Zero_sentinel_default_left_witness :
    ((0 : Nat) < 1 ∧ 8 ≤ 32 ∧ (2 : Nat) ≠ 3 ∧ id (id ((fun _ : Nat => 3) 0)) < 2 ^ 8 ∧
      id (id ((fun _ : Nat => 3) 0)) = (some 1).getD 1 + 2 - (if 3 = 0 then 1 else 0)) ∧
    (fun _ : Nat => 3) 0 ∈ (Split 8 id id (some 1) 4 2 3 MissingType.Zero true 0
      (fun _ => 3) 1 (fun _ => 0) (fun _ => 0)).lte :=
  ⟨by decide,
   (Split_Zero_sentinel_default_left 8 id id (some 1) 4 2 3 true 0 (fun _ => 3) 1
      (fun _ => 0) (fun _ => 0) 0 (by decide) (by decide) (by decide) (by decide)
      (by decide)).1.mpr rfl⟩

/-- C12. In every call of `Split` (either overload, `min_bin < max_bin` or not) with
missing policy `NaN` in which `max_bin` is not the most-frequent bin (it is not the case
that `max_bin == most_freq_bin + min_bin`, a `uint32_t` sum, and `most_freq_bin > 0`),
every pair whose resolved bin code equals `max_bin` is placed in `lte` if `default_left`
is true and in `gt` if it is false, whatever the threshold is. `max_bin` is a value of
`VAL_T`; `min_bin` is `1` in the overload without a `min_bin` argument. -/
theorem Split_NaN_max_bin_default_left (VAL_BITS : Nat) (get_unpaired_index data : Nat → Nat)
    (min_bin : Option Nat) (max_bin default_bin most_freq_bin : Nat)
    (default_left : Bool) (threshold : Nat)
    (data_indices : Nat → Nat) (cnt : Nat) (lte_indices gt_indices : Nat → Nat)
    (i : Nat) (hi : i < cnt)
    (hmax : max_bin < 2 ^ VAL_BITS)
    (hnan : ¬ (max_bin = (most_freq_bin + min_bin.getD 1) % 2 ^ 32 ∧ most_freq_bin > 0))
    (hbin : data (get_unpaired_index (data_indices i)) = max_bin) :
    (data_indices i ∈ (Split VAL_BITS get_unpaired_index data min_bin max_bin default_bin
        most_freq_bin MissingType.NaN default_left threshold data_indices cnt lte_indices
        gt_indices).lte ↔ default_left = true) ∧
    (data_indices i ∈ (Split VAL_BITS get_unpaired_index data min_bin max_bin default_bin
        most_freq_bin MissingType.NaN default_left threshold data_indices cnt lte_indices
        gt_indices).gt ↔ default_left = false) := by
  obtain ⟨h1, h2⟩ := Split_mem_iff VAL_BITS get_unpaired_index data min_bin max_bin
    default_bin most_freq_bin MissingType.NaN default_left threshold data_indices cnt
    lte_indices gt_indices i hi
  rw [h1, h2, hbin]
  have hroute : Split_route VAL_BITS min_bin max_bin default_bin most_freq_bin
      MissingType.NaN default_left threshold max_bin =
      SplitInner_missing_default_side false true default_left := by
    cases min_bin with
    | none =>
      simp only [Option.getD_none] at hnan
      simp only [Split_route, if_neg hnan]
      by_cases hmm : 1 < max_bin <;>
        simp [SplitInner_route, SplitInner_side, SplitInner_side_degenerate,
          static_cast, Nat.mod_eq_of_lt hmax, hmm]
    | some m =>
      simp only [Option.getD_some] at hnan
      simp only [Split_route, if_neg hnan]
      by_cases hmm : m < max_bin <;>
        simp [SplitInner_route, SplitInner_side, SplitInner_side_degenerate,
          static_cast, Nat.mod_eq_of_lt hmax, hmm]
  rw [hroute]
  exact missing_default_side_iff false true default_left rfl

/-- Witness of C12: `VAL_T = uint8_t`, `min_bin = 1`, `max_bin = 4`,
`most_freq_bin = 2`; with `default_left` clear the pair of bin `4` goes to `gt` although
`threshold = 200`. -/
theorem Split_NaN_max_bin_default_left_witness :
    ((0 : Nat) < 1 ∧ 4 < 2 ^ 8 ∧ ¬ (4 = (2 + (some 1).getD 1) % 2 ^ 32 ∧ 2 > 0) ∧
      id (id ((fun _ : Nat => 4) 0)) = 4) ∧
    (fun _ : Nat => 4) 0 ∈ (Split 8 id id (some 1) 4 0 2 MissingType.NaN false 200
      (fun _ => 4) 1 (fun _ => 0) (fun _ => 0)).gt :=
  ⟨by decide,
   (Split_NaN_max_bin_default_left 8 id id (some 1) 4 0 2 false 200 (fun _ => 4) 1
      (fun _ => 0) (fun _ => 0) 0 (by decide) (by decide) (by decide) rfl).2.mpr rfl⟩

/-- C13. In the degenerate case `min_bin == max_bin` with missing policy `None`, `Split`
compares only the maximum bin code with the threshold: every pair whose resolved bin code
equals `max_bin` is placed in `lte` if and only if `max_bin <= threshold + min_bin`,
lowered by one when `most_freq_bin == 0`, and every pair with any other bin code is
placed in `lte` if and only if `most_freq_bin <= threshold`; a pair not placed in `lte`
is placed in `gt`. The sum `threshold + min_bin` is a value of `VAL_T`, a type of at
most 32 bits, and is lowered in the natural numbers (zero stays zero); `min_bin` is `1`
in the overload without a `min_bin` argument. -/
theorem Split_None_degenerate (VAL_BITS : Nat) (get_unpaired_index data : Nat → Nat)
    (min_bin : Option Nat) (max_bin default_bin most_freq_bin : Nat)
    (default_left : Bool) (threshold : Nat)
    (data_indices : Nat → Nat) (cnt : Nat) (lte_indices gt_indices : Nat → Nat)
    (i : Nat) (hi : i < cnt) (hbits : VAL_BITS ≤ 32)
    (hdeg : min_bin.getD 1 = max_bin)
    (hfit : threshold + min_bin.getD 1 < 2 ^ VAL_BITS) :
    (data (get_unpaired_index (data_indices i)) = max_bin →
      (data_indices i ∈ (Split VAL_BITS get_unpaired_index data min_bin max_bin default_bin
          most_freq_bin MissingType.None default_left threshold data_indices cnt lte_indices
          gt_indices).lte ↔
        max_bin ≤ threshold + min_bin.getD 1 - (if most_freq_bin = 0 then 1 else 0)) ∧
      (data_indices i ∈ (Split VAL_BITS get_unpaired_index data min_bin max_bin default_bin
          most_freq_bin MissingType.None default_left threshold data_indices cnt lte_indices
          gt_indices).gt ↔
        ¬ max_bin ≤ threshold + min_bin.getD 1 - (if most_freq_bin = 0 then 1 else 0))) ∧
    (data (get_unpaired_index (data_indices i)) ≠ max_bin →
      (data_indices i ∈ (Split VAL_BITS get_unpaired_index data min_bin max_bin default_bin
          most_freq_bin MissingType.None default_left threshold data_indices cnt lte_indices
          gt_indices).lte ↔ most_freq_bin ≤ threshold) ∧
      (data_indices i ∈ (Split VAL_BITS get_unpaired_index data min_bin max_bin default_bin
          most_freq_bin MissingType.None default_left threshold data_indices cnt lte_indices
          gt_indices).gt ↔ ¬ most_freq_bin ≤ threshold)) := by
  obtain ⟨h1, h2⟩ := Split_mem_iff VAL_BITS get_unpaired_index data min_bin max_bin
    default_bin most_freq_bin MissingType.None default_left threshold data_indices cnt
    lte_indices gt_indices i hi
  rw [h1, h2]
  generalize data (get_unpaired_index (data_indices i)) = bin
  have hmax : max_bin < 2 ^ VAL_BITS := by omega
  have hmm : ¬ (min_bin.getD 1 < max_bin) := by omega
  have hroute : Split_route VAL_BITS min_bin max_bin default_bin most_freq_bin
      MissingType.None default_left threshold bin =
      if bin = max_bin then
        (if max_bin ≤ SplitInner_th VAL_BITS (min_bin.getD 1) most_freq_bin threshold
          then Side.lte else Side.gt)
      else SplitInner_default_side most_freq_bin threshold := by
    cases min_bin with
    | none =>
      simp only [Option.getD_none] at hmm ⊢
      by_cases hb : bin = max_bin <;>
        simp [Split_route, SplitInner_route, SplitInner_side_degenerate, static_cast,
          Nat.mod_eq_of_lt hmax, hmm, hb]
    | some m =>
      simp only [Option.getD_some] at hmm ⊢
      by_cases hb : bin = max_bin <;>
        simp [Split_route, SplitInner_route, SplitInner_side_degenerate, static_cast,
          Nat.mod_eq_of_lt hmax, hmm, hb]
  have hth : max_bin ≤ SplitInner_th VAL_BITS (min_bin.getD 1) most_freq_bin threshold ↔
      max_bin ≤ threshold + min_bin.getD 1 - (if most_freq_bin = 0 then 1 else 0) := by
    by_cases hpos : most_freq_bin = 0 → 0 < threshold + min_bin.getD 1
    · rw [SplitInner_th_eq VAL_BITS (min_bin.getD 1) most_freq_bin threshold hbits hfit hpos]
    · have hz : most_freq_bin = 0 := by
        by_contra hne
        exact hpos (fun h => absurd h hne)
      have hs : threshold + min_bin.getD 1 = 0 := by
        by_contra hne
        exact hpos (fun _ => Nat.pos_of_ne_zero hne)
      have hm0 : max_bin = 0 := by omega
      simp [hm0]
  rw [hroute]
  refine ⟨fun hb => ?_, fun hb => ?_⟩
  · rw [if_pos hb, ← hth]
    by_cases hle : max_bin ≤ SplitInner_th VAL_BITS (min_bin.getD 1) most_freq_bin threshold
      <;> simp [hle]
  · rw [if_neg hb]
    unfold SplitInner_default_side
    by_cases hle : most_freq_bin ≤ threshold <;> simp [hle]

/-- Witness of C13: `VAL_T = uint8_t`, `min_bin = max_bin = 3`, `most_freq_bin = 0`,
`threshold = 0`; the pair of bin `3` goes to `gt` since `3 > 0 + 3 - 1`. -/
theorem Split_None_degenerate_witness :
    ((0 : Nat) < 1 ∧ 8 ≤ 32 ∧ (some 3).getD 1 = 3 ∧ 0 + (some 3).getD 1 < 2 ^ 8) ∧
    (fun _ : Nat => 3) 0 ∈ (Split 8 id id (some 3) 3 0 0 MissingType.None false 0
      (fun _ => 3) 1 (fun _ => 0) (fun _ => 0)).gt :=
  ⟨by decide,
   ((Split_None_degenerate 8 id id (some 3) 3 0 0 false 0 (fun _ => 3) 1
      (fun _ => 0) (fun _ => 0) 0 (by decide) (by decide) (by decide) (by decide)).1
      rfl).2.mpr (by decide)⟩

/-- C14. In every call of `Split` each output array preserves the relative order of the
input: the first `lte_count` cells of `lte_indices` and the first `gt_count` cells of
`gt_indices` are each a subsequence of the input pair index list, in the order in which
the pairs occur there. -/
theorem Split_preserves_input_order (VAL_BITS : Nat) (get_unpaired_index data : Nat → Nat)
    (min_bin : Option Nat) (max_bin default_bin most_freq_bin : Nat)
    (missing_type : MissingType) (default_left : Bool) (threshold : Nat)
    (data_indices : Nat → Nat) (cnt : Nat) (lte_indices gt_indices : Nat → Nat) :
    List.Sublist
      (firstN (Split VAL_BITS get_unpaired_index data min_bin max_bin default_bin
          most_freq_bin missing_type default_left threshold data_indices cnt lte_indices
          gt_indices).lte_indices
        (Split VAL_BITS get_unpaired_index data min_bin max_bin default_bin
          most_freq_bin missing_type default_left threshold data_indices cnt lte_indices
          gt_indices).lte_count)
      (firstN data_indices cnt) ∧
    List.Sublist
      (firstN (Split VAL_BITS get_unpaired_index data min_bin max_bin default_bin
          most_freq_bin missing_type default_left threshold data_indices cnt lte_indices
          gt_indices).gt_indices
        (Split VAL_BITS get_unpaired_index data min_bin max_bin default_bin
          most_freq_bin missing_type default_left threshold data_indices cnt lte_indices
          gt_indices).gt_count)
      (firstN data_indices cnt) := by
  obtain ⟨h1, h2⟩ := Split_eq_filter VAL_BITS get_unpaired_index data min_bin max_bin
    default_bin most_freq_bin missing_type default_left threshold data_indices cnt
    lte_indices gt_indices
  unfold SplitOut.lte at h1
  unfold SplitOut.gt at h2
  rw [h1, h2]
  exact ⟨List.filter_sublist _, List.filter_sublist _⟩

/-- Two loop bodies that agree at every position of the range give the same loop. -/
theorem forLoop_congr {σ : Type} (f g : Nat → σ → σ) (n : Nat) :
    ∀ (s : Nat) (st : σ), (∀ i, s ≤ i → i < s + n → ∀ t, f i t = g i t) →
      forLoop f n s st = forLoop g n s st := by
  induction n with
  | zero => intro s st _; rfl
  | succ n ih =>
    intro s st h
    simp only [forLoop]
    rw [h s (Nat.le_refl s) (by omega) st]
    exact ih (s + 1) _ (fun i h1 h2 t => h i (by omega) (by omega) t)

/-- With `min_bin = 1` and bins up to `max_bin`, `SplitInner` does the same with and
without `USE_MIN_BIN`. -/
theorem SplitInner_USE_MIN_BIN_irrelevant (VAL_BITS : Nat)
    (get_unpaired_index data : Nat → Nat)
    (MISS_IS_ZERO MISS_IS_NA MFB_IS_ZERO MFB_IS_NA : Bool)
    (max_bin default_bin most_freq_bin : Nat) (default_left : Bool)
    (threshold : Nat) (data_indices : Nat → Nat) (cnt : Nat)
    (lte_indices gt_indices : Nat → Nat)
    (hmax : max_bin < 2 ^ VAL_BITS)
    (hbins : ∀ i, i < cnt → data (get_unpaired_index (data_indices i)) ≤ max_bin) :
    SplitInner VAL_BITS get_unpaired_index data MISS_IS_ZERO MISS_IS_NA MFB_IS_ZERO
        MFB_IS_NA false 1 max_bin default_bin most_freq_bin default_left threshold
        data_indices cnt lte_indices gt_indices =
      SplitInner VAL_BITS get_unpaired_index data MISS_IS_ZERO MISS_IS_NA MFB_IS_ZERO
        MFB_IS_NA true 1 max_bin default_bin most_freq_bin default_left threshold
        data_indices cnt lte_indices gt_indices := by
  unfold SplitInner
  by_cases hmm : 1 < max_bin
  · simp only [hmm, if_true]
    apply forLoop_congr
    intro i _ hi t
    have hb := hbins i (by omega)
    have h1 : 1 < 2 ^ VAL_BITS := by omega
    unfold SplitInner_body
    simp only [static_cast, Nat.mod_eq_of_lt hmax, Nat.mod_eq_of_lt h1]
    generalize data (get_unpaired_index (data_indices i)) = bin at hb
    have hgt : ¬ bin > max_bin := by omega
    by_cases h0 : bin = 0
    · simp [h0]
    · have hlt : ¬ bin < 1 := by omega
      simp [h0, hlt, hgt]
  · simp only [hmm, if_false]

/-- C15. The overload of `Split` without a `min_bin` argument behaves as the overload
with `min_bin = 1`: for every `max_bin` (a value of `VAL_T`), `default_bin`,
`most_freq_bin`, missing policy, `default_left`, threshold and input list in which every
resolved bin code is `<= max_bin`, the two overloads write identical `lte` and `gt`
arrays and return the same `lte_count`. -/
theorem Split_without_min_bin_is_min_bin_one (VAL_BITS : Nat)
    (get_unpaired_index data : Nat → Nat)
    (max_bin default_bin most_freq_bin : Nat)
    (missing_type : MissingType) (default_left : Bool) (threshold : Nat)
    (data_indices : Nat → Nat) (cnt : Nat) (lte_indices gt_indices : Nat → Nat)
    (hmax : max_bin < 2 ^ VAL_BITS)
    (hbins : ∀ i, i < cnt → data (get_unpaired_index (data_indices i)) ≤ max_bin) :
    (Split VAL_BITS get_unpaired_index data none max_bin default_bin most_freq_bin
        missing_type default_left threshold data_indices cnt lte_indices
        gt_indices).lte_indices =
      (Split VAL_BITS get_unpaired_index data (some 1) max_bin default_bin most_freq_bin
        missing_type default_left threshold data_indices cnt lte_indices
        gt_indices).lte_indices ∧
    (Split VAL_BITS get_unpaired_index data none max_bin default_bin most_freq_bin
        missing_type default_left threshold data_indices cnt lte_indices
        gt_indices).gt_indices =
      (Split VAL_BITS get_unpaired_index data (some 1) max_bin default_bin most_freq_bin
        missing_type default_left threshold data_indices cnt lte_indices
        gt_indices).gt_indices ∧
    (Split VAL_BITS get_unpaired_index data none max_bin default_bin most_freq_bin
        missing_type default_left threshold data_indices cnt lte_indices
        gt_indices).lte_count =
      (Split VAL_BITS get_unpaired_index data (some 1) max_bin default_bin most_freq_bin
        missing_type default_left threshold data_indices cnt lte_indices
        gt_indices).lte_count ∧
    (Split VAL_BITS get_unpaired_index data none max_bin default_bin most_freq_bin
        missing_type default_left threshold data_indices cnt lte_indices
        gt_indices).gt_count =
      (Split VAL_BITS get_unpaired_index data (some 1) max_bin default_bin most_freq_bin
        missing_type default_left threshold data_indices cnt lte_indices
        gt_indices).gt_count := by
  have heq : Split VAL_BITS get_unpaired_index data none max_bin default_bin most_freq_bin
        missing_type default_left threshold data_indices cnt lte_indices gt_indices =
      Split VAL_BITS get_unpaired_index data (some 1) max_bin default_bin most_freq_bin
        missing_type default_left threshold data_indices cnt lte_indices gt_indices := by
    unfold Split
    simp only
    split_ifs <;>
      exact SplitInner_USE_MIN_BIN_irrelevant VAL_BITS get_unpaired_index data _ _ _ _
        max_bin default_bin most_freq_bin default_left threshold data_indices cnt
        lte_indices gt_indices hmax hbins
  rw [heq]
  exact ⟨rfl, rfl, rfl, rfl⟩

/-- Witness of C15: `VAL_T = uint8_t`, `max_bin = 4`, policy `Zero`, four pairs with the
bins `0, 1, 2, 3`. -/
theorem Split_without_min_bin_is_min_bin_one_witness :
    (4 < 2 ^ 8 ∧ ∀ i, i < 4 → (fun idx => idx % 4) (id (id i)) ≤ 4) ∧
    (Split 8 id (fun idx => idx % 4) none 4 1 2 MissingType.Zero true 1 id 4
        (fun _ => 0) (fun _ => 0)).lte_count =
      (Split 8 id (fun idx => idx % 4) (some 1) 4 1 2 MissingType.Zero true 1 id 4
        (fun _ => 0) (fun _ => 0)).lte_count :=
  ⟨⟨by decide, fun i _ => Nat.le_of_lt (Nat.mod_lt i (by decide))⟩,
   (Split_without_min_bin_is_min_bin_one 8 id (fun idx => idx % 4) 4 1 2 MissingType.Zero
      true 1 id 4 (fun _ => 0) (fun _ => 0) (by decide)
      (fun i _ => Nat.le_of_lt (Nat.mod_lt i (by decide)))).2.2.1⟩

/-! ## Further properties of histogram construction -/

/-- C16. For each of the sixteen histogram entry points (`ConstructHistogram`,
`ConstructHistogramInt8`, `ConstructHistogramInt16`, `ConstructHistogramInt32`; explicit
indices or contiguous range; hessian or count) and every element width, a call with
`start == end` leaves every cell of the output buffer unchanged. -/
theorem ConstructHistogram_empty_range {H S : Type} (add : H → S → H) (incr : H → H)
    (SIZEOF_VAL_T : Nat) (get_unpaired_index data : Nat → Nat)
    (data_indices : Option (Nat → Nat)) (start : Nat)
    (ordered_gradients : Nat → S) (ordered_hessians : Option (Nat → S)) (out : Nat → H)
    (packed_gradients : Nat → Int) (packed_hessians : Option (Nat → Int))
    (packed_out : Nat → Int) :
    ConstructHistogram add incr SIZEOF_VAL_T get_unpaired_index data data_indices
        start start ordered_gradients ordered_hessians out = out ∧
    ConstructHistogramInt8 SIZEOF_VAL_T get_unpaired_index data data_indices start start
        packed_gradients packed_hessians packed_out = packed_out ∧
    ConstructHistogramInt16 SIZEOF_VAL_T get_unpaired_index data data_indices start start
        packed_gradients packed_hessians packed_out = packed_out ∧
    ConstructHistogramInt32 SIZEOF_VAL_T get_unpaired_index data data_indices start start
        packed_gradients packed_hessians packed_out = packed_out := by
  refine ⟨?_, ?_, ?_, ?_⟩
  · cases data_indices <;> cases ordered_hessians <;>
      simp only [ConstructHistogram, ConstructHistogramInner_eq_forLoop, Nat.sub_self,
        forLoop]
  · cases data_indices <;> cases packed_hessians <;>
      simp only [ConstructHistogramInt8, ConstructHistogramIntInner_eq_forLoop,
        Nat.sub_self, forLoop]
  · cases data_indices <;> cases packed_hessians <;>
      simp only [ConstructHistogramInt16, ConstructHistogramIntInner_eq_forLoop,
        Nat.sub_self, forLoop]
  · cases data_indices <;> cases packed_hessians <;>
      simp only [ConstructHistogramInt32, ConstructHistogramIntInner_eq_forLoop,
        Nat.sub_self, forLoop]

/-- `SplitInner` depends on the storage and the mapper only through the bin codes of the
input pairs. -/
theorem SplitInner_congr (VAL_BITS : Nat)
    (get_unpaired_index data get_unpaired_index2 data2 : Nat → Nat)
    (MISS_IS_ZERO MISS_IS_NA MFB_IS_ZERO MFB_IS_NA USE_MIN_BIN : Bool)
    (min_bin max_bin default_bin most_freq_bin : Nat) (default_left : Bool)
    (threshold : Nat) (data_indices : Nat → Nat) (cnt : Nat)
    (lte_indices gt_indices : Nat → Nat)
    (hsame : ∀ i, i < cnt → data (get_unpaired_index (data_indices i)) =
      data2 (get_unpaired_index2 (data_indices i))) :
    SplitInner VAL_BITS get_unpaired_index data MISS_IS_ZERO MISS_IS_NA MFB_IS_ZERO
        MFB_IS_NA USE_MIN_BIN min_bin max_bin default_bin most_freq_bin default_left
        threshold data_indices cnt lte_indices gt_indices =
      SplitInner VAL_BITS get_unpaired_index2 data2 MISS_IS_ZERO MISS_IS_NA MFB_IS_ZERO
        MFB_IS_NA USE_MIN_BIN min_bin max_bin default_bin most_freq_bin default_left
        threshold data_indices cnt lte_indices gt_indices := by
  unfold SplitInner
  by_cases hmm : min_bin < max_bin
  · simp only [hmm, if_true]
    apply forLoop_congr
    intro i _ hi t
    unfold SplitInner_body
    simp only [hsame i (by omega)]
  · simp only [hmm, if_false]
    apply forLoop_congr
    intro i _ hi t
    unfold SplitInner_body_degenerate
    simp only [hsame i (by omega)]

/-- The float loop depends on the storage and the mapper only through the bin codes of
the pairs of the range. -/
theorem ConstructHistogramInner_congr {H S : Type} (add : H → S → H) (incr : H → H)
    (SIZEOF_VAL_T SIZEOF_VAL_T2 : Nat)
    (get_unpaired_index data get_unpaired_index2 data2 : Nat → Nat)
    (USE_INDICES USE_PREFETCH USE_HESSIAN : Bool)
    (data_indices : Option (Nat → Nat)) (start end_ : Nat) (ordered_gradients : Nat → S)
    (ordered_hessians : Option (Nat → S)) (out : Nat → H)
    (hsame : ∀ i, start ≤ i → i < end_ →
      resolved_bin get_unpaired_index data USE_INDICES data_indices i =
        resolved_bin get_unpaired_index2 data2 USE_INDICES data_indices i) :
    ConstructHistogramInner add incr SIZEOF_VAL_T get_unpaired_index data USE_INDICES
        USE_PREFETCH USE_HESSIAN data_indices start end_ ordered_gradients ordered_hessians
        out =
      ConstructHistogramInner add incr SIZEOF_VAL_T2 get_unpaired_index2 data2 USE_INDICES
        USE_PREFETCH USE_HESSIAN data_indices start end_ ordered_gradients ordered_hessians
        out := by
  rw [ConstructHistogramInner_eq_forLoop, ConstructHistogramInner_eq_forLoop]
  apply forLoop_congr
  intro i h1 h2 t
  have h := hsame i h1 (by omega)
  unfold resolved_bin at h
  unfold ConstructHistogramInner_body
  simp only [h]

/-- The packed loop depends on the storage and the mapper only through the bin codes of
the pairs of the range. -/
theorem ConstructHistogramIntInner_congr (SIZEOF_VAL_T SIZEOF_VAL_T2 : Nat)
    (get_unpaired_index data get_unpaired_index2 data2 : Nat → Nat)
    (USE_INDICES USE_PREFETCH USE_HESSIAN : Bool) (PACKED_BITS HIST_BITS : Nat)
    (data_indices : Option (Nat → Nat)) (start end_ : Nat) (ordered_gradients : Nat → Int)
    (out : Nat → Int)
    (hsame : ∀ i, start ≤ i → i < end_ →
      resolved_bin get_unpaired_index data USE_INDICES data_indices i =
        resolved_bin get_unpaired_index2 data2 USE_INDICES data_indices i) :
    ConstructHistogramIntInner SIZEOF_VAL_T get_unpaired_index data USE_INDICES
        USE_PREFETCH USE_HESSIAN PACKED_BITS HIST_BITS data_indices start end_
        ordered_gradients out =
      ConstructHistogramIntInner SIZEOF_VAL_T2 get_unpaired_index2 data2 USE_INDICES
        USE_PREFETCH USE_HESSIAN PACKED_BITS HIST_BITS data_indices start end_
        ordered_gradients out := by
  rw [ConstructHistogramIntInner_eq_forLoop, ConstructHistogramIntInner_eq_forLoop]
  apply forLoop_congr
  intro i h1 h2 t
  have h := hsame i h1 (by omega)
  unfold resolved_bin at h
  unfold ConstructHistogramIntInner_body
  simp only [h]

/-- C18. The mapper variant is transparent to the engine. For two configurations
(`get_unpaired_index`, `data`) and (`get_unpaired_index2`, `data2`) of mapper and wrapped
storage with the same element type that give the same resolved bin code to every pair
index of the input, `Split` with equal remaining arguments writes identical `lte` and
`gt` arrays and returns the same count (the whole result is equal), and every histogram
entry point, with equal gradients and hessians, produces an identical buffer. -/
theorem mapper_is_transparent {H S : Type} (add : H → S → H) (incr : H → H)
    (VAL_BITS SIZEOF_VAL_T : Nat)
    (get_unpaired_index data get_unpaired_index2 data2 : Nat → Nat)
    (min_bin : Option Nat) (max_bin default_bin most_freq_bin : Nat)
    (missing_type : MissingType) (default_left : Bool) (threshold : Nat)
    (split_indices : Nat → Nat) (cnt : Nat) (lte_indices gt_indices : Nat → Nat)
    (data_indices : Option (Nat → Nat)) (start end_ : Nat)
    (ordered_gradients : Nat → S) (ordered_hessians : Option (Nat → S)) (out : Nat → H)
    (packed_gradients : Nat → Int) (packed_hessians : Option (Nat → Int))
    (packed_out : Nat → Int)
    (hsplit : ∀ i, i < cnt → data (get_unpaired_index (split_indices i)) =
      data2 (get_unpaired_index2 (split_indices i)))
    (hhist : ∀ i, start ≤ i → i < end_ →
      resolved_bin get_unpaired_index data data_indices.isSome data_indices i =
        resolved_bin get_unpaired_index2 data2 data_indices.isSome data_indices i) :
    Split VAL_BITS get_unpaired_index data min_bin max_bin default_bin most_freq_bin
        missing_type default_left threshold split_indices cnt lte_indices gt_indices =
      Split VAL_BITS get_unpaired_index2 data2 min_bin max_bin default_bin most_freq_bin
        missing_type default_left threshold split_indices cnt lte_indices gt_indices ∧
    ConstructHistogram add incr SIZEOF_VAL_T get_unpaired_index data data_indices
        start end_ ordered_gradients ordered_hessians out =
      ConstructHistogram add incr SIZEOF_VAL_T get_unpaired_index2 data2 data_indices
        start end_ ordered_gradients ordered_hessians out ∧
    ConstructHistogramInt8 SIZEOF_VAL_T get_unpaired_index data data_indices start end_
        packed_gradients packed_hessians packed_out =
      ConstructHistogramInt8 SIZEOF_VAL_T get_unpaired_index2 data2 data_indices start end_
        packed_gradients packed_hessians packed_out ∧
    ConstructHistogramInt16 SIZEOF_VAL_T get_unpaired_index data data_indices start end_
        packed_gradients packed_hessians packed_out =
      ConstructHistogramInt16 SIZEOF_VAL_T get_unpaired_index2 data2 data_indices start end_
        packed_gradients packed_hessians packed_out ∧
    ConstructHistogramInt32 SIZEOF_VAL_T get_unpaired_index data data_indices start end_
        packed_gradients packed_hessians packed_out =
      ConstructHistogramInt32 SIZEOF_VAL_T get_unpaired_index2 data2 data_indices start end_
        packed_gradients packed_hessians packed_out := by
  refine ⟨?_, ?_, ?_, ?_, ?_⟩
  · unfold Split
    cases min_bin <;> simp only <;> split_ifs <;>
      exact SplitInner_congr VAL_BITS get_unpaired_index data get_unpaired_index2 data2
        _ _ _ _ _ _ max_bin default_bin most_freq_bin default_left threshold split_indices
        cnt lte_indices gt_indices hsplit
  · cases data_indices <;> cases ordered_hessians <;>
      simp only [ConstructHistogram] <;>
      exact ConstructHistogramInner_congr add incr SIZEOF_VAL_T SIZEOF_VAL_T
        get_unpaired_index data get_unpaired_index2 data2 _ _ _ _ start end_
        ordered_gradients _ out hhist
  · cases data_indices <;> cases packed_hessians <;>
      simp only [ConstructHistogramInt8] <;>
      exact ConstructHistogramIntInner_congr SIZEOF_VAL_T SIZEOF_VAL_T
        get_unpaired_index data get_unpaired_index2 data2 _ _ _ _ _ _ start end_
        packed_gradients packed_out hhist
  · cases data_indices <;> cases packed_hessians <;>
      simp only [ConstructHistogramInt16] <;>
      exact ConstructHistogramIntInner_congr SIZEOF_VAL_T SIZEOF_VAL_T
        get_unpaired_index data get_unpaired_index2 data2 _ _ _ _ _ _ start end_
        packed_gradients packed_out hhist
  · cases data_indices <;> cases packed_hessians <;>
      simp only [ConstructHistogramInt32] <;>
      exact ConstructHistogramIntInner_congr SIZEOF_VAL_T SIZEOF_VAL_T
        get_unpaired_index data get_unpaired_index2 data2 _ _ _ _ _ _ start end_
        packed_gradients packed_out hhist

/-- Witness of C18: the identity mapper over a storage holding bin `i` for the example
`i`, and the mapper `p + 1` over a storage holding bin `i - 1` for the example `i`, give
every pair the same bin code; `Split` returns the same result for both. -/
theorem mapper_is_transparent_witness :
    ((∀ i, i < 3 → id (id (id i)) = (fun idx => idx - 1) ((fun p => p + 1) (id i))) ∧
      (∀ i, 0 ≤ i → i < 3 →
        resolved_bin id id (none : Option (Nat → Nat)).isSome none i =
          resolved_bin (fun p => p + 1) (fun idx => idx - 1)
            (none : Option (Nat → Nat)).isSome none i)) ∧
    Split 8 id id (some 1) 4 1 1 MissingType.None false 0 id 3 (fun _ => 0) (fun _ => 0) =
      Split 8 (fun p => p + 1) (fun idx => idx - 1) (some 1) 4 1 1 MissingType.None false 0
        id 3 (fun _ => 0) (fun _ => 0) :=
  ⟨⟨fun _ _ => rfl, fun _ _ _ => rfl⟩,
   (mapper_is_transparent (fun (x y : Nat) => x + y) id 8 1 id id (fun p => p + 1)
      (fun idx => idx - 1) (some 1) 4 1 1 MissingType.None false 0 id 3 (fun _ => 0)
      (fun _ => 0) none 0 3 (fun _ => 1) none (fun _ => 0) (fun _ => 1) none (fun _ => 0)
      (fun _ _ => rfl) (fun _ _ _ => rfl)).1⟩

/-- One iteration of the packed loops changes the cell `k` exactly when the `uint32_t`
bin code of the position is `k`. -/
theorem ConstructHistogramIntInner_body_cell (get_unpaired_index data : Nat → Nat)
    (USE_INDICES USE_HESSIAN : Bool) (PACKED_BITS HIST_BITS : Nat)
    (data_indices : Option (Nat → Nat)) (ordered_gradients : Nat → Int)
    (i : Nat) (out : Nat → Int) (k : Nat) :
    ConstructHistogramIntInner_body get_unpaired_index data USE_INDICES USE_HESSIAN
      PACKED_BITS HIST_BITS data_indices ordered_gradients i out k =
    if decide (static_cast 32
        (resolved_bin get_unpaired_index data USE_INDICES data_indices i) = k) = true
    then static_cast_int PACKED_BITS (out k + gradient_packed USE_HESSIAN PACKED_BITS
      HIST_BITS (static_cast_int 16 (ordered_gradients i)))
    else out k := by
  unfold ConstructHistogramIntInner_body resolved_bin
  generalize static_cast 32
    (data (get_unpaired_index (paired_index USE_INDICES data_indices i))) = ti
  by_cases hbb : ti = k
  · subst hbb
    simp [store]
  · have h2 : ¬ k = ti := fun h => hbb h.symm
    simp [store, h2, hbb]

theorem foldl_comp_filter {β : Type} (σ : Nat → Nat) (g : β → Nat → β) (p : Nat → Bool)
    (l : List Nat) (a : β) :
    (l.filter (p ∘ σ)).foldl (fun acc i => g acc (σ i)) a =
      ((l.map σ).filter p).foldl g a := by
  rw [List.filter_map, List.foldl_map]

/-- The packed loop with explicit indices gives the same buffer when the positions of
`data_indices` and of the packed gradients are permuted jointly. -/
theorem ConstructHistogramIntInner_perm (SIZEOF_VAL_T : Nat)
    (get_unpaired_index data : Nat → Nat) (USE_PREFETCH USE_HESSIAN : Bool)
    (PACKED_BITS HIST_BITS : Nat) (data_indices : Nat → Nat) (start end_ : Nat)
    (ordered_gradients : Nat → Int) (out : Nat → Int) (σ : Nat → Nat)
    (hperm : List.Perm ((List.range' start (end_ - start)).map σ)
      (List.range' start (end_ - start))) :
    ConstructHistogramIntInner SIZEOF_VAL_T get_unpaired_index data true USE_PREFETCH
        USE_HESSIAN PACKED_BITS HIST_BITS (some (fun i => data_indices (σ i))) start end_
        (fun i => ordered_gradients (σ i)) out =
      ConstructHistogramIntInner SIZEOF_VAL_T get_unpaired_index data true USE_PREFETCH
        USE_HESSIAN PACKED_BITS HIST_BITS (some data_indices) start end_
        ordered_gradients out := by
  funext k
  rw [ConstructHistogramIntInner_eq_forLoop, ConstructHistogramIntInner_eq_forLoop]
  rw [forLoop_slot _ k
      (fun i => decide (static_cast 32
        (resolved_bin get_unpaired_index data true (some (fun i => data_indices (σ i))) i)
        = k))
      (fun i acc => static_cast_int PACKED_BITS (acc +
        gradient_packed USE_HESSIAN PACKED_BITS HIST_BITS
          (static_cast_int 16 (ordered_gradients (σ i)))))
      (end_ - start) start out (fun i _ _ o =>
      ConstructHistogramIntInner_body_cell get_unpaired_index data true USE_HESSIAN
        PACKED_BITS HIST_BITS (some (fun i => data_indices (σ i)))
        (fun i => ordered_gradients (σ i)) i o k),
    forLoop_slot _ k
      (fun j => decide (static_cast 32
        (resolved_bin get_unpaired_index data true (some data_indices) j) = k))
      (fun j acc => static_cast_int PACKED_BITS (acc +
        gradient_packed USE_HESSIAN PACKED_BITS HIST_BITS
          (static_cast_int 16 (ordered_gradients j))))
      (end_ - start) start out (fun i _ _ o =>
      ConstructHistogramIntInner_body_cell get_unpaired_index data true USE_HESSIAN
        PACKED_BITS HIST_BITS (some data_indices) ordered_gradients i o k)]
  refine Eq.trans (foldl_comp_filter σ
    (fun (acc : Int) (j : Nat) => static_cast_int PACKED_BITS (acc +
      gradient_packed USE_HESSIAN PACKED_BITS HIST_BITS
        (static_cast_int 16 (ordered_gradients j))))
    (fun j => decide (static_cast 32
      (resolved_bin get_unpaired_index data true (some data_indices) j) = k))
    (List.range' start (end_ - start)) (out k)) ?_
  apply List.Perm.foldl_eq' (hperm.filter _)
  intro x _ y _ z
  simp only [static_cast_int_add]
  congr 1
  ring

/-- C17. Packed-integer histogram construction with explicit indices is independent of
the order of the input: for every `σ` that permutes the positions of `[start, end)`,
applying `σ` jointly to the positions of `data_indices` and of the packed gradients
gives, with wrap-around addition in the cell type, the buffer obtained from the
unpermuted input, for the three containers, in hessian and in count mode. -/
theorem ConstructHistogramInt_order_independent (SIZEOF_VAL_T : Nat)
    (get_unpaired_index data : Nat → Nat) (data_indices : Nat → Nat) (start end_ : Nat)
    (ordered_gradients : Nat → Int) (ordered_hessians : Option (Nat → Int))
    (out : Nat → Int) (σ : Nat → Nat)
    (hperm : List.Perm ((List.range' start (end_ - start)).map σ)
      (List.range' start (end_ - start))) :
    ConstructHistogramInt8 SIZEOF_VAL_T get_unpaired_index data
        (some (fun i => data_indices (σ i))) start end_
        (fun i => ordered_gradients (σ i)) ordered_hessians out =
      ConstructHistogramInt8 SIZEOF_VAL_T get_unpaired_index data (some data_indices)
        start end_ ordered_gradients ordered_hessians out ∧
    ConstructHistogramInt16 SIZEOF_VAL_T get_unpaired_index data
        (some (fun i => data_indices (σ i))) start end_
        (fun i => ordered_gradients (σ i)) ordered_hessians out =
      ConstructHistogramInt16 SIZEOF_VAL_T get_unpaired_index data (some data_indices)
        start end_ ordered_gradients ordered_hessians out ∧
    ConstructHistogramInt32 SIZEOF_VAL_T get_unpaired_index data
        (some (fun i => data_indices (σ i))) start end_
        (fun i => ordered_gradients (σ i)) ordered_hessians out =
      ConstructHistogramInt32 SIZEOF_VAL_T get_unpaired_index data (some data_indices)
        start end_ ordered_gradients ordered_hessians out := by
  refine ⟨?_, ?_, ?_⟩
  · cases ordered_hessians <;> simp only [ConstructHistogramInt8] <;>
      exact ConstructHistogramIntInner_perm SIZEOF_VAL_T get_unpaired_index data _ _ _ _
        data_indices start end_ ordered_gradients out σ hperm
  · cases ordered_hessians <;> simp only [ConstructHistogramInt16] <;>
      exact ConstructHistogramIntInner_perm SIZEOF_VAL_T get_unpaired_index data _ _ _ _
        data_indices start end_ ordered_gradients out σ hperm
  · cases ordered_hessians <;> simp only [ConstructHistogramInt32] <;>
      exact ConstructHistogramIntInner_perm SIZEOF_VAL_T get_unpaired_index data _ _ _ _
        data_indices start end_ ordered_gradients out σ hperm

/-- Witness of C17: two positions exchanged, cells of 32 bits, count mode. -/
theorem ConstructHistogramInt_order_independent_witness :
    List.Perm ((List.range' 0 (2 - 0)).map (fun i => if i = 0 then 1 else 0))
      (List.range' 0 (2 - 0)) ∧
    ConstructHistogramInt16 1 id id
        (some (fun i => (if i = 0 then 1 else 0) + 3)) 0 2
        (fun i => ((if i = 0 then 1 else 0 : Nat) : Int) + 258)
        none (fun _ => 0) =
      ConstructHistogramInt16 1 id id (some (fun j => j + 3)) 0 2
        (fun j => (j : Int) + 258) none (fun _ => 0) :=
  ⟨List.Perm.swap 0 1 [],
   (ConstructHistogramInt_order_independent 1 id id (fun j => j + 3) 0 2
      (fun j => (j : Int) + 258) none (fun _ => 0) (fun i => if i = 0 then 1 else 0)
      (List.Perm.swap 0 1 [])).2.1⟩

/-! ## The pairwise bin adapter: delegation -/

theorem with_storage_map {B ε : Type} (self : PairwiseRankingBin B) (r : Except ε B) :
    Except.map (fun a : PairwiseRankingBin B => a.unpaired_bin_) (self.with_storage r) = r ∧
    Except.map (fun a : PairwiseRankingBin B => a.get_unpaired_index) (self.with_storage r) =
      Except.map (fun _ => self.get_unpaired_index) r := by
  cases r <;> exact ⟨rfl, rfl⟩

/-- C19. For every mapper and every wrapped storage, each lifecycle operation of the
adapter (`InitStreaming`, `Push`, `CopySubrow`, `SaveBinaryToFile`, `LoadFromMemory`,
`SizesInByte`, `num_data`, `ReSize`) is the same operation of the wrapped storage with the
same arguments: the storage of the adapter ends in the state the storage operation
yields, the mapper is untouched, the returned value is the one the storage returns
(`num_data` is the count of the storage, not a number of pairs), and the adapter fails
exactly when the storage fails, with the same failure. -/
theorem PairwiseRankingBin_delegates {B FullBin Writer Memory ε : Type}
    (ops : BinOperations B FullBin Writer Memory ε) (self : PairwiseRankingBin B)
    (num_thread : Nat) (omp_max_threads : Int) (tid idx : Int) (value : Nat)
    (full_bin : FullBin) (used_indices : Nat → Int) (num_used_indices : Int)
    (writer : Writer) (memory : Memory) (local_used_indices : List Int)
    (num_data : Int) :
    (Except.map (fun a : PairwiseRankingBin B => a.unpaired_bin_)
        (self.InitStreaming ops num_thread omp_max_threads) =
      ops.InitStreaming self.unpaired_bin_ num_thread omp_max_threads ∧
     Except.map (fun a : PairwiseRankingBin B => a.get_unpaired_index)
        (self.InitStreaming ops num_thread omp_max_threads) =
      Except.map (fun _ => self.get_unpaired_index)
        (ops.InitStreaming self.unpaired_bin_ num_thread omp_max_threads)) ∧
    (Except.map (fun a : PairwiseRankingBin B => a.unpaired_bin_)
        (self.Push ops tid idx value) = ops.Push self.unpaired_bin_ tid idx value ∧
     Except.map (fun a : PairwiseRankingBin B => a.get_unpaired_index)
        (self.Push ops tid idx value) =
      Except.map (fun _ => self.get_unpaired_index)
        (ops.Push self.unpaired_bin_ tid idx value)) ∧
    (Except.map (fun a : PairwiseRankingBin B => a.unpaired_bin_)
        (self.CopySubrow ops full_bin used_indices num_used_indices) =
      ops.CopySubrow self.unpaired_bin_ full_bin used_indices num_used_indices ∧
     Except.map (fun a : PairwiseRankingBin B => a.get_unpaired_index)
        (self.CopySubrow ops full_bin used_indices num_used_indices) =
      Except.map (fun _ => self.get_unpaired_index)
        (ops.CopySubrow self.unpaired_bin_ full_bin used_indices num_used_indices)) ∧
    self.SaveBinaryToFile ops writer = ops.SaveBinaryToFile self.unpaired_bin_ writer ∧
    (Except.map (fun a : PairwiseRankingBin B => a.unpaired_bin_)
        (self.LoadFromMemory ops memory local_used_indices) =
      ops.LoadFromMemory self.unpaired_bin_ memory local_used_indices ∧
     Except.map (fun a : PairwiseRankingBin B => a.get_unpaired_index)
        (self.LoadFromMemory ops memory local_used_indices) =
      Except.map (fun _ => self.get_unpaired_index)
        (ops.LoadFromMemory self.unpaired_bin_ memory local_used_indices)) ∧
    self.SizesInByte ops = ops.SizesInByte self.unpaired_bin_ ∧
    PairwiseRankingBin.num_data ops self = ops.num_data self.unpaired_bin_ ∧
    (Except.map (fun a : PairwiseRankingBin B => a.unpaired_bin_)
        (self.ReSize ops num_data) = ops.ReSize self.unpaired_bin_ num_data ∧
     Except.map (fun a : PairwiseRankingBin B => a.get_unpaired_index)
        (self.ReSize ops num_data) =
      Except.map (fun _ => self.get_unpaired_index)
        (ops.ReSize self.unpaired_bin_ num_data)) :=
  ⟨with_storage_map self _, with_storage_map self _, with_storage_map self _, rfl,
   with_storage_map self _, rfl, rfl, with_storage_map self _⟩

/-! ## The reads of `data_indices`: properties -/

theorem prefetch_iterations_eq (SIZEOF_VAL_T start end_ : Nat) :
    prefetch_iterations SIZEOF_VAL_T true start end_ = end_ - 64 / SIZEOF_VAL_T - start := by
  unfold prefetch_iterations
  simp only [if_true]
  generalize 64 / SIZEOF_VAL_T = pf_offset
  omega

theorem read_paired_index_eq (USE_INDICES : Bool) (data_indices : Option (Nat → Nat))
    (pos : Nat) (t : LoopTrace) :
    read_paired_index USE_INDICES data_indices pos t =
      (paired_index USE_INDICES data_indices pos,
       { prefetch_positions := t.prefetch_positions,
         cleanup_positions := t.cleanup_positions,
         data_indices_reads := t.data_indices_reads ++
           (if USE_INDICES then [pos] else []) }) := by
  cases USE_INDICES <;> simp [read_paired_index]

theorem traced_prefetch_loop {σ : Type} (f : Nat → σ × LoopTrace → σ × LoopTrace)
    (body : Nat → σ → σ) (USE_INDICES : Bool) (pf_offset : Nat)
    (hf : ∀ (i : Nat) (s : σ) (t : LoopTrace), f i (s, t) =
      (body i s,
       { prefetch_positions := t.prefetch_positions ++ [i],
         cleanup_positions := t.cleanup_positions,
         data_indices_reads := t.data_indices_reads ++
           (if USE_INDICES then [i, i + pf_offset] else []) }))
    (n : Nat) :
    ∀ (i : Nat) (s : σ) (t : LoopTrace),
    forLoop f n i (s, t) =
      (forLoop body n i s,
       { prefetch_positions := t.prefetch_positions ++ List.range' i n,
         cleanup_positions := t.cleanup_positions,
         data_indices_reads := t.data_indices_reads ++
           (List.range' i n).flatMap
             (fun j => if USE_INDICES then [j, j + pf_offset] else []) }) := by
  induction n with
  | zero => intro i s t; simp [forLoop]
  | succ n ih =>
    intro i s t
    simp only [forLoop, hf, ih, List.range', List.flatMap_cons,
      List.append_assoc, List.singleton_append]

theorem traced_cleanup_loop {σ : Type} (f : Nat → σ × LoopTrace → σ × LoopTrace)
    (body : Nat → σ → σ) (USE_INDICES : Bool)
    (hf : ∀ (i : Nat) (s : σ) (t : LoopTrace), f i (s, t) =
      (body i s,
       { prefetch_positions := t.prefetch_positions,
         cleanup_positions := t.cleanup_positions ++ [i],
         data_indices_reads := t.data_indices_reads ++
           (if USE_INDICES then [i] else []) }))
    (n : Nat) :
    ∀ (i : Nat) (s : σ) (t : LoopTrace),
    forLoop f n i (s, t) =
      (forLoop body n i s,
       { prefetch_positions := t.prefetch_positions,
         cleanup_positions := t.cleanup_positions ++ List.range' i n,
         data_indices_reads := t.data_indices_reads ++
           (List.range' i n).flatMap (fun j => if USE_INDICES then [j] else []) }) := by
  induction n with
  | zero => intro i s t; simp [forLoop]
  | succ n ih =>
    intro i s t
    simp only [forLoop, hf, ih, List.range', List.flatMap_cons,
      List.append_assoc, List.singleton_append]

theorem ConstructHistogramInner_prefetch_traced_eq {H S : Type} (add : H → S → H)
    (incr : H → H) (get_unpaired_index data : Nat → Nat) (USE_INDICES USE_HESSIAN : Bool)
    (pf_offset : Nat) (data_indices : Option (Nat → Nat)) (ordered_gradients : Nat → S)
    (ordered_hessians : Option (Nat → S)) (i : Nat) (out : Nat → H) (t : LoopTrace) :
    ConstructHistogramInner_prefetch_traced add incr get_unpaired_index data USE_INDICES
        USE_HESSIAN pf_offset data_indices ordered_gradients ordered_hessians i (out, t) =
      (ConstructHistogramInner_body add incr get_unpaired_index data USE_INDICES
          USE_HESSIAN data_indices ordered_gradients ordered_hessians i out,
       { prefetch_positions := t.prefetch_positions ++ [i],
         cleanup_positions := t.cleanup_positions,
         data_indices_reads := t.data_indices_reads ++
           (if USE_INDICES then [i, i + pf_offset] else []) }) := by
  cases USE_INDICES <;> cases USE_HESSIAN <;> cases ordered_hessians <;>
    simp [ConstructHistogramInner_prefetch_traced, ConstructHistogramInner_body,
      read_paired_index]

theorem ConstructHistogramInner_cleanup_traced_eq {H S : Type} (add : H → S → H)
    (incr : H → H) (get_unpaired_index data : Nat → Nat) (USE_INDICES USE_HESSIAN : Bool)
    (data_indices : Option (Nat → Nat)) (ordered_gradients : Nat → S)
    (ordered_hessians : Option (Nat → S)) (i : Nat) (out : Nat → H) (t : LoopTrace) :
    ConstructHistogramInner_cleanup_traced add incr get_unpaired_index data USE_INDICES
        USE_HESSIAN data_indices ordered_gradients ordered_hessians i (out, t) =
      (ConstructHistogramInner_body add incr get_unpaired_index data USE_INDICES
          USE_HESSIAN data_indices ordered_gradients ordered_hessians i out,
       { prefetch_positions := t.prefetch_positions,
         cleanup_positions := t.cleanup_positions ++ [i],
         data_indices_reads := t.data_indices_reads ++
           (if USE_INDICES then [i] else []) }) := by
  cases USE_INDICES <;> cases USE_HESSIAN <;> cases ordered_hessians <;>
    simp [ConstructHistogramInner_cleanup_traced, ConstructHistogramInner_body,
      read_paired_index]

theorem ConstructHistogramIntInner_prefetch_traced_eq (get_unpaired_index data : Nat → Nat)
    (USE_INDICES USE_HESSIAN : Bool) (PACKED_BITS HIST_BITS : Nat) (pf_offset : Nat)
    (data_indices : Option (Nat → Nat)) (ordered_gradients : Nat → Int)
    (i : Nat) (out : Nat → Int) (t : LoopTrace) :
    ConstructHistogramIntInner_prefetch_traced get_unpaired_index data USE_INDICES
        USE_HESSIAN PACKED_BITS HIST_BITS pf_offset data_indices ordered_gradients i (out, t) =
      (ConstructHistogramIntInner_body get_unpaired_index data USE_INDICES
          USE_HESSIAN PACKED_BITS HIST_BITS data_indices ordered_gradients i out,
       { prefetch_positions := t.prefetch_positions ++ [i],
         cleanup_positions := t.cleanup_positions,
         data_indices_reads := t.data_indices_reads ++
           (if USE_INDICES then [i, i + pf_offset] else []) }) := by
  cases USE_INDICES <;>
    simp [ConstructHistogramIntInner_prefetch_traced, ConstructHistogramIntInner_body,
      read_paired_index]

theorem ConstructHistogramIntInner_cleanup_traced_eq (get_unpaired_index data : Nat → Nat)
    (USE_INDICES USE_HESSIAN : Bool) (PACKED_BITS HIST_BITS : Nat)
    (data_indices : Option (Nat → Nat)) (ordered_gradients : Nat → Int)
    (i : Nat) (out : Nat → Int) (t : LoopTrace) :
    ConstructHistogramIntInner_cleanup_traced get_unpaired_index data USE_INDICES
        USE_HESSIAN PACKED_BITS HIST_BITS data_indices ordered_gradients i (out, t) =
      (ConstructHistogramIntInner_body get_unpaired_index data USE_INDICES
          USE_HESSIAN PACKED_BITS HIST_BITS data_indices ordered_gradients i out,
       { prefetch_positions := t.prefetch_positions,
         cleanup_positions := t.cleanup_positions ++ [i],
         data_indices_reads := t.data_indices_reads ++
           (if USE_INDICES then [i] else []) }) := by
  cases USE_INDICES <;>
    simp [ConstructHistogramIntInner_cleanup_traced, ConstructHistogramIntInner_body,
      read_paired_index]

/-- The instrumented float loops, for every choice of the flags: the buffer is the one of
`ConstructHistogramInner`, the prefetch loop takes the first `prefetch_iterations`
positions from `start` and the loop after it the positions up to `end`. -/
theorem ConstructHistogramInner_traced_loops {H S : Type} (add : H → S → H) (incr : H → H)
    (SIZEOF_VAL_T : Nat) (get_unpaired_index data : Nat → Nat)
    (USE_INDICES USE_PREFETCH USE_HESSIAN : Bool)
    (data_indices : Option (Nat → Nat)) (start end_ : Nat) (ordered_gradients : Nat → S)
    (ordered_hessians : Option (Nat → S)) (out : Nat → H) :
    ConstructHistogramInner_traced add incr SIZEOF_VAL_T get_unpaired_index data USE_INDICES
        USE_PREFETCH USE_HESSIAN data_indices start end_ ordered_gradients ordered_hessians
        out =
      (ConstructHistogramInner add incr SIZEOF_VAL_T get_unpaired_index data USE_INDICES
          USE_PREFETCH USE_HESSIAN data_indices start end_ ordered_gradients
          ordered_hessians out,
        { prefetch_positions :=
            List.range' start (prefetch_iterations SIZEOF_VAL_T USE_PREFETCH start end_),
          cleanup_positions :=
            List.range' (start + prefetch_iterations SIZEOF_VAL_T USE_PREFETCH start end_)
              (end_ - (start + prefetch_iterations SIZEOF_VAL_T USE_PREFETCH start end_)),
          data_indices_reads :=
            (List.range' start
                (prefetch_iterations SIZEOF_VAL_T USE_PREFETCH start end_)).flatMap
              (fun j => if USE_INDICES then [j, j + 64 / SIZEOF_VAL_T] else []) ++
            (List.range' (start + prefetch_iterations SIZEOF_VAL_T USE_PREFETCH start end_)
                (end_ - (start + prefetch_iterations SIZEOF_VAL_T USE_PREFETCH start
                  end_))).flatMap
              (fun j => if USE_INDICES then [j] else []) }) := by
  unfold ConstructHistogramInner_traced ConstructHistogramInner
  simp only []
  rw [traced_prefetch_loop _ _ USE_INDICES (64 / SIZEOF_VAL_T)
      (ConstructHistogramInner_prefetch_traced_eq add incr get_unpaired_index data
        USE_INDICES USE_HESSIAN (64 / SIZEOF_VAL_T) data_indices ordered_gradients
        ordered_hessians),
    traced_cleanup_loop _ _ USE_INDICES
      (ConstructHistogramInner_cleanup_traced_eq add incr get_unpaired_index data
        USE_INDICES USE_HESSIAN data_indices ordered_gradients ordered_hessians)]
  simp only [List.nil_append]

/-- The instrumented packed loops, for every choice of the flags: the buffer is the one of
`ConstructHistogramIntInner`, the prefetch loop takes the first `prefetch_iterations`
positions from `start` and the loop after it the positions up to `end`. -/
theorem ConstructHistogramIntInner_traced_loops (SIZEOF_VAL_T : Nat)
    (get_unpaired_index data : Nat → Nat)
    (USE_INDICES USE_PREFETCH USE_HESSIAN : Bool) (PACKED_BITS HIST_BITS : Nat)
    (data_indices : Option (Nat → Nat)) (start end_ : Nat) (ordered_gradients : Nat → Int)
    (out : Nat → Int) :
    ConstructHistogramIntInner_traced SIZEOF_VAL_T get_unpaired_index data USE_INDICES
        USE_PREFETCH USE_HESSIAN PACKED_BITS HIST_BITS data_indices start end_
        ordered_gradients out =
      (ConstructHistogramIntInner SIZEOF_VAL_T get_unpaired_index data USE_INDICES
          USE_PREFETCH USE_HESSIAN PACKED_BITS HIST_BITS data_indices start end_
          ordered_gradients out,
        { prefetch_positions :=
            List.range' start (prefetch_iterations SIZEOF_VAL_T USE_PREFETCH start end_),
          cleanup_positions :=
            List.range' (start + prefetch_iterations SIZEOF_VAL_T USE_PREFETCH start end_)
              (end_ - (start + prefetch_iterations SIZEOF_VAL_T USE_PREFETCH start end_)),
          data_indices_reads :=
            (List.range' start
                (prefetch_iterations SIZEOF_VAL_T USE_PREFETCH start end_)).flatMap
              (fun j => if USE_INDICES then [j, j + 64 / SIZEOF_VAL_T] else []) ++
            (List.range' (start + prefetch_iterations SIZEOF_VAL_T USE_PREFETCH start end_)
                (end_ - (start + prefetch_iterations SIZEOF_VAL_T USE_PREFETCH start
                  end_))).flatMap
              (fun j => if USE_INDICES then [j] else []) }) := by
  unfold ConstructHistogramIntInner_traced ConstructHistogramIntInner
  simp only []
  rw [traced_prefetch_loop _ _ USE_INDICES (64 / SIZEOF_VAL_T)
      (ConstructHistogramIntInner_prefetch_traced_eq get_unpaired_index data USE_INDICES
        USE_HESSIAN PACKED_BITS HIST_BITS (64 / SIZEOF_VAL_T) data_indices
        ordered_gradients),
    traced_cleanup_loop _ _ USE_INDICES
      (ConstructHistogramIntInner_cleanup_traced_eq get_unpaired_index data USE_INDICES
        USE_HESSIAN PACKED_BITS HIST_BITS data_indices ordered_gradients)]
  simp only [List.nil_append]

/-- The instrumented entry points compute the buffers of the entry points, in all the
overloads. -/
theorem ConstructHistogram_traced_buffer {H S : Type} (add : H → S → H) (incr : H → H)
    (SIZEOF_VAL_T : Nat) (get_unpaired_index data : Nat → Nat)
    (data_indices : Option (Nat → Nat)) (start end_ : Nat)
    (ordered_gradients : Nat → S) (ordered_hessians : Option (Nat → S)) (out : Nat → H)
    (packed_gradients : Nat → Int) (packed_hessians : Option (Nat → Int))
    (packed_out : Nat → Int) :
    (ConstructHistogram_traced add incr SIZEOF_VAL_T get_unpaired_index data
        data_indices start end_ ordered_gradients ordered_hessians out).1 =
      ConstructHistogram add incr SIZEOF_VAL_T get_unpaired_index data
        data_indices start end_ ordered_gradients ordered_hessians out ∧
    (ConstructHistogramInt8_traced SIZEOF_VAL_T get_unpaired_index data
        data_indices start end_ packed_gradients packed_hessians packed_out).1 =
      ConstructHistogramInt8 SIZEOF_VAL_T get_unpaired_index data
        data_indices start end_ packed_gradients packed_hessians packed_out ∧
    (ConstructHistogramInt16_traced SIZEOF_VAL_T get_unpaired_index data
        data_indices start end_ packed_gradients packed_hessians packed_out).1 =
      ConstructHistogramInt16 SIZEOF_VAL_T get_unpaired_index data
        data_indices start end_ packed_gradients packed_hessians packed_out ∧
    (ConstructHistogramInt32_traced SIZEOF_VAL_T get_unpaired_index data
        data_indices start end_ packed_gradients packed_hessians packed_out).1 =
      ConstructHistogramInt32 SIZEOF_VAL_T get_unpaired_index data
        data_indices start end_ packed_gradients packed_hessians packed_out := by
  refine ⟨?_, ?_, ?_, ?_⟩
  · cases data_indices <;> cases ordered_hessians <;>
      simp only [ConstructHistogram_traced, ConstructHistogram,
        ConstructHistogramInner_traced_loops]
  · cases data_indices <;> cases packed_hessians <;>
      simp only [ConstructHistogramInt8_traced, ConstructHistogramInt8,
        ConstructHistogramIntInner_traced_loops]
  · cases data_indices <;> cases packed_hessians <;>
      simp only [ConstructHistogramInt16_traced, ConstructHistogramInt16,
        ConstructHistogramIntInner_traced_loops]
  · cases data_indices <;> cases packed_hessians <;>
      simp only [ConstructHistogramInt32_traced, ConstructHistogramInt32,
        ConstructHistogramIntInner_traced_loops]

/-- The overloads over a contiguous range never read `data_indices`. -/
theorem range_overloads_read_no_index {H S : Type} (add : H → S → H) (incr : H → H)
    (SIZEOF_VAL_T : Nat) (get_unpaired_index data : Nat → Nat) (start end_ : Nat)
    (ordered_gradients : Nat → S) (ordered_hessians : Option (Nat → S)) (out : Nat → H)
    (packed_gradients : Nat → Int) (packed_hessians : Option (Nat → Int))
    (packed_out : Nat → Int) :
    (ConstructHistogram_traced add incr SIZEOF_VAL_T get_unpaired_index data
        none start end_ ordered_gradients ordered_hessians out).2.data_indices_reads = [] ∧
    (ConstructHistogramInt8_traced SIZEOF_VAL_T get_unpaired_index data
        none start end_ packed_gradients packed_hessians packed_out).2.data_indices_reads
      = [] ∧
    (ConstructHistogramInt16_traced SIZEOF_VAL_T get_unpaired_index data
        none start end_ packed_gradients packed_hessians packed_out).2.data_indices_reads
      = [] ∧
    (ConstructHistogramInt32_traced SIZEOF_VAL_T get_unpaired_index data
        none start end_ packed_gradients packed_hessians packed_out).2.data_indices_reads
      = [] := by
  refine ⟨?_, ?_, ?_, ?_⟩
  · cases ordered_hessians <;>
      simp [ConstructHistogram_traced, ConstructHistogramInner_traced_loops]
  · cases packed_hessians <;>
      simp [ConstructHistogramInt8_traced, ConstructHistogramIntInner_traced_loops]
  · cases packed_hessians <;>
      simp [ConstructHistogramInt16_traced, ConstructHistogramIntInner_traced_loops]
  · cases packed_hessians <;>
      simp [ConstructHistogramInt32_traced, ConstructHistogramIntInner_traced_loops]

theorem ConstructHistogramInner_traced_eq {H S : Type} (add : H → S → H) (incr : H → H)
    (SIZEOF_VAL_T : Nat) (get_unpaired_index data : Nat → Nat) (USE_HESSIAN : Bool)
    (data_indices : Option (Nat → Nat)) (start end_ : Nat) (ordered_gradients : Nat → S)
    (ordered_hessians : Option (Nat → S)) (out : Nat → H) :
    ConstructHistogramInner_traced add incr SIZEOF_VAL_T get_unpaired_index data true true
        USE_HESSIAN data_indices start end_ ordered_gradients ordered_hessians out =
      (ConstructHistogramInner add incr SIZEOF_VAL_T get_unpaired_index data true true
          USE_HESSIAN data_indices start end_ ordered_gradients ordered_hessians out,
        explicit_indices_trace SIZEOF_VAL_T start end_) := by
  unfold ConstructHistogramInner_traced ConstructHistogramInner explicit_indices_trace
  simp only [prefetch_iterations_eq]
  rw [traced_prefetch_loop _ _ true (64 / SIZEOF_VAL_T)
      (ConstructHistogramInner_prefetch_traced_eq add incr get_unpaired_index data true
        USE_HESSIAN (64 / SIZEOF_VAL_T) data_indices ordered_gradients ordered_hessians),
    traced_cleanup_loop _ _ true
      (ConstructHistogramInner_cleanup_traced_eq add incr get_unpaired_index data true
        USE_HESSIAN data_indices ordered_gradients ordered_hessians)]
  simp only [if_true, List.nil_append]

theorem ConstructHistogramIntInner_traced_eq (SIZEOF_VAL_T : Nat)
    (get_unpaired_index data : Nat → Nat) (USE_HESSIAN : Bool)
    (PACKED_BITS HIST_BITS : Nat)
    (data_indices : Option (Nat → Nat)) (start end_ : Nat) (ordered_gradients : Nat → Int)
    (out : Nat → Int) :
    ConstructHistogramIntInner_traced SIZEOF_VAL_T get_unpaired_index data true true
        USE_HESSIAN PACKED_BITS HIST_BITS data_indices start end_ ordered_gradients out =
      (ConstructHistogramIntInner SIZEOF_VAL_T get_unpaired_index data true true
          USE_HESSIAN PACKED_BITS HIST_BITS data_indices start end_ ordered_gradients out,
        explicit_indices_trace SIZEOF_VAL_T start end_) := by
  unfold ConstructHistogramIntInner_traced ConstructHistogramIntInner explicit_indices_trace
  simp only [prefetch_iterations_eq]
  rw [traced_prefetch_loop _ _ true (64 / SIZEOF_VAL_T)
      (ConstructHistogramIntInner_prefetch_traced_eq get_unpaired_index data true
        USE_HESSIAN PACKED_BITS HIST_BITS (64 / SIZEOF_VAL_T) data_indices ordered_gradients),
    traced_cleanup_loop _ _ true
      (ConstructHistogramIntInner_cleanup_traced_eq get_unpaired_index data true
        USE_HESSIAN PACKED_BITS HIST_BITS data_indices ordered_gradients)]
  simp only [if_true, List.nil_append]

/-- The trace in closed form: the prefetch loop takes the positions with
`i + pf_offset < end`, the loop after it the others, every position of `[start, end)` is
taken once, and every read of `data_indices` is inside `[start, end)`. -/
theorem explicit_indices_trace_spec (SIZEOF_VAL_T start end_ : Nat) :
    (explicit_indices_trace SIZEOF_VAL_T start end_).prefetch_positions =
      (List.range' start (end_ - start)).filter
        (fun i => decide (i + 64 / SIZEOF_VAL_T < end_)) ∧
    (explicit_indices_trace SIZEOF_VAL_T start end_).cleanup_positions =
      (List.range' start (end_ - start)).filter
        (fun i => !decide (i + 64 / SIZEOF_VAL_T < end_)) ∧
    (explicit_indices_trace SIZEOF_VAL_T start end_).prefetch_positions ++
        (explicit_indices_trace SIZEOF_VAL_T start end_).cleanup_positions =
      List.range' start (end_ - start) ∧
    (∀ p ∈ (explicit_indices_trace SIZEOF_VAL_T start end_).data_indices_reads,
      start ≤ p ∧ p < end_) := by
  unfold explicit_indices_trace
  simp only
  generalize 64 / SIZEOF_VAL_T = pf_offset
  have hsplit : List.range' start (end_ - start) =
      List.range' start (end_ - pf_offset - start) ++
        List.range' (start + (end_ - pf_offset - start))
          (end_ - (start + (end_ - pf_offset - start))) := by
    rw [List.range'_append_1]
    congr 1
    omega
  have hA : ∀ (q : Nat → Bool),
      (∀ a ∈ List.range' start (end_ - pf_offset - start), q a = true) →
      (∀ a ∈ List.range' (start + (end_ - pf_offset - start))
          (end_ - (start + (end_ - pf_offset - start))), ¬ q a = true) →
      (List.range' start (end_ - start)).filter q =
        List.range' start (end_ - pf_offset - start) := by
    intro q h1 h2
    rw [hsplit, List.filter_append, List.filter_eq_self.mpr h1,
      List.filter_eq_nil_iff.mpr h2, List.append_nil]
  have hB : ∀ (q : Nat → Bool),
      (∀ a ∈ List.range' start (end_ - pf_offset - start), ¬ q a = true) →
      (∀ a ∈ List.range' (start + (end_ - pf_offset - start))
          (end_ - (start + (end_ - pf_offset - start))), q a = true) →
      (List.range' start (end_ - start)).filter q =
        List.range' (start + (end_ - pf_offset - start))
          (end_ - (start + (end_ - pf_offset - start))) := by
    intro q h1 h2
    rw [hsplit, List.filter_append, List.filter_eq_self.mpr h2,
      List.filter_eq_nil_iff.mpr h1, List.nil_append]
  refine ⟨?_, ?_, hsplit.symm, ?_⟩
  · refine (hA _ ?_ ?_).symm
    · intro a ha
      rw [List.mem_range'_1] at ha
      simp only [decide_eq_true_eq]
      omega
    · intro a ha
      rw [List.mem_range'_1] at ha
      simp only [decide_eq_true_eq]
      omega
  · refine (hB _ ?_ ?_).symm
    · intro a ha
      rw [List.mem_range'_1] at ha
      simp only [Bool.not_eq_true', decide_eq_false_iff_not, Bool.not_eq_true,
        decide_eq_true_eq, not_not]
      omega
    · intro a ha
      rw [List.mem_range'_1] at ha
      simp only [Bool.not_eq_true', decide_eq_false_iff_not]
      omega
  · intro p hp
    rw [List.mem_append, List.mem_flatMap, List.mem_flatMap] at hp
    rcases hp with ⟨j, hj, hpj⟩ | ⟨j, hj, hpj⟩
    · rw [List.mem_range'_1] at hj
      simp only [List.mem_cons, List.mem_singleton, List.not_mem_nil, or_false] at hpj
      rcases hpj with h | h <;> omega
    · rw [List.mem_range'_1] at hj
      simp only [List.mem_singleton] at hpj
      omega

/-- C20. In the histogram entry points with explicit indices (`ConstructHistogram`,
`ConstructHistogramInt8`, `ConstructHistogramInt16` and `ConstructHistogramInt32` called
with a `data_indices` array, with or without a hessian argument), for every range and
every element size (look-ahead distance `64 / sizeof(VAL_T)`, that is 64, 32 or 16): the
prefetch loop accumulates exactly the positions `i` of `[start, end)` with
`i + look_ahead < end`, the loop after it the remaining positions up to `end`, so that
every position of `[start, end)` is accumulated exactly once, in increasing order; the
reads of `data_indices` are the reads at `i` and at `i + look_ahead` for the positions
`i` of the prefetch loop followed by the reads at `i` for the positions of the loop
after it, and every one of them is at a position inside `[start, end)`; and the buffer
is the one the entry point computes. -/
theorem explicit_indices_loops_and_reads {H S : Type} (add : H → S → H) (incr : H → H)
    (SIZEOF_VAL_T : Nat) (get_unpaired_index data : Nat → Nat)
    (data_indices : Nat → Nat) (start end_ : Nat)
    (ordered_gradients : Nat → S) (ordered_hessians : Option (Nat → S)) (out : Nat → H)
    (packed_gradients : Nat → Int) (packed_hessians : Option (Nat → Int))
    (packed_out : Nat → Int) :
    ((ConstructHistogram_traced add incr SIZEOF_VAL_T get_unpaired_index data
          (some data_indices) start end_ ordered_gradients ordered_hessians out).1 =
        ConstructHistogram add incr SIZEOF_VAL_T get_unpaired_index data
          (some data_indices) start end_ ordered_gradients ordered_hessians out ∧
      (ConstructHistogramInt8_traced SIZEOF_VAL_T get_unpaired_index data
          (some data_indices) start end_ packed_gradients packed_hessians packed_out).1 =
        ConstructHistogramInt8 SIZEOF_VAL_T get_unpaired_index data
          (some data_indices) start end_ packed_gradients packed_hessians packed_out ∧
      (ConstructHistogramInt16_traced SIZEOF_VAL_T get_unpaired_index data
          (some data_indices) start end_ packed_gradients packed_hessians packed_out).1 =
        ConstructHistogramInt16 SIZEOF_VAL_T get_unpaired_index data
          (some data_indices) start end_ packed_gradients packed_hessians packed_out ∧
      (ConstructHistogramInt32_traced SIZEOF_VAL_T get_unpaired_index data
          (some data_indices) start end_ packed_gradients packed_hessians packed_out).1 =
        ConstructHistogramInt32 SIZEOF_VAL_T get_unpaired_index data
          (some data_indices) start end_ packed_gradients packed_hessians packed_out) ∧
    ∀ t ∈ [(ConstructHistogram_traced add incr SIZEOF_VAL_T get_unpaired_index data
              (some data_indices) start end_ ordered_gradients ordered_hessians out).2,
           (ConstructHistogramInt8_traced SIZEOF_VAL_T get_unpaired_index data
              (some data_indices) start end_ packed_gradients packed_hessians packed_out).2,
           (ConstructHistogramInt16_traced SIZEOF_VAL_T get_unpaired_index data
              (some data_indices) start end_ packed_gradients packed_hessians packed_out).2,
           (ConstructHistogramInt32_traced SIZEOF_VAL_T get_unpaired_index data
              (some data_indices) start end_ packed_gradients packed_hessians
              packed_out).2],
      t.prefetch_positions =
        (List.range' start (end_ - start)).filter
          (fun i => decide (i + 64 / SIZEOF_VAL_T < end_)) ∧
      t.cleanup_positions =
        (List.range' start (end_ - start)).filter
          (fun i => !decide (i + 64 / SIZEOF_VAL_T < end_)) ∧
      t.prefetch_positions ++ t.cleanup_positions = List.range' start (end_ - start) ∧
      t.data_indices_reads =
        t.prefetch_positions.flatMap (fun i => [i, i + 64 / SIZEOF_VAL_T]) ++
          t.cleanup_positions.flatMap (fun i => [i]) ∧
      (∀ p ∈ t.data_indices_reads, start ≤ p ∧ p < end_) := by
  have e1 : ConstructHistogram_traced add incr SIZEOF_VAL_T get_unpaired_index data
        (some data_indices) start end_ ordered_gradients ordered_hessians out =
      (ConstructHistogram add incr SIZEOF_VAL_T get_unpaired_index data
        (some data_indices) start end_ ordered_gradients ordered_hessians out,
       explicit_indices_trace SIZEOF_VAL_T start end_) := by
    cases ordered_hessians <;>
      simp only [ConstructHistogram_traced, ConstructHistogram,
        ConstructHistogramInner_traced_eq]
  have e2 : ConstructHistogramInt8_traced SIZEOF_VAL_T get_unpaired_index data
        (some data_indices) start end_ packed_gradients packed_hessians packed_out =
      (ConstructHistogramInt8 SIZEOF_VAL_T get_unpaired_index data
        (some data_indices) start end_ packed_gradients packed_hessians packed_out,
       explicit_indices_trace SIZEOF_VAL_T start end_) := by
    cases packed_hessians <;>
      simp only [ConstructHistogramInt8_traced, ConstructHistogramInt8,
        ConstructHistogramIntInner_traced_eq]
  have e3 : ConstructHistogramInt16_traced SIZEOF_VAL_T get_unpaired_index data
        (some data_indices) start end_ packed_gradients packed_hessians packed_out =
      (ConstructHistogramInt16 SIZEOF_VAL_T get_unpaired_index data
        (some data_indices) start end_ packed_gradients packed_hessians packed_out,
       explicit_indices_trace SIZEOF_VAL_T start end_) := by
    cases packed_hessians <;>
      simp only [ConstructHistogramInt16_traced, ConstructHistogramInt16,
        ConstructHistogramIntInner_traced_eq]
  have e4 : ConstructHistogramInt32_traced SIZEOF_VAL_T get_unpaired_index data
        (some data_indices) start end_ packed_gradients packed_hessians packed_out =
      (ConstructHistogramInt32 SIZEOF_VAL_T get_unpaired_index data
        (some data_indices) start end_ packed_gradients packed_hessians packed_out,
       explicit_indices_trace SIZEOF_VAL_T start end_) := by
    cases packed_hessians <;>
      simp only [ConstructHistogramInt32_traced, ConstructHistogramInt32,
        ConstructHistogramIntInner_traced_eq]
  rw [e1, e2, e3, e4]
  refine ⟨⟨rfl, rfl, rfl, rfl⟩, ?_⟩
  intro t ht
  simp only [List.mem_cons, List.mem_singleton, List.not_mem_nil, or_false, or_self] at ht
  subst ht
  obtain ⟨h1, h2, h3, h4⟩ := explicit_indices_trace_spec SIZEOF_VAL_T start end_
  exact ⟨h1, h2, h3, rfl, h4⟩

/-! ## Prefetching and the default bucket under absorbed missing values -/

/-- The float loops with explicit indices `data_indices[i] == i` and prefetching give the
buffer of the single loop over the contiguous range. -/
theorem ConstructHistogramInner_identity_indices {H S : Type} (add : H → S → H)
    (incr : H → H) (SIZEOF_VAL_T : Nat) (get_unpaired_index data : Nat → Nat)
    (USE_HESSIAN : Bool) (data_indices : Nat → Nat) (start end_ : Nat)
    (ordered_gradients : Nat → S) (ordered_hessians : Option (Nat → S)) (out : Nat → H)
    (hid : ∀ i, start ≤ i → i < end_ → data_indices i = i) :
    ConstructHistogramInner add incr SIZEOF_VAL_T get_unpaired_index data true true
        USE_HESSIAN (some data_indices) start end_ ordered_gradients ordered_hessians out =
      ConstructHistogramInner add incr SIZEOF_VAL_T get_unpaired_index data false false
        USE_HESSIAN none start end_ ordered_gradients ordered_hessians out := by
  rw [ConstructHistogramInner_eq_forLoop, ConstructHistogramInner_eq_forLoop]
  apply forLoop_congr
  intro i h1 h2 t
  unfold ConstructHistogramInner_body paired_index
  simp only [if_true, hid i h1 (by omega), Bool.false_eq_true, if_false]

/-- The packed loops with explicit indices `data_indices[i] == i` and prefetching give
the buffer of the single loop over the contiguous range. -/
theorem ConstructHistogramIntInner_identity_indices (SIZEOF_VAL_T : Nat)
    (get_unpaired_index data : Nat → Nat) (USE_HESSIAN : Bool)
    (PACKED_BITS HIST_BITS : Nat) (data_indices : Nat → Nat) (start end_ : Nat)
    (ordered_gradients : Nat → Int) (out : Nat → Int)
    (hid : ∀ i, start ≤ i → i < end_ → data_indices i = i) :
    ConstructHistogramIntInner SIZEOF_VAL_T get_unpaired_index data true true
        USE_HESSIAN PACKED_BITS HIST_BITS (some data_indices) start end_
        ordered_gradients out =
      ConstructHistogramIntInner SIZEOF_VAL_T get_unpaired_index data false false
        USE_HESSIAN PACKED_BITS HIST_BITS none start end_ ordered_gradients out := by
  rw [ConstructHistogramIntInner_eq_forLoop, ConstructHistogramIntInner_eq_forLoop]
  apply forLoop_congr
  intro i h1 h2 t
  unfold ConstructHistogramIntInner_body paired_index
  simp only [if_true, hid i h1 (by omega), Bool.false_eq_true, if_false]

/-- C21. Prefetching has no effect on the result. For every range `[start, end)`, also
one shorter than the look-ahead distance, when `data_indices[i] == i` for every `i` of
the range, each histogram entry point with explicit indices (prefetch loop followed by
the loop over the remaining positions) produces exactly the buffer of the corresponding
entry point over the contiguous range (a single loop), on the same gradients, hessians
and initial buffer, for every element size. -/
theorem prefetch_has_no_effect {H S : Type} (add : H → S → H) (incr : H → H)
    (SIZEOF_VAL_T : Nat) (get_unpaired_index data : Nat → Nat)
    (data_indices : Nat → Nat) (start end_ : Nat)
    (ordered_gradients : Nat → S) (ordered_hessians : Option (Nat → S)) (out : Nat → H)
    (packed_gradients : Nat → Int) (packed_hessians : Option (Nat → Int))
    (packed_out : Nat → Int)
    (hid : ∀ i, start ≤ i → i < end_ → data_indices i = i) :
    ConstructHistogram add incr SIZEOF_VAL_T get_unpaired_index data (some data_indices)
        start end_ ordered_gradients ordered_hessians out =
      ConstructHistogram add incr SIZEOF_VAL_T get_unpaired_index data none
        start end_ ordered_gradients ordered_hessians out ∧
    ConstructHistogramInt8 SIZEOF_VAL_T get_unpaired_index data (some data_indices)
        start end_ packed_gradients packed_hessians packed_out =
      ConstructHistogramInt8 SIZEOF_VAL_T get_unpaired_index data none
        start end_ packed_gradients packed_hessians packed_out ∧
    ConstructHistogramInt16 SIZEOF_VAL_T get_unpaired_index data (some data_indices)
        start end_ packed_gradients packed_hessians packed_out =
      ConstructHistogramInt16 SIZEOF_VAL_T get_unpaired_index data none
        start end_ packed_gradients packed_hessians packed_out ∧
    ConstructHistogramInt32 SIZEOF_VAL_T get_unpaired_index data (some data_indices)
        start end_ packed_gradients packed_hessians packed_out =
      ConstructHistogramInt32 SIZEOF_VAL_T get_unpaired_index data none
        start end_ packed_gradients packed_hessians packed_out := by
  refine ⟨?_, ?_, ?_, ?_⟩
  · cases ordered_hessians <;> simp only [ConstructHistogram] <;>
      exact ConstructHistogramInner_identity_indices add incr SIZEOF_VAL_T
        get_unpaired_index data _ data_indices start end_ ordered_gradients _ out hid
  · cases packed_hessians <;> simp only [ConstructHistogramInt8] <;>
      exact ConstructHistogramIntInner_identity_indices SIZEOF_VAL_T get_unpaired_index
        data _ _ _ data_indices start end_ packed_gradients packed_out hid
  · cases packed_hessians <;> simp only [ConstructHistogramInt16] <;>
      exact ConstructHistogramIntInner_identity_indices SIZEOF_VAL_T get_unpaired_index
        data _ _ _ data_indices start end_ packed_gradients packed_out hid
  · cases packed_hessians <;> simp only [ConstructHistogramInt32] <;>
      exact ConstructHistogramIntInner_identity_indices SIZEOF_VAL_T get_unpaired_index
        data _ _ _ data_indices start end_ packed_gradients packed_out hid

/-- Witness of C21: a range of three positions, shorter than the look-ahead distance 64,
with the indices `0, 1, 2`; float entry point in hessian mode, natural-number
arithmetic. -/
theorem prefetch_has_no_effect_witness :
    (∀ i, 0 ≤ i → i < 3 → (fun j : Nat => j) i = i) ∧
    ConstructHistogram (fun (x y : Nat) => x + y) id 1 id (fun idx => idx % 4)
        (some (fun j => j)) 0 3 (fun _ => 5) (some (fun _ => 7)) (fun _ => 0) =
      ConstructHistogram (fun (x y : Nat) => x + y) id 1 id (fun idx => idx % 4)
        none 0 3 (fun _ => 5) (some (fun _ => 7)) (fun _ => 0) :=
  ⟨fun _ _ _ => rfl,
   (prefetch_has_no_effect (fun (x y : Nat) => x + y) id 1 id (fun idx => idx % 4)
      (fun j => j) 0 3 (fun _ => 5) (some (fun _ => 7)) (fun _ => 0) (fun _ => 0) none
      (fun _ => 0) (fun _ _ _ => rfl)).1⟩

/-- C22. When the most-frequent bin absorbs the missing semantics (policy `Zero` with
`default_bin == most_freq_bin`, or policy `NaN` with `max_bin == most_freq_bin + min_bin`,
a `uint32_t` sum, and `most_freq_bin > 0`), `Split` routes every pair of the default
bucket by `default_left` alone: such a pair is placed in `lte` if and only if
`default_left` is true, and in `gt` if and only if it is false, whatever the threshold
and whether `most_freq_bin <= threshold` or not. The default bucket is, when
`min_bin < max_bin`, a bin code outside `[min_bin, max_bin]` (the bin code `0` in the
overload without a `min_bin` argument) and, in the degenerate path, every bin code other
than `max_bin`. `max_bin` is a value of `VAL_T`; `min_bin` is `1` in the overload without
a `min_bin` argument. -/
theorem Split_default_bucket_absorbed (VAL_BITS : Nat) (get_unpaired_index data : Nat → Nat)
    (min_bin : Option Nat) (max_bin default_bin most_freq_bin : Nat)
    (missing_type : MissingType) (default_left : Bool) (threshold : Nat)
    (data_indices : Nat → Nat) (cnt : Nat) (lte_indices gt_indices : Nat → Nat)
    (i : Nat) (hi : i < cnt)
    (hmax : max_bin < 2 ^ VAL_BITS)
    (habsorb : (missing_type = MissingType.Zero ∧ default_bin = most_freq_bin) ∨
      (missing_type = MissingType.NaN ∧
        max_bin = (most_freq_bin + min_bin.getD 1) % 2 ^ 32 ∧ most_freq_bin > 0))
    (hbucket : (min_bin.getD 1 < max_bin ∧
        default_bucket min_bin max_bin (data (get_unpaired_index (data_indices i)))) ∨
      (¬ min_bin.getD 1 < max_bin ∧
        data (get_unpaired_index (data_indices i)) ≠ max_bin)) :
    (data_indices i ∈ (Split VAL_BITS get_unpaired_index data min_bin max_bin default_bin
        most_freq_bin missing_type default_left threshold data_indices cnt lte_indices
        gt_indices).lte ↔ default_left = true) ∧
    (data_indices i ∈ (Split VAL_BITS get_unpaired_index data min_bin max_bin default_bin
        most_freq_bin missing_type default_left threshold data_indices cnt lte_indices
        gt_indices).gt ↔ default_left = false) := by
  obtain ⟨h1, h2⟩ := Split_mem_iff VAL_BITS get_unpaired_index data min_bin max_bin
    default_bin most_freq_bin missing_type default_left threshold data_indices cnt
    lte_indices gt_indices i hi
  rw [h1, h2]
  generalize data (get_unpaired_index (data_indices i)) = bin at hbucket
  have hroute : ∃ z n : Bool, (z || n) = true ∧
      Split_route VAL_BITS min_bin max_bin default_bin most_freq_bin missing_type
        default_left threshold bin = SplitInner_missing_default_side z n default_left := by
    cases min_bin with
    | none =>
      simp only [Option.getD_none] at habsorb hbucket
      rcases habsorb with ⟨hz, hd⟩ | ⟨hn, hm⟩
      · subst hz
        refine ⟨true, false, rfl, ?_⟩
        rcases hbucket with ⟨hmm, hb⟩ | ⟨hmm, hb⟩
        · simp only [default_bucket] at hb
          simp [Split_route, SplitInner_route, SplitInner_side, static_cast,
            Nat.mod_eq_of_lt hmax, hmm, hb, hd]
        · simp [Split_route, SplitInner_route, SplitInner_side_degenerate, static_cast,
            Nat.mod_eq_of_lt hmax, hmm, hb, hd]
      · subst hn
        refine ⟨false, true, rfl, ?_⟩
        simp only [Split_route, if_pos hm]
        rcases hbucket with ⟨hmm, hb⟩ | ⟨hmm, hb⟩
        · simp only [default_bucket] at hb
          simp [SplitInner_route, SplitInner_side, static_cast,
            Nat.mod_eq_of_lt hmax, hmm, hb]
        · simp [SplitInner_route, SplitInner_side_degenerate, static_cast,
            Nat.mod_eq_of_lt hmax, hmm, hb]
    | some m =>
      simp only [Option.getD_some] at habsorb hbucket
      rcases habsorb with ⟨hz, hd⟩ | ⟨hn, hm⟩
      · subst hz
        refine ⟨true, false, rfl, ?_⟩
        rcases hbucket with ⟨hmm, hb⟩ | ⟨hmm, hb⟩
        · simp only [default_bucket] at hb
          have hmin : m < 2 ^ VAL_BITS := by omega
          have hout : bin < m ∨ max_bin < bin := hb
          simp [Split_route, SplitInner_route, SplitInner_side, static_cast,
            Nat.mod_eq_of_lt hmax, Nat.mod_eq_of_lt hmin, hmm, hout, hd]
        · simp [Split_route, SplitInner_route, SplitInner_side_degenerate, static_cast,
            Nat.mod_eq_of_lt hmax, hmm, hb, hd]
      · subst hn
        refine ⟨false, true, rfl, ?_⟩
        simp only [Split_route, if_pos hm]
        rcases hbucket with ⟨hmm, hb⟩ | ⟨hmm, hb⟩
        · simp only [default_bucket] at hb
          have hmin : m < 2 ^ VAL_BITS := by omega
          have hout : bin < m ∨ max_bin < bin := hb
          simp [SplitInner_route, SplitInner_side, static_cast,
            Nat.mod_eq_of_lt hmax, Nat.mod_eq_of_lt hmin, hmm, hout]
        · simp [SplitInner_route, SplitInner_side_degenerate, static_cast,
            Nat.mod_eq_of_lt hmax, hmm, hb]
  obtain ⟨z, n, hzn, hr⟩ := hroute
  rw [hr]
  exact missing_default_side_iff z n default_left hzn

/-- Witness of C22: policy `NaN`, `VAL_T = uint8_t`, `min_bin = 1`, `max_bin = 4`,
`most_freq_bin = 3`, `threshold = 0`; the pair `0` has bin `0 < min_bin` and, with
`default_left` set, goes to `lte` although `most_freq_bin > threshold`. -/
theorem Split_default_bucket_absorbed_witness :
    ((0 : Nat) < 1 ∧ 4 < 2 ^ 8 ∧
      (4 = (3 + (some 1).getD 1) % 2 ^ 32 ∧ 3 > 0) ∧
      (some 1).getD 1 < 4 ∧ default_bucket (some 1) 4 (id (id (id 0)))) ∧
    id 0 ∈ (Split 8 id id (some 1) 4 0 3 MissingType.NaN true 0 id 1
      (fun _ => 0) (fun _ => 0)).lte :=
  ⟨⟨by decide, by decide, by decide, by decide, Or.inl (by decide)⟩,
   (Split_default_bucket_absorbed 8 id id (some 1) 4 0 3 MissingType.NaN true 0 id 1
      (fun _ => 0) (fun _ => 0) 0 (by decide) (by decide)
      (Or.inr ⟨rfl, by decide, by decide⟩)
      (Or.inl ⟨by decide, Or.inl (by decide)⟩)).1.mpr rfl⟩

/-! ## Count mode of the packed entry points -/

/-- A call of `ConstructHistogramIntInner` over the single position `i` adds
`gradient_packed` to the cell of the bin of that position and changes no other cell. -/
theorem ConstructHistogramIntInner_single (SIZEOF_VAL_T : Nat)
    (get_unpaired_index data : Nat → Nat)
    (USE_INDICES USE_PREFETCH USE_HESSIAN : Bool) (PACKED_BITS HIST_BITS : Nat)
    (data_indices : Option (Nat → Nat)) (ordered_gradients : Nat → Int)
    (i : Nat) (out : Nat → Int) :
    ConstructHistogramIntInner SIZEOF_VAL_T get_unpaired_index data USE_INDICES USE_PREFETCH
        USE_HESSIAN PACKED_BITS HIST_BITS data_indices i (i + 1) ordered_gradients out =
      store out
        (static_cast 32 (resolved_bin get_unpaired_index data USE_INDICES data_indices i))
        (static_cast_int PACKED_BITS
          (out (static_cast 32
              (resolved_bin get_unpaired_index data USE_INDICES data_indices i)) +
            gradient_packed USE_HESSIAN PACKED_BITS HIST_BITS
              (static_cast_int 16 (ordered_gradients i)))) := by
  rw [ConstructHistogramIntInner_eq_forLoop]
  have h1 : i + 1 - i = 1 := by omega
  rw [h1]
  rfl

/-- The cell `k` after `ConstructHistogramIntInner` over a range: the fold, from the
initial value, of the wrap-around addition of `gradient_packed` over the positions of the
range whose bin is `k`, in increasing order. -/
theorem ConstructHistogramIntInner_cell_fold (SIZEOF_VAL_T : Nat)
    (get_unpaired_index data : Nat → Nat)
    (USE_INDICES USE_PREFETCH USE_HESSIAN : Bool) (PACKED_BITS HIST_BITS : Nat)
    (data_indices : Option (Nat → Nat)) (start end_ : Nat) (ordered_gradients : Nat → Int)
    (out : Nat → Int) (k : Nat) :
    ConstructHistogramIntInner SIZEOF_VAL_T get_unpaired_index data USE_INDICES USE_PREFETCH
        USE_HESSIAN PACKED_BITS HIST_BITS data_indices start end_ ordered_gradients out k =
      ((List.range' start (end_ - start)).filter
        (fun j => decide (static_cast 32
          (resolved_bin get_unpaired_index data USE_INDICES data_indices j) = k))).foldl
        (fun acc j => static_cast_int PACKED_BITS (acc +
          gradient_packed USE_HESSIAN PACKED_BITS HIST_BITS
            (static_cast_int 16 (ordered_gradients j)))) (out k) := by
  rw [ConstructHistogramIntInner_eq_forLoop]
  exact forLoop_slot _ k
    (fun j => decide (static_cast 32
      (resolved_bin get_unpaired_index data USE_INDICES data_indices j) = k))
    (fun j acc => static_cast_int PACKED_BITS (acc +
      gradient_packed USE_HESSIAN PACKED_BITS HIST_BITS
        (static_cast_int 16 (ordered_gradients j))))
    (end_ - start) start out (fun j _ _ o =>
      ConstructHistogramIntInner_body_cell get_unpaired_index data USE_INDICES USE_HESSIAN
        PACKED_BITS HIST_BITS data_indices ordered_gradients j o k)

/-- The value added in count mode, for the three containers. -/
theorem gradient_packed_count (x : Int) :
    gradient_packed false 32 16 (static_cast_int 16 x) =
      static_cast_int 16 x / 256 * 2 ^ 16 + 1 ∧
    gradient_packed false 64 32 (static_cast_int 16 x) =
      static_cast_int 16 x / 256 * 2 ^ 32 + 1 ∧
    gradient_packed false 16 8 (static_cast_int 16 x) = static_cast_int 16 x ∧
    Int.lor ((static_cast_int 16 x / 256) <<< ((16 : Nat) : Int)) 1 =
      static_cast_int 16 x / 256 * 2 ^ 16 + 1 ∧
    Int.lor ((static_cast_int 16 x / 256) <<< ((32 : Nat) : Int)) 1 =
      static_cast_int 16 x / 256 * 2 ^ 32 + 1 ∧
    static_cast_int 16 x =
      static_cast_int 16 x / 256 * 2 ^ 8 + static_cast_int 16 x % 256 := by
  obtain ⟨hg1, hg2⟩ := static_cast_int_16_range x
  have h32 := gradient_packed_eq false 32 16 _ hg1 hg2 (Or.inr (Or.inl ⟨rfl, rfl⟩))
  have h64 := gradient_packed_eq false 64 32 _ hg1 hg2 (Or.inr (Or.inr ⟨rfl, rfl⟩))
  have h16 := gradient_packed_eq false 16 8 _ hg1 hg2 (Or.inl ⟨rfl, rfl⟩)
  generalize static_cast_int 16 x = g at hg1 hg2 h32 h64 h16
  have hl16 : Int.lor ((g / 256) <<< ((16 : Nat) : Int)) 1 = g / 256 * 2 ^ 16 + 1 := by
    rw [Int.shiftLeft_eq_mul_pow]
    have h := int_lor_shift 16 (g / 256) 1 (by decide) (by norm_num)
    simpa using h
  have hl32 : Int.lor ((g / 256) <<< ((32 : Nat) : Int)) 1 = g / 256 * 2 ^ 32 + 1 := by
    rw [Int.shiftLeft_eq_mul_pow]
    have h := int_lor_shift 32 (g / 256) 1 (by decide) (by norm_num)
    simpa using h
  have hsplit : g = g / 256 * 2 ^ 8 + g % 256 := by omega
  refine ⟨?_, ?_, ?_, hl16, hl32, hsplit⟩
  · rw [h32]; simp
  · rw [h64]; simp
  · rw [h16]
    simp only [or_true, if_true]
    omega

theorem foldl_count_lanes (bits : Nat) (c : Int) (ordered_gradients : Nat → Int)
    (l : List Nat) (h0 : static_cast_int bits 0 = 0) :
    l.foldl (fun acc j => static_cast_int bits
        (acc + (static_cast_int 16 (ordered_gradients j) / 256 * c + 1))) 0 =
      static_cast_int bits (high_byte_sum ordered_gradients l * c + (l.length : Int)) := by
  rw [foldl_static_cast_int_add bits
    (fun j => static_cast_int 16 (ordered_gradients j) / 256 * c + 1) l 0 h0,
    sum_map_lanes (fun j => static_cast_int 16 (ordered_gradients j) / 256) (fun _ => 1) c l]
  simp [high_byte_sum]

theorem foldl_packed_lanes (bits : Nat) (ordered_gradients : Nat → Int)
    (l : List Nat) (h0 : static_cast_int bits 0 = 0) :
    l.foldl (fun acc j => static_cast_int bits
        (acc + static_cast_int 16 (ordered_gradients j))) 0 =
      static_cast_int bits
        (high_byte_sum ordered_gradients l * 2 ^ 8 + low_byte_sum ordered_gradients l) := by
  have h : (fun j => static_cast_int 16 (ordered_gradients j)) =
      (fun j => static_cast_int 16 (ordered_gradients j) / 256 * 2 ^ 8 +
        static_cast_int 16 (ordered_gradients j) % 256) := by
    funext j
    have := Int.ediv_add_emod (static_cast_int 16 (ordered_gradients j)) 256
    omega
  rw [foldl_static_cast_int_add bits
    (fun j => static_cast_int 16 (ordered_gradients j)) l 0 h0, h,
    sum_map_lanes (fun j => static_cast_int 16 (ordered_gradients j) / 256)
      (fun j => static_cast_int 16 (ordered_gradients j) % 256) (2 ^ 8) l]
  simp [high_byte_sum, low_byte_sum]

/-- C8 (amended). In count mode (`ConstructHistogramInt8`, `ConstructHistogramInt16`,
`ConstructHistogramInt32` called without a hessian argument, with explicit indices or
over a contiguous range), for every 16-bit packed gradient `g` with sign-extended high
byte `g / 256`. With the 32-bit and the 64-bit container a call over one pair adds
`(sign_extend(high_byte) << HIST_BITS) | 1`, that is `(g / 256) * 2 ^ HIST_BITS + 1`, to
the cell of the bin of the pair and changes no other cell; a call over a range adds
that amount, with wrap-around in the cell type, once for every position whose bin is
`k` to the cell `k`; and from a zeroed buffer the cell `k` is, wrapped to the cell type,
the sum of the high bytes times `2 ^ HIST_BITS` plus the number of those positions: the
low lane grows by exactly `1` per processed pair, whatever the low byte of `g` is. With
the 16-bit container the amount added is `g` itself, that is
`(g / 256) * 2 ^ 8 + g % 256`, and from a zeroed buffer the cell `k` is the sum of the
high bytes times `2 ^ 8` plus the sum of the low bytes: the low lane grows by the low
byte of the supplied gradient. The 16-bit value read at `j` is
`static_cast_int 16 (ordered_gradients j)`, and the bin of `j` is a `uint32_t` value. -/
theorem ConstructHistogramInt_count_amount (SIZEOF_VAL_T : Nat)
    (get_unpaired_index data : Nat → Nat) (data_indices : Option (Nat → Nat))
    (start end_ : Nat) (ordered_gradients : Nat → Int) (out : Nat → Int) (i k : Nat) :
    (ConstructHistogramInt16 SIZEOF_VAL_T get_unpaired_index data data_indices i (i + 1)
        ordered_gradients none out =
      store out
        (static_cast 32
          (resolved_bin get_unpaired_index data data_indices.isSome data_indices i))
        (static_cast_int 32
          (out (static_cast 32
              (resolved_bin get_unpaired_index data data_indices.isSome data_indices i)) +
            Int.lor ((static_cast_int 16 (ordered_gradients i) / 256)
              <<< ((16 : Nat) : Int)) 1)) ∧
     Int.lor ((static_cast_int 16 (ordered_gradients i) / 256) <<< ((16 : Nat) : Int)) 1 =
       static_cast_int 16 (ordered_gradients i) / 256 * 2 ^ 16 + 1 ∧
     ConstructHistogramInt16 SIZEOF_VAL_T get_unpaired_index data data_indices start end_
        ordered_gradients none out k =
      ((List.range' start (end_ - start)).filter
        (fun j => decide (static_cast 32
          (resolved_bin get_unpaired_index data data_indices.isSome data_indices j)
            = k))).foldl
        (fun acc j => static_cast_int 32
          (acc + (static_cast_int 16 (ordered_gradients j) / 256 * 2 ^ 16 + 1)))
        (out k) ∧
     ConstructHistogramInt16 SIZEOF_VAL_T get_unpaired_index data data_indices start end_
        ordered_gradients none (fun _ => 0) k =
      static_cast_int 32
        (high_byte_sum ordered_gradients
            ((List.range' start (end_ - start)).filter
              (fun j => decide (static_cast 32
                (resolved_bin get_unpaired_index data data_indices.isSome data_indices j)
                  = k))) * 2 ^ 16 +
          (((List.range' start (end_ - start)).filter
            (fun j => decide (static_cast 32
              (resolved_bin get_unpaired_index data data_indices.isSome data_indices j)
                = k))).length : Int))) ∧
    (ConstructHistogramInt32 SIZEOF_VAL_T get_unpaired_index data data_indices i (i + 1)
        ordered_gradients none out =
      store out
        (static_cast 32
          (resolved_bin get_unpaired_index data data_indices.isSome data_indices i))
        (static_cast_int 64
          (out (static_cast 32
              (resolved_bin get_unpaired_index data data_indices.isSome data_indices i)) +
            Int.lor ((static_cast_int 16 (ordered_gradients i) / 256)
              <<< ((32 : Nat) : Int)) 1)) ∧
     Int.lor ((static_cast_int 16 (ordered_gradients i) / 256) <<< ((32 : Nat) : Int)) 1 =
       static_cast_int 16 (ordered_gradients i) / 256 * 2 ^ 32 + 1 ∧
     ConstructHistogramInt32 SIZEOF_VAL_T get_unpaired_index data data_indices start end_
        ordered_gradients none out k =
      ((List.range' start (end_ - start)).filter
        (fun j => decide (static_cast 32
          (resolved_bin get_unpaired_index data data_indices.isSome data_indices j)
            = k))).foldl
        (fun acc j => static_cast_int 64
          (acc + (static_cast_int 16 (ordered_gradients j) / 256 * 2 ^ 32 + 1)))
        (out k) ∧
     ConstructHistogramInt32 SIZEOF_VAL_T get_unpaired_index data data_indices start end_
        ordered_gradients none (fun _ => 0) k =
      static_cast_int 64
        (high_byte_sum ordered_gradients
            ((List.range' start (end_ - start)).filter
              (fun j => decide (static_cast 32
                (resolved_bin get_unpaired_index data data_indices.isSome data_indices j)
                  = k))) * 2 ^ 32 +
          (((List.range' start (end_ - start)).filter
            (fun j => decide (static_cast 32
              (resolved_bin get_unpaired_index data data_indices.isSome data_indices j)
                = k))).length : Int))) ∧
    (ConstructHistogramInt8 SIZEOF_VAL_T get_unpaired_index data data_indices i (i + 1)
        ordered_gradients none out =
      store out
        (static_cast 32
          (resolved_bin get_unpaired_index data data_indices.isSome data_indices i))
        (static_cast_int 16
          (out (static_cast 32
              (resolved_bin get_unpaired_index data data_indices.isSome data_indices i)) +
            static_cast_int 16 (ordered_gradients i))) ∧
     static_cast_int 16 (ordered_gradients i) =
       static_cast_int 16 (ordered_gradients i) / 256 * 2 ^ 8 +
         static_cast_int 16 (ordered_gradients i) % 256 ∧
     ConstructHistogramInt8 SIZEOF_VAL_T get_unpaired_index data data_indices start end_
        ordered_gradients none out k =
      ((List.range' start (end_ - start)).filter
        (fun j => decide (static_cast 32
          (resolved_bin get_unpaired_index data data_indices.isSome data_indices j)
            = k))).foldl
        (fun acc j => static_cast_int 16
          (acc + static_cast_int 16 (ordered_gradients j)))
        (out k) ∧
     ConstructHistogramInt8 SIZEOF_VAL_T get_unpaired_index data data_indices start end_
        ordered_gradients none (fun _ => 0) k =
      static_cast_int 16
        (high_byte_sum ordered_gradients
            ((List.range' start (end_ - start)).filter
              (fun j => decide (static_cast 32
                (resolved_bin get_unpaired_index data data_indices.isSome data_indices j)
                  = k))) * 2 ^ 8 +
          low_byte_sum ordered_gradients
            ((List.range' start (end_ - start)).filter
              (fun j => decide (static_cast 32
                (resolved_bin get_unpaired_index data data_indices.isSome data_indices j)
                  = k))))) := by
  have hc := fun x => gradient_packed_count x
  have h32 : static_cast_int 32 0 = 0 := by decide
  have h64 : static_cast_int 64 0 = 0 := by decide
  have h16 : static_cast_int 16 0 = 0 := by decide
  refine ⟨⟨?_, (hc _).2.2.2.1, ?_, ?_⟩, ⟨?_, (hc _).2.2.2.2.1, ?_, ?_⟩,
    ⟨?_, (hc _).2.2.2.2.2, ?_, ?_⟩⟩
  · cases data_indices <;>
      simp only [ConstructHistogramInt16, ConstructHistogramIntInner_single,
        Option.isSome_none, Option.isSome_some, (hc _).1, (hc _).2.2.2.1]
  · cases data_indices <;>
      simp only [ConstructHistogramInt16, ConstructHistogramIntInner_cell_fold,
        Option.isSome_none, Option.isSome_some, (hc _).1]
  · cases data_indices <;>
      simp only [ConstructHistogramInt16, ConstructHistogramIntInner_cell_fold,
        Option.isSome_none, Option.isSome_some, (hc _).1,
        foldl_count_lanes 32 (2 ^ 16) ordered_gradients _ h32]
  · cases data_indices <;>
      simp only [ConstructHistogramInt32, ConstructHistogramIntInner_single,
        Option.isSome_none, Option.isSome_some, (hc _).2.1, (hc _).2.2.2.2.1]
  · cases data_indices <;>
      simp only [ConstructHistogramInt32, ConstructHistogramIntInner_cell_fold,
        Option.isSome_none, Option.isSome_some, (hc _).2.1]
  · cases data_indices <;>
      simp only [ConstructHistogramInt32, ConstructHistogramIntInner_cell_fold,
        Option.isSome_none, Option.isSome_some, (hc _).2.1,
        foldl_count_lanes 64 (2 ^ 32) ordered_gradients _ h64]
  · cases data_indices <;>
      simp only [ConstructHistogramInt8, ConstructHistogramIntInner_single,
        Option.isSome_none, Option.isSome_some, (hc _).2.2.1]
  · cases data_indices <;>
      simp only [ConstructHistogramInt8, ConstructHistogramIntInner_cell_fold,
        Option.isSome_none, Option.isSome_some, (hc _).2.2.1]
  · cases data_indices <;>
      simp only [ConstructHistogramInt8, ConstructHistogramIntInner_cell_fold,
        Option.isSome_none, Option.isSome_some, (hc _).2.2.1,
        foldl_packed_lanes 16 ordered_gradients _ h16]

end LightGBM
